import Mathlib

/-!
# Gunborg static evaluation (`eval.cpp`): a shallow embedding

The evaluator of the Gunborg chess engine is embedded as pure Lean functions.

* A bitboard (`uint64_t`) is a natural number below `2 ^ 64`; the unsigned operations that can
  leave that range (`<<`, `~`) are reduced modulo `2 ^ 64` explicitly.
* `int` values are unbounded integers (`Int`); `/` on `int` is C++ truncating division
  (`Int.tdiv`).  The scores of the evaluator are far from the 32-bit limits.
* `double` values are modelled by an ordered field `K` (exact arithmetic); the shaping function
  `sigmoid` is a parameter of the table generator.
* The global tables written by `init_eval` are the record `Tables`; `init_eval` is a state
  transformer on it and `evaluate` reads it.
* A shift of a 64-bit value by an amount outside `0..63` is undefined in C++; `evaluate`
  returns `none` there.
* Constants, tables and helpers that `eval.cpp` takes from `board.h`, `eval.h`, `magic.h` and
  `moves.cpp` are either fields of `EvalParams` or are modelled from the specification, which
  is said at each such definition.
-/

set_option maxRecDepth 100000

namespace Gunborg

/-! ## Board representation (`board.h`) -/

/-- Side index of the arrays `p[side][piece]` and of the piece-square tables. -/
inductive Side where
  | WHITE : Side
  | BLACK : Side
  deriving DecidableEq, Repr

/-- Piece index of the arrays `p[side][piece]`. -/
inductive Piece where
  | PAWN : Piece
  | KNIGHT : Piece
  | BISHOP : Piece
  | ROOK : Piece
  | QUEEN : Piece
  | KING : Piece
  deriving DecidableEq, Repr

open Side Piece

/-- The board snapshot `Position`: one 64-bit bitboard per side and piece kind. -/
structure Position where
  p : Side → Piece → Nat

/-- Every bitboard of the position is a 64-bit value. -/
def Position.wf (position : Position) : Prop :=
  ∀ s k, position.p s k < 2 ^ 64

/-- Modelled from the spec: the constant `A_FILE` of board.h (not among the sources): the squares of
file index 0; `evaluate` masks it out before the shift `<< 7` that moves one file down. -/
def A_FILE : Nat := 0x0101010101010101

/-- Modelled from the spec: the constant `H_FILE` of board.h (not among the sources): the squares of
file index 7; `evaluate` masks it out before the shift `<< 9` that moves one file up. -/
def H_FILE : Nat := 0x8080808080808080

/-- Modelled from the spec: the constant `ROW_2` of board.h (not among the sources): the eight squares
of row index 1 (squares 8..15). -/
def ROW_2 : Nat := 0x000000000000FF00

/-- Modelled from the spec: the constant `ROW_7` of board.h (not among the sources): the eight squares
of row index 6 (squares 48..55). -/
def ROW_7 : Nat := 0x00FF000000000000

/-- The operator `~` on `uint64_t`. -/
def not64 (x : Nat) : Nat := x ^^^ (2 ^ 64 - 1)

/-- The operator `<<` on `uint64_t` for a shift amount in `0..63`. -/
def shl64 (x n : Nat) : Nat := (x <<< n) % 2 ^ 64

/-- Modelled from the spec: the population-count primitive `pop_count` of board.h (not among the
sources): the number of set bits of a 64-bit bitboard, as an `int`. -/
def pop_count (b : Nat) : Int :=
  (((List.range 64).filter (fun i => b.testBit i)).length : Nat)

/-- Scan upward from bit `i` for the first set bit, looking at no more than `fuel` bits. -/
def lsb_scan (b : Nat) : Nat → Nat → Nat
  | 0, i => i
  | fuel + 1, i => if b.testBit i then i else lsb_scan b fuel (i + 1)

/-- Modelled from the spec: the bit-scan primitive `lsb_to_square` of board.h (not among the
sources): the square index of the lowest set bit of a non-zero 64-bit bitboard. -/
def lsb_to_square (b : Nat) : Nat := lsb_scan b 64 0

/-- Modelled from the spec: the bit-clear primitive `reset_lsb` of board.h (not among the sources):
the bitboard with its lowest set bit cleared. -/
def reset_lsb (b : Nat) : Nat := b ^^^ 2 ^ lsb_to_square b

/-- The loop `while (b) { int i = lsb_to_square(b); <step>; b = reset_lsb(b); }` over the set bits
of a bitboard; `s` is the state the body updates.  A 64-bit bitboard is exhausted after 64
rounds, which is the fuel `evaluate` passes. -/
def bit_loop {σ : Type} (step : σ → Nat → σ) : Nat → Nat → σ → σ
  | 0, _, s => s
  | fuel + 1, b, s =>
    if b = 0 then s else bit_loop step fuel (reset_lsb b) (step s (lsb_to_square b))

/-- Modelled from the spec: `south_fill` of moves.cpp (declared in moves.h, body not among the
sources): floods a bitboard downward (toward row 0) along files. -/
def south_fill (l : Nat) : Nat :=
  let l := l ||| (l >>> 8)
  let l := l ||| (l >>> 16)
  l ||| (l >>> 32)

/-- Modelled from the spec: `north_fill` of moves.cpp (declared in moves.h, body not among the
sources): floods a bitboard upward (toward row 7) along files. -/
def north_fill (l : Nat) : Nat :=
  let l := l ||| shl64 l 8
  let l := l ||| shl64 l 16
  l ||| shl64 l 32

/-- The inline function `file_fill` of moves.h. -/
def file_fill (l : Nat) : Nat := south_fill l ||| north_fill l

/-- A square index `0..63` as an index of a 64-entry table. -/
def sq (i : Nat) : Fin 64 := ⟨i % 64, Nat.mod_lt _ (by decide)⟩

/-! ## Parameters (`eval.h`, `magic.h`) and tables -/

/-- The tuning constants and hand-supplied tables of eval.h and the sliding-attack generators of
magic.h.  None of them is among the sources, so they are parameters of the model. -/
structure EvalParams where
  PASSED_PAWN_BONUS : Int
  DOUBLED_PAWN_PENALTY : Int
  ISOLATED_PAWN_PENALTY : Int
  BACKWARD_PAWN_PENALTY : Int
  UNSAFE_KING_PENALTY : Int
  BISHOP_PAIR_BONUS : Int
  BISHOP_MOBILITY_BONUS : Int
  ROOK_MOBILITY_BONUS : Int
  BISHOP_KING_PROXIMITY_BONUS : Int
  KNIGHT_KING_PROXIMITY_BONUS : Int
  ROOK_KING_PROXIMITY_BONUS : Int
  QUEEN_KING_PROXIMITY_BONUS : Int
  OPEN_FILE_BONUS : Int
  SEMI_OPEN_FILE_BONUS : Int
  KING_SQUARE_TABLE : Fin 64 → Int
  ROOK_SQUARE_TABLE : Fin 64 → Int
  KNIGHT_PSQT_BASE_VALUE : Int
  KNIGHT_CENTER_BONUS : Int
  KNIGHT_CENTER_S_MAX : Int
  KNIGHT_OPPONENT_BACK_ROW_BONUS : Int
  KNIGHT_OPPONENT_BACK_ROW_S_MAX : Int
  BISHOP_PSQT_BASE_VALUE : Int
  BISHOP_CENTER_BONUS : Int
  BISHOP_CENTER_S_MAX : Int
  BISHOP_OPPONENT_BACK_ROW_BONUS : Int
  BISHOP_OPPONENT_BACK_ROW_S_MAX : Int
  KING_PSQT_BASE_VALUE_EG : Int
  KING_CENTER_BONUS_EG : Int
  KING_CENTER_S_MAX_EG : Int
  KING_OPPONENT_BACK_ROW_BONUS_EG : Int
  KING_OPPONENT_BACK_ROW_S_MAX_EG : Int
  PAWN_PSQT_BASE_VALUE_MG : Int
  PAWN_CENTER_BONUS_MG : Int
  PAWN_CENTER_S_MAX_MG : Int
  PAWN_OPPONENT_BACK_ROW_BONUS_MG : Int
  PAWN_OPPONENT_BACK_ROW_S_MAX_MG : Int
  PAWN_PSQT_BASE_VALUE_EG : Int
  PAWN_CENTER_BONUS_EG : Int
  PAWN_CENTER_S_MAX_EG : Int
  PAWN_OPPONENT_BACK_ROW_BONUS_EG : Int
  PAWN_OPPONENT_BACK_ROW_S_MAX_EG : Int
  QUEEN_PSQT_BASE_VALUE : Int
  QUEEN_CENTER_BONUS : Int
  QUEEN_CENTER_S_MAX : Int
  QUEEN_OPPONENT_BACK_ROW_BONUS : Int
  QUEEN_OPPONENT_BACK_ROW_S_MAX : Int
  bishop_attacks : Nat → Nat → Nat
  rook_attacks : Nat → Nat → Nat

/-- The constant `MAX_MATERIAL` of eval.cpp. -/
def MAX_MATERIAL : Int := 3100

/-- The global tables of eval.cpp: `square_proximity[64][64]` and the seven piece-square tables
`[WHITE|BLACK][64]`. -/
@[ext]
structure Tables where
  square_proximity : Fin 64 → Fin 64 → Int
  pawn_square_table : Side → Fin 64 → Int
  pawn_square_table_endgame : Side → Fin 64 → Int
  knight_square_table : Side → Fin 64 → Int
  bishop_square_table : Side → Fin 64 → Int
  rook_square_table : Side → Fin 64 → Int
  queen_square_table : Side → Fin 64 → Int
  king_square_table_endgame : Side → Fin 64 → Int

/-- The assignment `a[s][i] = v` to a two-dimensional table. -/
def set2 {α : Type} [DecidableEq α] (a : α → Fin 64 → Int) (s : α) (i : Fin 64) (v : Int) :
    α → Fin 64 → Int :=
  Function.update a s (Function.update (a s) i v)

/-! ## Table generator -/

/-- The conversion `(int) x` of a `double`: truncation toward zero. -/
def trunc_to_int {K : Type} [LinearOrderedField K] [FloorRing K] (x : K) : Int :=
  if 0 ≤ x then ⌊x⌋ else ⌈x⌉

/-- The function `calculate_square_value` of eval.cpp, over a field `K` standing for `double`
and with the shaping function `sigmoid` as a parameter. -/
def calculate_square_value {K : Type} [LinearOrderedField K] [FloorRing K]
    (sigmoid : K → K → K)
    (base_piece_value center_bonus center_s_max opponent_back_row_bonus back_row_s_max : Int)
    (side : Side) (square : Int) : Int :=
  let square_value : K := (base_piece_value : K)
  let row : Int := if side = WHITE then square.tdiv 8 else 7 - square.tdiv 8
  let col : Int := if side = WHITE then square.tmod 8 else square.tmod 8
  let AVG_CENTER_DISTANCE : K := 7 / 2
  let center_proximity : K :=
    2 - max |(row : K) - AVG_CENTER_DISTANCE| |(col : K) - AVG_CENTER_DISTANCE|
  let square_value := square_value + (center_bonus : K) * sigmoid center_proximity (center_s_max : K)
  let AVG_OPPONENT_BACK_ROW_DISTANCE : K := 7 / 2
  let opponent_back_row_proximity : K := (row : K) - AVG_OPPONENT_BACK_ROW_DISTANCE
  let square_value :=
    square_value
      + (opponent_back_row_bonus : K) * sigmoid opponent_back_row_proximity (back_row_s_max : K)
  trunc_to_int (square_value + 1 / 2)

/-- The function `generate_piece_square_table` of eval.cpp: the loop over `i = 0..63` that writes
`psqt[WHITE][i]` and `psqt[BLACK][i]`. -/
def generate_piece_square_table {K : Type} [LinearOrderedField K] [FloorRing K]
    (sigmoid : K → K → K) (psqt : Side → Fin 64 → Int)
    (piece_value center_bonus center_s_max opponent_back_row_bonus backrow_s_max : Int) :
    Side → Fin 64 → Int :=
  (List.finRange 64).foldl
    (fun psqt i =>
      let psqt := set2 psqt WHITE i
        (calculate_square_value sigmoid piece_value center_bonus center_s_max
          opponent_back_row_bonus backrow_s_max WHITE (i.val : Int))
      set2 psqt BLACK i
        (calculate_square_value sigmoid piece_value center_bonus center_s_max
          opponent_back_row_bonus backrow_s_max BLACK (i.val : Int)))
    psqt

/-- The value `7 - max(|file_i - file_j|, |row_i - row_j|)` that `init_eval` stores in
`square_proximity[i][j]`. -/
def proximity_value (i j : Fin 64) : Int :=
  let row_i : Int := ((i.val / 8 : Nat) : Int)
  let file_i : Int := ((i.val % 8 : Nat) : Int)
  let row_j : Int := ((j.val / 8 : Nat) : Int)
  let file_j : Int := ((j.val % 8 : Nat) : Int)
  7 - max |file_i - file_j| |row_i - row_j|

/-- The function `init_eval` of eval.cpp as a transformer of the global tables: the double loop
that fills `square_proximity` and the rook tables, then the six table generations. -/
def init_eval {K : Type} [LinearOrderedField K] [FloorRing K]
    (sigmoid : K → K → K) (env : EvalParams) (t : Tables) : Tables :=
  let t := (List.finRange 64).foldl
    (fun t i =>
      let t := (List.finRange 64).foldl
        (fun t j =>
          { t with square_proximity := set2 t.square_proximity i j (proximity_value i j) })
        t
      let t :=
        { t with rook_square_table := set2 t.rook_square_table WHITE i (env.ROOK_SQUARE_TABLE i) }
      { t with
        rook_square_table := set2 t.rook_square_table BLACK i (env.ROOK_SQUARE_TABLE (Fin.rev i)) })
    t
  let t :=
    { t with
      knight_square_table :=
        generate_piece_square_table sigmoid t.knight_square_table env.KNIGHT_PSQT_BASE_VALUE
          env.KNIGHT_CENTER_BONUS env.KNIGHT_CENTER_S_MAX
          env.KNIGHT_OPPONENT_BACK_ROW_BONUS env.KNIGHT_OPPONENT_BACK_ROW_S_MAX }
  let t :=
    { t with
      bishop_square_table :=
        generate_piece_square_table sigmoid t.bishop_square_table env.BISHOP_PSQT_BASE_VALUE
          env.BISHOP_CENTER_BONUS env.BISHOP_CENTER_S_MAX
          env.BISHOP_OPPONENT_BACK_ROW_BONUS env.BISHOP_OPPONENT_BACK_ROW_S_MAX }
  let t :=
    { t with
      king_square_table_endgame :=
        generate_piece_square_table sigmoid t.king_square_table_endgame env.KING_PSQT_BASE_VALUE_EG
          env.KING_CENTER_BONUS_EG env.KING_CENTER_S_MAX_EG
          env.KING_OPPONENT_BACK_ROW_BONUS_EG env.KING_OPPONENT_BACK_ROW_S_MAX_EG }
  let t :=
    { t with
      pawn_square_table :=
        generate_piece_square_table sigmoid t.pawn_square_table env.PAWN_PSQT_BASE_VALUE_MG
          env.PAWN_CENTER_BONUS_MG env.PAWN_CENTER_S_MAX_MG
          env.PAWN_OPPONENT_BACK_ROW_BONUS_MG env.PAWN_OPPONENT_BACK_ROW_S_MAX_MG }
  let t :=
    { t with
      pawn_square_table_endgame :=
        generate_piece_square_table sigmoid t.pawn_square_table_endgame env.PAWN_PSQT_BASE_VALUE_EG
          env.PAWN_CENTER_BONUS_EG env.PAWN_CENTER_S_MAX_EG
          env.PAWN_OPPONENT_BACK_ROW_BONUS_EG env.PAWN_OPPONENT_BACK_ROW_S_MAX_EG }
  { t with
      queen_square_table :=
        generate_piece_square_table sigmoid t.queen_square_table env.QUEEN_PSQT_BASE_VALUE
          env.QUEEN_CENTER_BONUS env.QUEEN_CENTER_S_MAX
          env.QUEEN_OPPONENT_BACK_ROW_BONUS env.QUEEN_OPPONENT_BACK_ROW_S_MAX }

/-! ## Position scorer -/

/-- Local `black_squares` of `evaluate`. -/
def black_squares (position : Position) : Nat :=
  position.p BLACK KING ||| position.p BLACK PAWN ||| position.p BLACK KNIGHT
    ||| position.p BLACK BISHOP ||| position.p BLACK ROOK ||| position.p BLACK QUEEN

/-- Local `white_squares` of `evaluate`. -/
def white_squares (position : Position) : Nat :=
  position.p WHITE KING ||| position.p WHITE PAWN ||| position.p WHITE KNIGHT
    ||| position.p WHITE BISHOP ||| position.p WHITE ROOK ||| position.p WHITE QUEEN

/-- Local `occupied_squares` of `evaluate`. -/
def occupied_squares (position : Position) : Nat :=
  black_squares position ||| white_squares position

/-- Local `white_piece_material` of `evaluate`. -/
def white_piece_material (position : Position) : Int :=
  pop_count (position.p WHITE QUEEN) * 900
    + pop_count (position.p WHITE ROOK) * 500
    + pop_count (position.p WHITE BISHOP) * 300
    + pop_count (position.p WHITE KNIGHT) * 300

/-- Local `black_piece_material` of `evaluate`. -/
def black_piece_material (position : Position) : Int :=
  pop_count (position.p BLACK QUEEN) * 900
    + pop_count (position.p BLACK ROOK) * 500
    + pop_count (position.p BLACK BISHOP) * 300
    + pop_count (position.p BLACK KNIGHT) * 300

/-- Local `total_material` of `evaluate`. -/
def total_material (position : Position) : Int :=
  white_piece_material position + black_piece_material position

/-- Local `white_pawn_protection_squares` of `evaluate`. -/
def white_pawn_protection_squares (position : Position) : Nat :=
  shl64 (position.p WHITE PAWN &&& not64 A_FILE) 7
    ||| shl64 (position.p WHITE PAWN &&& not64 H_FILE) 9

/-- Local `black_pawn_protection_squares` of `evaluate`. -/
def black_pawn_protection_squares (position : Position) : Nat :=
  ((position.p BLACK PAWN &&& not64 A_FILE) >>> 9)
    ||| ((position.p BLACK PAWN &&& not64 H_FILE) >>> 7)

/-- Local `black_pawn_blocking_squares` of `evaluate`. -/
def black_pawn_blocking_squares (position : Position) : Nat :=
  south_fill ((position.p BLACK PAWN >>> 8) ||| black_pawn_protection_squares position)

/-- Local `white_pawn_blocking_squares` of `evaluate`. -/
def white_pawn_blocking_squares (position : Position) : Nat :=
  north_fill (shl64 (position.p WHITE PAWN) 8 ||| white_pawn_protection_squares position)

/-- Local `white_pawn_files` of `evaluate`. -/
def white_pawn_files (position : Position) : Nat := file_fill (position.p WHITE PAWN)

/-- Local `black_pawn_files` of `evaluate`. -/
def black_pawn_files (position : Position) : Nat := file_fill (position.p BLACK PAWN)

/-- Local `open_files` of `evaluate`. -/
def open_files (position : Position) : Nat :=
  not64 (white_pawn_files position ||| black_pawn_files position)

/-- Local `white_semi_open_files` of `evaluate`. -/
def white_semi_open_files (position : Position) : Nat :=
  not64 (white_pawn_files position) &&& black_pawn_files position

/-- Local `black_semi_open_files` of `evaluate`. -/
def black_semi_open_files (position : Position) : Nat :=
  not64 (black_pawn_files position) &&& white_pawn_files position

/-- Local `white_double_pawn_mask` of `evaluate`. -/
def white_double_pawn_mask (position : Position) : Nat :=
  north_fill (shl64 (position.p WHITE PAWN) 8)

/-- Local `black_double_pawn_mask` of `evaluate`. -/
def black_double_pawn_mask (position : Position) : Nat :=
  south_fill (position.p BLACK PAWN >>> 8)

/-- Local `white_passed_pawns` of `evaluate`. -/
def white_passed_pawns (position : Position) : Nat :=
  not64 (black_pawn_blocking_squares position) &&& position.p WHITE PAWN

/-- Local `white_doubled_pawns` of `evaluate`. -/
def white_doubled_pawns (position : Position) : Nat :=
  white_double_pawn_mask position &&& position.p WHITE PAWN

/-- Local `white_isolated_pawns` of `evaluate`. -/
def white_isolated_pawns (position : Position) : Nat :=
  position.p WHITE PAWN &&& not64 (file_fill (white_pawn_protection_squares position))

/-- Local `black_dominated_stop_squares` of `evaluate`. -/
def black_dominated_stop_squares (position : Position) : Nat :=
  not64 (north_fill (white_pawn_protection_squares position))
    &&& black_pawn_protection_squares position

/-- Local `white_backward_pawns` of `evaluate`. -/
def white_backward_pawns (position : Position) : Nat :=
  south_fill (black_dominated_stop_squares position) &&& position.p WHITE PAWN

/-- Local `black_passed_pawns` of `evaluate`. -/
def black_passed_pawns (position : Position) : Nat :=
  not64 (white_pawn_blocking_squares position) &&& position.p BLACK PAWN

/-- Local `black_doubled_pawns` of `evaluate`. -/
def black_doubled_pawns (position : Position) : Nat :=
  black_double_pawn_mask position &&& position.p BLACK PAWN

/-- Local `black_isolated_pawns` of `evaluate`. -/
def black_isolated_pawns (position : Position) : Nat :=
  position.p BLACK PAWN &&& not64 (file_fill (black_pawn_protection_squares position))

/-- Local `white_dominated_stop_squares` of `evaluate`. -/
def white_dominated_stop_squares (position : Position) : Nat :=
  not64 (south_fill (black_pawn_protection_squares position))
    &&& white_pawn_protection_squares position

/-- Local `black_backward_pawns` of `evaluate`. -/
def black_backward_pawns (position : Position) : Nat :=
  north_fill (white_dominated_stop_squares position) &&& position.p BLACK PAWN

/-- Local `pawn_mask` of `evaluate`: `(7ULL << (white_king_square + 7)) & ROW_2`. -/
def pawn_mask (white_king_square : Nat) : Nat :=
  shl64 7 (white_king_square + 7) &&& ROW_2

/-- Local `black_pawn_mask` of `evaluate`: `(7ULL << (black_king_square - 9)) & ROW_7`. -/
def black_pawn_mask (black_king_square : Nat) : Nat :=
  shl64 7 (black_king_square - 9) &&& ROW_7

/-- Local `king_safety_penalty` of `evaluate` (white king), after the scaling by the opponent
material. -/
def king_safety_penalty (env : EvalParams) (position : Position) (white_king_square : Nat) :
    Int :=
  let pawn_mask := pawn_mask white_king_square
  let king_safety_penalty : Int := 0
  let open_files_around_king := open_files position &&& pawn_mask
  let king_safety_penalty :=
    king_safety_penalty + pop_count open_files_around_king * env.UNSAFE_KING_PENALTY
  let pawn_missing_front_of_king := not64 (position.p WHITE PAWN) &&& pawn_mask
  let king_safety_penalty :=
    king_safety_penalty + pop_count pawn_missing_front_of_king * env.UNSAFE_KING_PENALTY
  let pawn_missing_two_squares_front_of_king :=
    not64 (position.p WHITE PAWN) &&& shl64 pawn_missing_front_of_king 8
  let king_safety_penalty :=
    king_safety_penalty
      + pop_count pawn_missing_two_squares_front_of_king * env.UNSAFE_KING_PENALTY
  let king_safety_penalty := king_safety_penalty * black_piece_material position
  king_safety_penalty.tdiv MAX_MATERIAL

/-- Local `black_king_safety_penalty` of `evaluate`, after the scaling by the opponent
material. -/
def black_king_safety_penalty (env : EvalParams) (position : Position)
    (black_king_square : Nat) : Int :=
  let black_king_safety_penalty : Int := 0
  let black_pawn_mask := black_pawn_mask black_king_square
  let black_open_files_around_king := open_files position &&& black_pawn_mask
  let black_king_safety_penalty :=
    black_king_safety_penalty + pop_count black_open_files_around_king * env.UNSAFE_KING_PENALTY
  let black_pawn_missing_front_of_king := not64 (position.p BLACK PAWN) &&& black_pawn_mask
  let black_king_safety_penalty :=
    black_king_safety_penalty
      + pop_count black_pawn_missing_front_of_king * env.UNSAFE_KING_PENALTY
  let black_pawn_missing_two_squares_front_of_king :=
    not64 (position.p BLACK PAWN) &&& (black_pawn_missing_front_of_king >>> 8)
  let black_king_safety_penalty :=
    black_king_safety_penalty
      + pop_count black_pawn_missing_two_squares_front_of_king * env.UNSAFE_KING_PENALTY
  let black_king_safety_penalty := black_king_safety_penalty * white_piece_material position
  black_king_safety_penalty.tdiv MAX_MATERIAL

/-- The part of `evaluate` that accumulates the white terms into `score` (eval.cpp lines
109-204), in source order. -/
def white_terms (env : EvalParams) (t : Tables) (position : Position)
    (white_king_square black_king_square : Nat) (score : Int) : Int :=
  let total_material := total_material position
  let occupied_squares := occupied_squares position
  let white_squares := white_squares position
  let white_pawns := position.p WHITE PAWN
  let score := score
    + (pop_count (white_passed_pawns position) * env.PASSED_PAWN_BONUS
        * (MAX_MATERIAL - total_material)).tdiv MAX_MATERIAL
  let score := score - pop_count (white_doubled_pawns position) * env.DOUBLED_PAWN_PENALTY
  let score := score - pop_count (white_isolated_pawns position) * env.ISOLATED_PAWN_PENALTY
  let score := score - pop_count (white_backward_pawns position) * env.BACKWARD_PAWN_PENALTY
  let score := bit_loop
    (fun score i =>
      let score := score
        + (t.pawn_square_table_endgame WHITE (sq i)
            - (t.pawn_square_table_endgame WHITE (sq i) * total_material).tdiv MAX_MATERIAL)
      score + (t.pawn_square_table WHITE (sq i) * total_material).tdiv MAX_MATERIAL)
    64 white_pawns score
  let score := score
    + (t.king_square_table_endgame WHITE (sq white_king_square)
        - (t.king_square_table_endgame WHITE (sq white_king_square) * total_material).tdiv
            MAX_MATERIAL)
  let score := score
    + (env.KING_SQUARE_TABLE (sq white_king_square) * total_material).tdiv MAX_MATERIAL
  let score := score - king_safety_penalty env position white_king_square
  let white_proximity_bonus : Int := 0
  let white_bishops := position.p WHITE BISHOP
  let score := if pop_count white_bishops = 2 then score + env.BISHOP_PAIR_BONUS else score
  let st := bit_loop
    (fun (st : Int × Int) i =>
      let score := st.1 + t.bishop_square_table WHITE (sq i)
      let score := score
        + env.BISHOP_MOBILITY_BONUS
          * (pop_count (env.bishop_attacks occupied_squares i &&& not64 white_squares) - 5)
      (score, st.2 + t.square_proximity (sq black_king_square) (sq i)
        * env.BISHOP_KING_PROXIMITY_BONUS))
    64 white_bishops (score, white_proximity_bonus)
  let white_knights := position.p WHITE KNIGHT
  let st := bit_loop
    (fun (st : Int × Int) i =>
      (st.1 + t.knight_square_table WHITE (sq i),
        st.2 + t.square_proximity (sq black_king_square) (sq i)
          * env.KNIGHT_KING_PROXIMITY_BONUS))
    64 white_knights st
  let score := st.1
  let white_proximity_bonus := st.2
  let white_rooks := position.p WHITE ROOK
  let white_queens := position.p WHITE QUEEN
  let white_open_file_pieces := open_files position &&& (white_rooks ||| white_queens)
  let score := score + pop_count white_open_file_pieces * env.OPEN_FILE_BONUS
  let white_semi_open_file_pieces :=
    white_semi_open_files position &&& (white_rooks ||| white_queens)
  let score := score + pop_count white_semi_open_file_pieces * env.SEMI_OPEN_FILE_BONUS
  let st := bit_loop
    (fun (st : Int × Int) i =>
      let score := st.1 + t.rook_square_table WHITE (sq i)
      let score := score
        + env.ROOK_MOBILITY_BONUS
          * (pop_count (env.rook_attacks occupied_squares i &&& not64 white_squares) - 5)
      (score, st.2 + t.square_proximity (sq black_king_square) (sq i)
        * env.ROOK_KING_PROXIMITY_BONUS))
    64 white_rooks (score, white_proximity_bonus)
  let st := bit_loop
    (fun (st : Int × Int) queen_square =>
      (st.1 + t.queen_square_table WHITE (sq queen_square),
        st.2 + t.square_proximity (sq black_king_square) (sq queen_square)
          * env.QUEEN_KING_PROXIMITY_BONUS))
    64 white_queens st
  let score := st.1
  let white_proximity_bonus := st.2
  let white_proximity_bonus := white_proximity_bonus * white_piece_material position
  let white_proximity_bonus := white_proximity_bonus.tdiv MAX_MATERIAL
  score + white_proximity_bonus

/-- The part of `evaluate` that accumulates the black terms into `score` (eval.cpp lines
206-300), in source order. -/
def black_terms (env : EvalParams) (t : Tables) (position : Position)
    (white_king_square black_king_square : Nat) (score : Int) : Int :=
  let total_material := total_material position
  let occupied_squares := occupied_squares position
  let black_squares := black_squares position
  let black_pawns := position.p BLACK PAWN
  let score := score
    - (pop_count (black_passed_pawns position) * env.PASSED_PAWN_BONUS
        * (MAX_MATERIAL - total_material)).tdiv MAX_MATERIAL
  let score := score + pop_count (black_doubled_pawns position) * env.DOUBLED_PAWN_PENALTY
  let score := score + pop_count (black_isolated_pawns position) * env.ISOLATED_PAWN_PENALTY
  let score := score + pop_count (black_backward_pawns position) * env.BACKWARD_PAWN_PENALTY
  let score := bit_loop
    (fun score i =>
      let score := score
        - (t.pawn_square_table_endgame BLACK (sq i)
            - (t.pawn_square_table_endgame BLACK (sq i) * total_material).tdiv MAX_MATERIAL)
      score - (t.pawn_square_table BLACK (sq i) * total_material).tdiv MAX_MATERIAL)
    64 black_pawns score
  let score := score
    - (t.king_square_table_endgame BLACK (sq black_king_square)
        - (t.king_square_table_endgame BLACK (sq black_king_square) * total_material).tdiv
            MAX_MATERIAL)
  let score := score
    - (env.KING_SQUARE_TABLE (sq black_king_square) * total_material).tdiv MAX_MATERIAL
  let score := score + black_king_safety_penalty env position black_king_square
  let black_proximity_bonus : Int := 0
  let black_bishops := position.p BLACK BISHOP
  let score := if pop_count black_bishops = 2 then score - env.BISHOP_PAIR_BONUS else score
  let st := bit_loop
    (fun (st : Int × Int) i =>
      let score := st.1 - t.bishop_square_table BLACK (sq i)
      let score := score
        - env.BISHOP_MOBILITY_BONUS
          * (pop_count (env.bishop_attacks occupied_squares i &&& not64 black_squares) - 5)
      (score, st.2 + t.square_proximity (sq white_king_square) (sq i)
        * env.BISHOP_KING_PROXIMITY_BONUS))
    64 black_bishops (score, black_proximity_bonus)
  let black_knights := position.p BLACK KNIGHT
  let st := bit_loop
    (fun (st : Int × Int) i =>
      (st.1 - t.knight_square_table BLACK (sq i),
        st.2 + t.square_proximity (sq white_king_square) (sq i)
          * env.KNIGHT_KING_PROXIMITY_BONUS))
    64 black_knights st
  let score := st.1
  let black_proximity_bonus := st.2
  let black_rooks := position.p BLACK ROOK
  let black_queens := position.p BLACK QUEEN
  let black_open_file_pieces := open_files position &&& (black_rooks ||| black_queens)
  let score := score - pop_count black_open_file_pieces * env.OPEN_FILE_BONUS
  let black_semi_open_file_pieces :=
    black_semi_open_files position &&& (black_rooks ||| black_queens)
  let score := score - pop_count black_semi_open_file_pieces * env.SEMI_OPEN_FILE_BONUS
  let st := bit_loop
    (fun (st : Int × Int) i =>
      let score := st.1 - t.rook_square_table BLACK (sq i)
      let score := score
        - env.ROOK_MOBILITY_BONUS
          * (pop_count (env.rook_attacks occupied_squares i &&& not64 black_squares) - 5)
      (score, st.2 + t.square_proximity (sq white_king_square) (sq i)
        * env.ROOK_KING_PROXIMITY_BONUS))
    64 black_rooks (score, black_proximity_bonus)
  let st := bit_loop
    (fun (st : Int × Int) queen_square =>
      (st.1 - t.queen_square_table BLACK (sq queen_square),
        st.2 + t.square_proximity (sq white_king_square) (sq queen_square)
          * env.QUEEN_KING_PROXIMITY_BONUS))
    64 black_queens st
  let score := st.1
  let black_proximity_bonus := st.2
  let black_proximity_bonus := black_proximity_bonus * black_piece_material position
  let black_proximity_bonus := black_proximity_bonus.tdiv MAX_MATERIAL
  score - black_proximity_bonus

/-- The function `evaluate` of eval.cpp (score in centipawns), reading the global tables `t`.
The result is `none` when one of the two king-safety shifts `7ULL << (white_king_square + 7)`,
`7ULL << (black_king_square - 9)` has an amount outside `0..63`, which C++ leaves undefined. -/
def evaluate (env : EvalParams) (t : Tables) (position : Position) : Option Int :=
  let black_king := position.p BLACK KING
  let white_king := position.p WHITE KING
  if black_king = 0 then some 10000
  else if white_king = 0 then some (-10000)
  else
    let black_king_square := lsb_to_square black_king
    let white_king_square := lsb_to_square white_king
    let total_material := total_material position
    if total_material ≤ 300 ∧ (position.p WHITE PAWN ||| position.p BLACK PAWN) = 0 then
      some 0
    else if 64 ≤ white_king_square + 7 ∨ black_king_square < 9 then none
    else
      let score : Int := 0
      let score := white_terms env t position white_king_square black_king_square score
      let score := black_terms env t position white_king_square black_king_square score
      some score

/-- The function `nega_evaluate` of eval.cpp: the score from the playing side. -/
def nega_evaluate (env : EvalParams) (t : Tables) (position : Position) (white_turn : Bool) :
    Option Int :=
  if white_turn then evaluate env t position else (evaluate env t position).map (fun v => -v)

/-! ## Sample data for concrete evaluations -/

/-- A position given by its twelve bitboards. -/
def mkPosition (wp wn wb wr wq wk bp bn bb br bq bk : Nat) : Position :=
  ⟨fun s k =>
    match s, k with
    | WHITE, PAWN => wp
    | WHITE, KNIGHT => wn
    | WHITE, BISHOP => wb
    | WHITE, ROOK => wr
    | WHITE, QUEEN => wq
    | WHITE, KING => wk
    | BLACK, PAWN => bp
    | BLACK, KNIGHT => bn
    | BLACK, BISHOP => bb
    | BLACK, ROOK => br
    | BLACK, QUEEN => bq
    | BLACK, KING => bk⟩

/-- The board with a white king on square `i`, a black king on square `j` and nothing else. -/
def kings_only (i j : Fin 64) : Position :=
  mkPosition 0 0 0 0 0 (2 ^ i.val) 0 0 0 0 0 (2 ^ j.val)

/-- Tables holding zero everywhere (the state of the globals before `init_eval`). -/
def zero_tables : Tables :=
  ⟨fun _ _ => 0, fun _ _ => 0, fun _ _ => 0, fun _ _ => 0, fun _ _ => 0, fun _ _ => 0,
    fun _ _ => 0, fun _ _ => 0⟩

/-- Parameters with every tuning constant equal to `c`, both hand-supplied tables equal to
`king_table` and `rook_table`, and attack generators returning the empty bitboard. -/
def sample_params (c : Int) (king_table rook_table : Fin 64 → Int) : EvalParams :=
  { PASSED_PAWN_BONUS := c, DOUBLED_PAWN_PENALTY := c, ISOLATED_PAWN_PENALTY := c,
    BACKWARD_PAWN_PENALTY := c, UNSAFE_KING_PENALTY := c, BISHOP_PAIR_BONUS := c,
    BISHOP_MOBILITY_BONUS := c, ROOK_MOBILITY_BONUS := c, BISHOP_KING_PROXIMITY_BONUS := c,
    KNIGHT_KING_PROXIMITY_BONUS := c, ROOK_KING_PROXIMITY_BONUS := c,
    QUEEN_KING_PROXIMITY_BONUS := c, OPEN_FILE_BONUS := c, SEMI_OPEN_FILE_BONUS := c,
    KING_SQUARE_TABLE := king_table, ROOK_SQUARE_TABLE := rook_table,
    KNIGHT_PSQT_BASE_VALUE := c, KNIGHT_CENTER_BONUS := c, KNIGHT_CENTER_S_MAX := c,
    KNIGHT_OPPONENT_BACK_ROW_BONUS := c, KNIGHT_OPPONENT_BACK_ROW_S_MAX := c,
    BISHOP_PSQT_BASE_VALUE := c, BISHOP_CENTER_BONUS := c, BISHOP_CENTER_S_MAX := c,
    BISHOP_OPPONENT_BACK_ROW_BONUS := c, BISHOP_OPPONENT_BACK_ROW_S_MAX := c,
    KING_PSQT_BASE_VALUE_EG := c, KING_CENTER_BONUS_EG := c, KING_CENTER_S_MAX_EG := c,
    KING_OPPONENT_BACK_ROW_BONUS_EG := c, KING_OPPONENT_BACK_ROW_S_MAX_EG := c,
    PAWN_PSQT_BASE_VALUE_MG := c, PAWN_CENTER_BONUS_MG := c, PAWN_CENTER_S_MAX_MG := c,
    PAWN_OPPONENT_BACK_ROW_BONUS_MG := c, PAWN_OPPONENT_BACK_ROW_S_MAX_MG := c,
    PAWN_PSQT_BASE_VALUE_EG := c, PAWN_CENTER_BONUS_EG := c, PAWN_CENTER_S_MAX_EG := c,
    PAWN_OPPONENT_BACK_ROW_BONUS_EG := c, PAWN_OPPONENT_BACK_ROW_S_MAX_EG := c,
    QUEEN_PSQT_BASE_VALUE := c, QUEEN_CENTER_BONUS := c, QUEEN_CENTER_S_MAX := c,
    QUEEN_OPPONENT_BACK_ROW_BONUS := c, QUEEN_OPPONENT_BACK_ROW_S_MAX := c,
    bishop_attacks := fun _ _ => 0, rook_attacks := fun _ _ => 0 }

/-- A rational S-shaped curve with values in (0,1) and value 1/2 at 0, used as the shaping
function in concrete evaluations (the `double` function `sigmoid` has irrational values). -/
def rational_sigmoid (x high : ℚ) : ℚ := (1 + x / (|x| + high / 2)) / 2

/-- Chebyshev distance of two squares, with row = square / 8 and file = square % 8. -/
def chebyshev_distance (A B : Fin 64) : Int :=
  max |((A.val % 8 : Nat) : Int) - ((B.val % 8 : Nat) : Int)|
    |((A.val / 8 : Nat) : Int) - ((B.val / 8 : Nat) : Int)|

/-- The square with row `r` and file `f`, that is the index `8 * r + f`. -/
def square_at (r f : Fin 8) : Fin 64 := ⟨8 * r.val + f.val, by omega⟩

/-! ## Board symmetries used to state the symmetry claims -/

/-- The bitboard whose bit `i`, for `i < n`, is bit `σ i` of `b`. -/
def permute_bits (σ : Nat → Nat) (b : Nat) : Nat → Nat
  | 0 => 0
  | n + 1 => permute_bits σ b n ||| (if b.testBit (σ n) then 2 ^ n else 0)

/-- The square with the same file on the mirrored rank (row `r` becomes row `7 - r`). -/
def flip_rank (i : Nat) : Nat := 8 * (7 - i / 8) + i % 8

/-- The square with the same rank on the mirrored file (file `f` becomes file `7 - f`). -/
def flip_file (i : Nat) : Nat := 8 * (i / 8) + (7 - i % 8)

/-- A bitboard with its ranks mirrored. -/
def flip_vertical (b : Nat) : Nat := permute_bits flip_rank b 64

/-- A bitboard mirrored left-right. -/
def mirror_horizontal (b : Nat) : Nat := permute_bits flip_file b 64

/-- The opposite side. -/
def Side.other : Side → Side
  | WHITE => BLACK
  | BLACK => WHITE

/-- The board with the two sides' piece sets exchanged, every piece keeping its side-relative
square (ranks mirrored). -/
def swap_sides (position : Position) : Position :=
  ⟨fun s k => flip_vertical (position.p s.other k)⟩

/-- The board mirrored left-right, sides unchanged. -/
def mirror_position (position : Position) : Position :=
  ⟨fun s k => mirror_horizontal (position.p s k)⟩

/-- The squares of a bitboard: the indices below 64 of its set bits. -/
def squares (b : Nat) : Finset Nat := (Finset.range 64).filter (fun i => b.testBit i = true)

/-- The contribution of the white pawns' squares to the score: the sum the pawn loop of
`evaluate` accumulates. -/
def white_pawn_sum (t : Tables) (position : Position) : Int :=
  ∑ i in squares (position.p WHITE PAWN),
    ((t.pawn_square_table_endgame WHITE (sq i)
        - (t.pawn_square_table_endgame WHITE (sq i) * total_material position).tdiv MAX_MATERIAL)
      + (t.pawn_square_table WHITE (sq i) * total_material position).tdiv MAX_MATERIAL)

/-- The contribution of the white bishops' squares and mobility: the sum the bishop loop of
`evaluate` accumulates into `score`. -/
def white_bishop_sum (env : EvalParams) (t : Tables) (position : Position) : Int :=
  ∑ i in squares (position.p WHITE BISHOP),
    (t.bishop_square_table WHITE (sq i)
      + env.BISHOP_MOBILITY_BONUS
        * (pop_count (env.bishop_attacks (occupied_squares position) i
            &&& not64 (white_squares position)) - 5))

/-- The contribution of the white knights' squares. -/
def white_knight_sum (t : Tables) (position : Position) : Int :=
  ∑ i in squares (position.p WHITE KNIGHT), t.knight_square_table WHITE (sq i)

/-- The contribution of the white rooks' squares and mobility. -/
def white_rook_sum (env : EvalParams) (t : Tables) (position : Position) : Int :=
  ∑ i in squares (position.p WHITE ROOK),
    (t.rook_square_table WHITE (sq i)
      + env.ROOK_MOBILITY_BONUS
        * (pop_count (env.rook_attacks (occupied_squares position) i
            &&& not64 (white_squares position)) - 5))

/-- The contribution of the white queens' squares. -/
def white_queen_sum (t : Tables) (position : Position) : Int :=
  ∑ i in squares (position.p WHITE QUEEN), t.queen_square_table WHITE (sq i)

/-- The value of `white_proximity_bonus` before its scaling by the material: the weighted
closeness of the white pieces to the enemy king on `king_square`. -/
def white_proximity_sum (env : EvalParams) (t : Tables) (position : Position)
    (king_square : Nat) : Int :=
  ∑ i in squares (position.p WHITE BISHOP),
      t.square_proximity (sq king_square) (sq i) * env.BISHOP_KING_PROXIMITY_BONUS
    + ∑ i in squares (position.p WHITE KNIGHT),
      t.square_proximity (sq king_square) (sq i) * env.KNIGHT_KING_PROXIMITY_BONUS
    + ∑ i in squares (position.p WHITE ROOK),
      t.square_proximity (sq king_square) (sq i) * env.ROOK_KING_PROXIMITY_BONUS
    + ∑ i in squares (position.p WHITE QUEEN),
      t.square_proximity (sq king_square) (sq i) * env.QUEEN_KING_PROXIMITY_BONUS

/-- The contribution of the black pawns' squares to the score: the sum the pawn loop of
`evaluate` accumulates. -/
def black_pawn_sum (t : Tables) (position : Position) : Int :=
  ∑ i in squares (position.p BLACK PAWN),
    ((t.pawn_square_table_endgame BLACK (sq i)
        - (t.pawn_square_table_endgame BLACK (sq i) * total_material position).tdiv MAX_MATERIAL)
      + (t.pawn_square_table BLACK (sq i) * total_material position).tdiv MAX_MATERIAL)

/-- The contribution of the black bishops' squares and mobility: the sum the bishop loop of
`evaluate` accumulates into `score`. -/
def black_bishop_sum (env : EvalParams) (t : Tables) (position : Position) : Int :=
  ∑ i in squares (position.p BLACK BISHOP),
    (t.bishop_square_table BLACK (sq i)
      + env.BISHOP_MOBILITY_BONUS
        * (pop_count (env.bishop_attacks (occupied_squares position) i
            &&& not64 (black_squares position)) - 5))

/-- The contribution of the black knights' squares. -/
def black_knight_sum (t : Tables) (position : Position) : Int :=
  ∑ i in squares (position.p BLACK KNIGHT), t.knight_square_table BLACK (sq i)

/-- The contribution of the black rooks' squares and mobility. -/
def black_rook_sum (env : EvalParams) (t : Tables) (position : Position) : Int :=
  ∑ i in squares (position.p BLACK ROOK),
    (t.rook_square_table BLACK (sq i)
      + env.ROOK_MOBILITY_BONUS
        * (pop_count (env.rook_attacks (occupied_squares position) i
            &&& not64 (black_squares position)) - 5))

/-- The contribution of the black queens' squares. -/
def black_queen_sum (t : Tables) (position : Position) : Int :=
  ∑ i in squares (position.p BLACK QUEEN), t.queen_square_table BLACK (sq i)

/-- The value of `black_proximity_bonus` before its scaling by the material: the weighted
closeness of the black pieces to the enemy king on `king_square`. -/
def black_proximity_sum (env : EvalParams) (t : Tables) (position : Position)
    (king_square : Nat) : Int :=
  ∑ i in squares (position.p BLACK BISHOP),
      t.square_proximity (sq king_square) (sq i) * env.BISHOP_KING_PROXIMITY_BONUS
    + ∑ i in squares (position.p BLACK KNIGHT),
      t.square_proximity (sq king_square) (sq i) * env.KNIGHT_KING_PROXIMITY_BONUS
    + ∑ i in squares (position.p BLACK ROOK),
      t.square_proximity (sq king_square) (sq i) * env.ROOK_KING_PROXIMITY_BONUS
    + ∑ i in squares (position.p BLACK QUEEN),
      t.square_proximity (sq king_square) (sq i) * env.QUEEN_KING_PROXIMITY_BONUS

/-- The sum of the white terms of `evaluate` (eval.cpp lines 109-204), with each loop over the
set bits of a bitboard written as a sum over its squares. -/
def white_total (env : EvalParams) (t : Tables) (position : Position)
    (white_king_square black_king_square : Nat) : Int :=
  (pop_count (white_passed_pawns position) * env.PASSED_PAWN_BONUS
      * (MAX_MATERIAL - total_material position)).tdiv MAX_MATERIAL
  - pop_count (white_doubled_pawns position) * env.DOUBLED_PAWN_PENALTY
  - pop_count (white_isolated_pawns position) * env.ISOLATED_PAWN_PENALTY
  - pop_count (white_backward_pawns position) * env.BACKWARD_PAWN_PENALTY
  + white_pawn_sum t position
  + (t.king_square_table_endgame WHITE (sq white_king_square)
      - (t.king_square_table_endgame WHITE (sq white_king_square)
          * total_material position).tdiv MAX_MATERIAL)
  + (env.KING_SQUARE_TABLE (sq white_king_square) * total_material position).tdiv MAX_MATERIAL
  - king_safety_penalty env position white_king_square
  + (if pop_count (position.p WHITE BISHOP) = 2 then env.BISHOP_PAIR_BONUS else 0)
  + white_bishop_sum env t position
  + white_knight_sum t position
  + pop_count (open_files position &&& (position.p WHITE ROOK ||| position.p WHITE QUEEN))
      * env.OPEN_FILE_BONUS
  + pop_count
        (white_semi_open_files position &&& (position.p WHITE ROOK ||| position.p WHITE QUEEN))
      * env.SEMI_OPEN_FILE_BONUS
  + white_rook_sum env t position
  + white_queen_sum t position
  + (white_proximity_sum env t position black_king_square * white_piece_material position).tdiv
      MAX_MATERIAL

/-- The sum of the black terms of `evaluate` (eval.cpp lines 206-300), which `evaluate`
subtracts, with each loop over the set bits of a bitboard written as a sum over its squares. -/
def black_total (env : EvalParams) (t : Tables) (position : Position)
    (white_king_square black_king_square : Nat) : Int :=
  (pop_count (black_passed_pawns position) * env.PASSED_PAWN_BONUS
      * (MAX_MATERIAL - total_material position)).tdiv MAX_MATERIAL
  - pop_count (black_doubled_pawns position) * env.DOUBLED_PAWN_PENALTY
  - pop_count (black_isolated_pawns position) * env.ISOLATED_PAWN_PENALTY
  - pop_count (black_backward_pawns position) * env.BACKWARD_PAWN_PENALTY
  + black_pawn_sum t position
  + (t.king_square_table_endgame BLACK (sq black_king_square)
      - (t.king_square_table_endgame BLACK (sq black_king_square)
          * total_material position).tdiv MAX_MATERIAL)
  + (env.KING_SQUARE_TABLE (sq black_king_square) * total_material position).tdiv MAX_MATERIAL
  - black_king_safety_penalty env position black_king_square
  + (if pop_count (position.p BLACK BISHOP) = 2 then env.BISHOP_PAIR_BONUS else 0)
  + black_bishop_sum env t position
  + black_knight_sum t position
  + pop_count (open_files position &&& (position.p BLACK ROOK ||| position.p BLACK QUEEN))
      * env.OPEN_FILE_BONUS
  + pop_count
        (black_semi_open_files position &&& (position.p BLACK ROOK ||| position.p BLACK QUEEN))
      * env.SEMI_OPEN_FILE_BONUS
  + black_rook_sum env t position
  + black_queen_sum t position
  + (black_proximity_sum env t position white_king_square * black_piece_material position).tdiv
      MAX_MATERIAL

/-- The tables and attack generators treat the two sides alike: each black table is the white
table with the ranks mirrored, the hand-supplied king table and the proximity table are
unchanged by the rank mirror, and the attack generators commute with it. -/
structure ColorSymmetric (env : EvalParams) (t : Tables) : Prop where
  pawn : ∀ i, i < 64 →
    t.pawn_square_table BLACK (sq (flip_rank i)) = t.pawn_square_table WHITE (sq i)
  pawn_endgame : ∀ i, i < 64 →
    t.pawn_square_table_endgame BLACK (sq (flip_rank i))
      = t.pawn_square_table_endgame WHITE (sq i)
  knight : ∀ i, i < 64 →
    t.knight_square_table BLACK (sq (flip_rank i)) = t.knight_square_table WHITE (sq i)
  bishop : ∀ i, i < 64 →
    t.bishop_square_table BLACK (sq (flip_rank i)) = t.bishop_square_table WHITE (sq i)
  rook : ∀ i, i < 64 →
    t.rook_square_table BLACK (sq (flip_rank i)) = t.rook_square_table WHITE (sq i)
  queen : ∀ i, i < 64 →
    t.queen_square_table BLACK (sq (flip_rank i)) = t.queen_square_table WHITE (sq i)
  king_endgame : ∀ i, i < 64 →
    t.king_square_table_endgame BLACK (sq (flip_rank i))
      = t.king_square_table_endgame WHITE (sq i)
  king : ∀ i, i < 64 →
    env.KING_SQUARE_TABLE (sq (flip_rank i)) = env.KING_SQUARE_TABLE (sq i)
  proximity : ∀ i j, i < 64 → j < 64 →
    t.square_proximity (sq (flip_rank i)) (sq (flip_rank j)) = t.square_proximity (sq i) (sq j)
  bishop_attacks : ∀ occ i, occ < 2 ^ 64 → i < 64 →
    env.bishop_attacks (flip_vertical occ) (flip_rank i)
      = flip_vertical (env.bishop_attacks occ i)
  rook_attacks : ∀ occ i, occ < 2 ^ 64 → i < 64 →
    env.rook_attacks (flip_vertical occ) (flip_rank i) = flip_vertical (env.rook_attacks occ i)

/-- The initial position of a game: white on rows 0 and 1 with the king on square 4, black on
rows 6 and 7 with the king on square 60. -/
def start_position : Position :=
  mkPosition 0xFF00 0x42 0x24 0x81 0x08 0x10
    0x00FF000000000000 0x4200000000000000 0x2400000000000000 0x8100000000000000
    0x0800000000000000 0x1000000000000000

/-- A board with a white queen on square 3, a black queen on square 59 and no king. -/
def queens_without_kings : Position :=
  mkPosition 0 0 0 0 0x08 0 0 0 0 0 0x0800000000000000 0

/-- Every bitboard of a position given by twelve 64-bit values is a 64-bit value. -/
def Position.wfb (position : Position) : Bool :=
  [WHITE, BLACK].all fun s =>
    [PAWN, KNIGHT, BISHOP, ROOK, QUEEN, KING].all fun k => decide (position.p s k < 2 ^ 64)

/-- The tables and attack generators are left-right symmetric: every table is unchanged by the
file mirror and the attack generators commute with it. -/
structure MirrorSymmetric (env : EvalParams) (t : Tables) : Prop where
  pawn : ∀ s i, i < 64 →
    t.pawn_square_table s (sq (flip_file i)) = t.pawn_square_table s (sq i)
  pawn_endgame : ∀ s i, i < 64 →
    t.pawn_square_table_endgame s (sq (flip_file i)) = t.pawn_square_table_endgame s (sq i)
  knight : ∀ s i, i < 64 →
    t.knight_square_table s (sq (flip_file i)) = t.knight_square_table s (sq i)
  bishop : ∀ s i, i < 64 →
    t.bishop_square_table s (sq (flip_file i)) = t.bishop_square_table s (sq i)
  rook : ∀ s i, i < 64 →
    t.rook_square_table s (sq (flip_file i)) = t.rook_square_table s (sq i)
  queen : ∀ s i, i < 64 →
    t.queen_square_table s (sq (flip_file i)) = t.queen_square_table s (sq i)
  king_endgame : ∀ s i, i < 64 →
    t.king_square_table_endgame s (sq (flip_file i)) = t.king_square_table_endgame s (sq i)
  king : ∀ i, i < 64 →
    env.KING_SQUARE_TABLE (sq (flip_file i)) = env.KING_SQUARE_TABLE (sq i)
  proximity : ∀ i j, i < 64 → j < 64 →
    t.square_proximity (sq (flip_file i)) (sq (flip_file j)) = t.square_proximity (sq i) (sq j)
  bishop_attacks : ∀ occ i, occ < 2 ^ 64 → i < 64 →
    env.bishop_attacks (mirror_horizontal occ) (flip_file i)
      = mirror_horizontal (env.bishop_attacks occ i)
  rook_attacks : ∀ occ i, occ < 2 ^ 64 → i < 64 →
    env.rook_attacks (mirror_horizontal occ) (flip_file i)
      = mirror_horizontal (env.rook_attacks occ i)

/-- A legal position: white king on a2 (square 8), black king on e8 (square 60), black queen
on d8 (square 59). -/
def king_on_a2 : Position :=
  mkPosition 0 0 0 0 0 (2 ^ 8) 0 0 0 0 (2 ^ 59) (2 ^ 60)

/-! ## Definitions for the claims on material, tapering, rounding and the shaping function -/

/-- Each side has at most one queen, two rooks, two bishops and two knights. -/
def standard_piece_set (position : Position) : Prop :=
  ∀ s : Side, pop_count (position.p s QUEEN) ≤ 1 ∧ pop_count (position.p s ROOK) ≤ 2
    ∧ pop_count (position.p s BISHOP) ≤ 2 ∧ pop_count (position.p s KNIGHT) ≤ 2

/-- The amount `evaluate` adds for one pawn on a square (and for the king square) with endgame
table value `eg` and midgame table value `mg`: the two statements
`score += eg - eg * total_material / MAX_MATERIAL; score += mg * total_material / MAX_MATERIAL`. -/
def tapered_amount (eg mg total_material : Int) : Int :=
  (eg - (eg * total_material).tdiv MAX_MATERIAL) + (mg * total_material).tdiv MAX_MATERIAL

/-- The blend of the tapering rule as the specification words it,
`endgame + (midgame - endgame) * total_material / MAX_MATERIAL`, with one truncating division. -/
def tapered_blend (eg mg total_material : Int) : Int :=
  eg + ((mg - eg) * total_material).tdiv MAX_MATERIAL

/-- A legal position with the white king on g8 (square 62), a white rook on a1 (square 0) and the
black king on e5 (square 36). -/
def king_on_g8 : Position :=
  mkPosition 0 0 0 1 0 (2 ^ 62) 0 0 0 0 0 (2 ^ 36)

/-- A legal position with the white king on e4 (square 28), a white rook on a8 (square 56) and
the black king on c1 (square 2). -/
def black_king_on_c1 : Position :=
  mkPosition 0 0 0 (2 ^ 56) 0 (2 ^ 28) 0 0 0 0 0 (2 ^ 2)

/-- The value `square_value` that `calculate_square_value` has computed before the final
conversion `(int)(square_value + 0.5)`: the base value plus the two shaped bonuses. -/
def square_value {K : Type} [LinearOrderedField K] [FloorRing K]
    (sigmoid : K → K → K)
    (base_piece_value center_bonus center_s_max opponent_back_row_bonus back_row_s_max : Int)
    (side : Side) (square : Int) : K :=
  let row : Int := if side = WHITE then square.tdiv 8 else 7 - square.tdiv 8
  let col : Int := if side = WHITE then square.tmod 8 else square.tmod 8
  (base_piece_value : K)
    + (center_bonus : K) * sigmoid (2 - max |(row : K) - 7 / 2| |(col : K) - 7 / 2|)
        (center_s_max : K)
    + (opponent_back_row_bonus : K) * sigmoid ((row : K) - 7 / 2) (back_row_s_max : K)

/-- The function `sigmoid` of eval.cpp: `1 / (1 + pow(10, -x / (high/2)))`. The library
function `pow` of `<cmath>` is the parameter `pow`; in the real-number model it is the real
power `fun a b : ℝ => a ^ b`. -/
def sigmoid {K : Type} [Field K] (pow : K → K → K) (x high : K) : K :=
  1 / (1 + pow 10 (-x / (high / 2)))

/-- A position with the white king on e1, a white pawn on e2 (square 12), a black pawn on f5
(square 37) and the black king on e8. -/
def pawn_e2_against_f5 : Position :=
  mkPosition (2 ^ 12) 0 0 0 0 (2 ^ 4) (2 ^ 37) 0 0 0 0 (2 ^ 60)

/-- A position with the white king on e1, a white pawn on e4 (square 28), a black pawn on f5
(square 37) and the black king on e8. -/
def pawn_e4_against_f5 : Position :=
  mkPosition (2 ^ 28) 0 0 0 0 (2 ^ 4) (2 ^ 37) 0 0 0 0 (2 ^ 60)

/-- A position with doubled white pawns on e2 and e3, a white pawn on g2, doubled black pawns on
a7 and a6 and the two kings on e1 and e8. -/
def doubled_pawns_position : Position :=
  mkPosition (2 ^ 12 + 2 ^ 20 + 2 ^ 14) 0 0 0 0 (2 ^ 4) (2 ^ 48 + 2 ^ 40) 0 0 0 0 (2 ^ 60)

/-! ## Theorems -/

/-- C1: `nega_evaluate` returns `evaluate` unchanged when white is to move and its negation when
black is to move; hence the result for white to move is the negation of the result for black to
move. -/
theorem nega_evaluate_spec (env : EvalParams) (t : Tables) (position : Position) :
    nega_evaluate env t position true = evaluate env t position
      ∧ nega_evaluate env t position false = (evaluate env t position).map (fun v => -v)
      ∧ nega_evaluate env t position true
          = (nega_evaluate env t position false).map (fun v => -v) := by
  refine ⟨rfl, rfl, ?_⟩
  simp only [nega_evaluate, if_true, Bool.false_eq_true, if_false]
  cases evaluate env t position with
  | none => rfl
  | some v => simp

/-- C2: zero-king sentinel.  With an empty black king bitboard `evaluate` returns exactly 10000;
with a non-empty black king bitboard and an empty white king bitboard it returns exactly -10000;
the other bitboards, the parameters and the tables play no part. -/
theorem evaluate_zero_king (env : EvalParams) (t : Tables) (position : Position) :
    (position.p BLACK KING = 0 → evaluate env t position = some 10000)
      ∧ (position.p BLACK KING ≠ 0 → position.p WHITE KING = 0 →
          evaluate env t position = some (-10000)) := by
  constructor
  · intro hb
    simp [evaluate, hb]
  · intro hb hw
    simp [evaluate, hb, hw]

/-- Witness of C2: a board with white material and no black king scores 10000, a board with black
material, a black king and no white king scores -10000. -/
theorem evaluate_zero_king_witness :
    evaluate (sample_params 7 (fun _ => 0) (fun _ => 0)) zero_tables
        (mkPosition 0xFF00 0 0 0 8 16 0 0 0 0 0 0) = some 10000
      ∧ evaluate (sample_params 7 (fun _ => 0) (fun _ => 0)) zero_tables
        (mkPosition 0 0 0 0 0 0 0 0 0 0 (2 ^ 59) (2 ^ 60)) = some (-10000) :=
  ⟨(evaluate_zero_king _ _ (mkPosition 0xFF00 0 0 0 8 16 0 0 0 0 0 0)).1 rfl,
    (evaluate_zero_king _ _ (mkPosition 0 0 0 0 0 0 0 0 0 0 (2 ^ 59) (2 ^ 60))).2
      (by decide) rfl⟩

/-- C3: draw detection.  When both king bitboards are non-empty, neither side has a pawn and the
summed piece material of both sides (queen 900, rook 500, bishop 300, knight 300) is at most
300, `evaluate` returns exactly 0; in particular the board with only the two kings scores 0
wherever the kings stand. -/
theorem evaluate_draw (env : EvalParams) (t : Tables) :
    (∀ position : Position,
      position.p BLACK KING ≠ 0 → position.p WHITE KING ≠ 0 →
      position.p WHITE PAWN = 0 → position.p BLACK PAWN = 0 →
      (pop_count (position.p WHITE QUEEN) * 900 + pop_count (position.p WHITE ROOK) * 500
          + pop_count (position.p WHITE BISHOP) * 300
          + pop_count (position.p WHITE KNIGHT) * 300)
        + (pop_count (position.p BLACK QUEEN) * 900 + pop_count (position.p BLACK ROOK) * 500
          + pop_count (position.p BLACK BISHOP) * 300
          + pop_count (position.p BLACK KNIGHT) * 300) ≤ 300 →
      evaluate env t position = some 0)
    ∧ (∀ i j : Fin 64, evaluate env t (kings_only i j) = some 0) := by
  have main : ∀ position : Position,
      position.p BLACK KING ≠ 0 → position.p WHITE KING ≠ 0 →
      position.p WHITE PAWN = 0 → position.p BLACK PAWN = 0 →
      total_material position ≤ 300 → evaluate env t position = some 0 := by
    intro position hbk hwk hwp hbp hm
    simp [evaluate, hbk, hwk, hwp, hbp, hm]
  refine ⟨fun position hbk hwk hwp hbp hm => main position hbk hwk hwp hbp hm, ?_⟩
  intro i j
  apply main
  · exact Nat.pos_iff_ne_zero.mp (Nat.two_pow_pos _)
  · exact Nat.pos_iff_ne_zero.mp (Nat.two_pow_pos _)
  · rfl
  · rfl
  · have h0 : pop_count 0 = 0 := by decide
    simp [total_material, white_piece_material, black_piece_material, kings_only, mkPosition, h0]

/-- Witness of C3: a lone white knight next to the two kings is a draw. -/
theorem evaluate_draw_witness :
    evaluate (sample_params 7 (fun _ => 0) (fun _ => 0)) zero_tables
      (mkPosition 0 2 0 0 0 16 0 0 0 0 0 (2 ^ 60)) = some 0 :=
  (evaluate_draw _ _).1 (mkPosition 0 2 0 0 0 16 0 0 0 0 0 (2 ^ 60)) (by decide) (by decide)
    rfl rfl (by decide)


/-! ### The tables after `init_eval` -/

theorem set2_apply {α : Type} [DecidableEq α] (a : α → Fin 64 → Int) (s : α) (i : Fin 64)
    (v : Int) (s' : α) (k : Fin 64) :
    set2 a s i v s' k = if s' = s ∧ k = i then v else a s' k := by
  unfold set2
  by_cases hs : s' = s
  · subst hs
    by_cases hk : k = i
    · subst hk; simp
    · simp [Function.update_noteq hk, hk]
  · simp [Function.update_noteq hs, hs]

/-- A loop writing `a[WHITE][i] = f WHITE i; a[BLACK][i] = f BLACK i` for the indices of a list. -/
theorem foldl_set2_both (f : Side → Fin 64 → Int) (l : List (Fin 64))
    (psqt : Side → Fin 64 → Int) (s : Side) (k : Fin 64) :
    (l.foldl (fun psqt i => set2 (set2 psqt WHITE i (f WHITE i)) BLACK i (f BLACK i)) psqt) s k
      = if k ∈ l then f s k else psqt s k := by
  induction l generalizing psqt with
  | nil => simp
  | cons x l ih =>
    rw [List.foldl_cons, ih]
    by_cases hk : k ∈ l
    · simp [hk]
    · simp only [hk, if_false, List.mem_cons, or_false, set2_apply]
      by_cases hx : k = x
      · subst hx
        cases s <;> simp
      · simp [hx]

theorem generate_piece_square_table_apply {K : Type} [LinearOrderedField K] [FloorRing K]
    (sigmoid : K → K → K) (psqt : Side → Fin 64 → Int) (a b c d e : Int) (s : Side)
    (k : Fin 64) :
    generate_piece_square_table sigmoid psqt a b c d e s k
      = calculate_square_value sigmoid a b c d e s (k.val : Int) := by
  unfold generate_piece_square_table
  have h := foldl_set2_both
    (fun s i => calculate_square_value sigmoid a b c d e s (i.val : Int)) (List.finRange 64) psqt s k
  simp only [List.mem_finRange, if_true] at h
  exact h

theorem generate_piece_square_table_eq {K : Type} [LinearOrderedField K] [FloorRing K]
    (sigmoid : K → K → K) (psqt : Side → Fin 64 → Int) (a b c d e : Int) :
    generate_piece_square_table sigmoid psqt a b c d e
      = fun s k => calculate_square_value sigmoid a b c d e s (k.val : Int) := by
  funext s k
  exact generate_piece_square_table_apply sigmoid psqt a b c d e s k

/-- The inner loop of `init_eval` over `j` fills row `i` of `square_proximity`. -/
theorem init_eval_inner_loop (i : Fin 64) (l : List (Fin 64)) (t : Tables) :
    l.foldl
        (fun t j =>
          { t with square_proximity := set2 t.square_proximity i j (proximity_value i j) })
        t
      = { t with square_proximity := fun a b =>
            if a = i ∧ b ∈ l then proximity_value a b else t.square_proximity a b } := by
  induction l generalizing t with
  | nil => simp
  | cons x l ih =>
    rw [List.foldl_cons, ih]
    ext a b <;> simp only [set2_apply, List.mem_cons]
    by_cases h1 : a = i ∧ b ∈ l
    · simp [h1]
    · by_cases h2 : a = i ∧ b = x
      · simp [h2]
      · have h3 : ¬ (a = i ∧ (b = x ∨ b ∈ l)) := by tauto
        simp [h1, h2, h3]

/-- The outer loop of `init_eval` over `i` fills `square_proximity` and both rook tables. -/
theorem init_eval_outer_loop (env : EvalParams) (l : List (Fin 64)) (t : Tables) :
    l.foldl
        (fun t i =>
          let t := (List.finRange 64).foldl
            (fun t j =>
              { t with square_proximity := set2 t.square_proximity i j (proximity_value i j) })
            t
          let t :=
            { t with
              rook_square_table := set2 t.rook_square_table WHITE i (env.ROOK_SQUARE_TABLE i) }
          { t with
            rook_square_table :=
              set2 t.rook_square_table BLACK i (env.ROOK_SQUARE_TABLE (Fin.rev i)) })
        t
      = { t with
          square_proximity := fun a b =>
            if a ∈ l then proximity_value a b else t.square_proximity a b,
          rook_square_table := fun s k =>
            if k ∈ l then
              (match s with
                | WHITE => env.ROOK_SQUARE_TABLE k
                | BLACK => env.ROOK_SQUARE_TABLE (Fin.rev k))
            else t.rook_square_table s k } := by
  induction l generalizing t with
  | nil => simp
  | cons x l ih =>
    rw [List.foldl_cons, ih]
    simp only [init_eval_inner_loop, List.mem_finRange, and_true]
    ext a b <;> simp only [set2_apply, List.mem_cons]
    · by_cases h1 : a ∈ l
      · simp [h1]
      · by_cases h2 : a = x
        · simp [h2]
        · simp [h1, h2]
    · by_cases h1 : b ∈ l
      · simp [h1]
      · by_cases h2 : b = x
        · subst h2
          cases a <;> simp
        · simp [h1, h2]

theorem init_eval_square_proximity {K : Type} [LinearOrderedField K] [FloorRing K]
    (sigmoid : K → K → K) (env : EvalParams) (t : Tables) :
    (init_eval sigmoid env t).square_proximity = proximity_value := by
  unfold init_eval
  simp only [init_eval_outer_loop, List.mem_finRange, if_true]

theorem init_eval_rook_square_table {K : Type} [LinearOrderedField K] [FloorRing K]
    (sigmoid : K → K → K) (env : EvalParams) (t : Tables) (s : Side) (k : Fin 64) :
    (init_eval sigmoid env t).rook_square_table s k
      = match s with
        | WHITE => env.ROOK_SQUARE_TABLE k
        | BLACK => env.ROOK_SQUARE_TABLE (Fin.rev k) := by
  unfold init_eval
  simp only [init_eval_outer_loop, List.mem_finRange, if_true]

theorem init_eval_knight_square_table {K : Type} [LinearOrderedField K] [FloorRing K]
    (sigmoid : K → K → K) (env : EvalParams) (t : Tables) :
    (init_eval sigmoid env t).knight_square_table
      = fun s k => calculate_square_value sigmoid env.KNIGHT_PSQT_BASE_VALUE
          env.KNIGHT_CENTER_BONUS env.KNIGHT_CENTER_S_MAX env.KNIGHT_OPPONENT_BACK_ROW_BONUS
          env.KNIGHT_OPPONENT_BACK_ROW_S_MAX s (k.val : Int) := by
  exact (show _ = generate_piece_square_table sigmoid _ _ _ _ _ _ from rfl).trans
    (generate_piece_square_table_eq sigmoid _ _ _ _ _ _)

theorem init_eval_bishop_square_table {K : Type} [LinearOrderedField K] [FloorRing K]
    (sigmoid : K → K → K) (env : EvalParams) (t : Tables) :
    (init_eval sigmoid env t).bishop_square_table
      = fun s k => calculate_square_value sigmoid env.BISHOP_PSQT_BASE_VALUE
          env.BISHOP_CENTER_BONUS env.BISHOP_CENTER_S_MAX env.BISHOP_OPPONENT_BACK_ROW_BONUS
          env.BISHOP_OPPONENT_BACK_ROW_S_MAX s (k.val : Int) := by
  exact (show _ = generate_piece_square_table sigmoid _ _ _ _ _ _ from rfl).trans
    (generate_piece_square_table_eq sigmoid _ _ _ _ _ _)

theorem init_eval_king_square_table_endgame {K : Type} [LinearOrderedField K] [FloorRing K]
    (sigmoid : K → K → K) (env : EvalParams) (t : Tables) :
    (init_eval sigmoid env t).king_square_table_endgame
      = fun s k => calculate_square_value sigmoid env.KING_PSQT_BASE_VALUE_EG
          env.KING_CENTER_BONUS_EG env.KING_CENTER_S_MAX_EG env.KING_OPPONENT_BACK_ROW_BONUS_EG
          env.KING_OPPONENT_BACK_ROW_S_MAX_EG s (k.val : Int) := by
  exact (show _ = generate_piece_square_table sigmoid _ _ _ _ _ _ from rfl).trans
    (generate_piece_square_table_eq sigmoid _ _ _ _ _ _)

theorem init_eval_pawn_square_table {K : Type} [LinearOrderedField K] [FloorRing K]
    (sigmoid : K → K → K) (env : EvalParams) (t : Tables) :
    (init_eval sigmoid env t).pawn_square_table
      = fun s k => calculate_square_value sigmoid env.PAWN_PSQT_BASE_VALUE_MG
          env.PAWN_CENTER_BONUS_MG env.PAWN_CENTER_S_MAX_MG env.PAWN_OPPONENT_BACK_ROW_BONUS_MG
          env.PAWN_OPPONENT_BACK_ROW_S_MAX_MG s (k.val : Int) := by
  exact (show _ = generate_piece_square_table sigmoid _ _ _ _ _ _ from rfl).trans
    (generate_piece_square_table_eq sigmoid _ _ _ _ _ _)

theorem init_eval_pawn_square_table_endgame {K : Type} [LinearOrderedField K] [FloorRing K]
    (sigmoid : K → K → K) (env : EvalParams) (t : Tables) :
    (init_eval sigmoid env t).pawn_square_table_endgame
      = fun s k => calculate_square_value sigmoid env.PAWN_PSQT_BASE_VALUE_EG
          env.PAWN_CENTER_BONUS_EG env.PAWN_CENTER_S_MAX_EG env.PAWN_OPPONENT_BACK_ROW_BONUS_EG
          env.PAWN_OPPONENT_BACK_ROW_S_MAX_EG s (k.val : Int) := by
  exact (show _ = generate_piece_square_table sigmoid _ _ _ _ _ _ from rfl).trans
    (generate_piece_square_table_eq sigmoid _ _ _ _ _ _)

theorem init_eval_queen_square_table {K : Type} [LinearOrderedField K] [FloorRing K]
    (sigmoid : K → K → K) (env : EvalParams) (t : Tables) :
    (init_eval sigmoid env t).queen_square_table
      = fun s k => calculate_square_value sigmoid env.QUEEN_PSQT_BASE_VALUE
          env.QUEEN_CENTER_BONUS env.QUEEN_CENTER_S_MAX env.QUEEN_OPPONENT_BACK_ROW_BONUS
          env.QUEEN_OPPONENT_BACK_ROW_S_MAX s (k.val : Int) := by
  exact (show _ = generate_piece_square_table sigmoid _ _ _ _ _ _ from rfl).trans
    (generate_piece_square_table_eq sigmoid _ _ _ _ _ _)

/-! ### Claims on the tables -/

theorem chebyshev_distance_eq_zero (A B : Fin 64) : chebyshev_distance A B = 0 ↔ A = B := by
  unfold chebyshev_distance
  constructor
  · intro h
    have h1 := le_max_left |((A.val % 8 : Nat) : Int) - ((B.val % 8 : Nat) : Int)|
      |((A.val / 8 : Nat) : Int) - ((B.val / 8 : Nat) : Int)|
    have h2 := le_max_right |((A.val % 8 : Nat) : Int) - ((B.val % 8 : Nat) : Int)|
      |((A.val / 8 : Nat) : Int) - ((B.val / 8 : Nat) : Int)|
    rw [h] at h1 h2
    have h3 := abs_nonpos_iff.mp h1
    have h4 := abs_nonpos_iff.mp h2
    apply Fin.ext
    omega
  · rintro rfl
    simp

theorem chebyshev_distance_bounds (A B : Fin 64) :
    0 ≤ chebyshev_distance A B ∧ chebyshev_distance A B ≤ 7 := by
  unfold chebyshev_distance
  have hA := A.isLt
  have hB := B.isLt
  refine ⟨le_trans (abs_nonneg _) (le_max_left _ _), max_le ?_ ?_⟩ <;>
  · rw [abs_le]
    omega

/-- C6: proximity symmetry.  After `init_eval`, `square_proximity[A][B] = square_proximity[B][A]`
for every pair of squares, whatever the tables held before. -/
theorem square_proximity_symmetric {K : Type} [LinearOrderedField K] [FloorRing K]
    (sigmoid : K → K → K) (env : EvalParams) (t : Tables) (A B : Fin 64) :
    (init_eval sigmoid env t).square_proximity A B
      = (init_eval sigmoid env t).square_proximity B A := by
  rw [init_eval_square_proximity]
  unfold proximity_value
  simp only [abs_sub_comm]

/-- C7: after `init_eval`, `square_proximity[A][B]` is 7 minus the Chebyshev distance of `A` and
`B`; every entry lies in `[0,7]`, an entry is 7 exactly when `A = B`, and of two pairs of squares
the one at larger Chebyshev distance has the strictly smaller entry. -/
theorem square_proximity_chebyshev {K : Type} [LinearOrderedField K] [FloorRing K]
    (sigmoid : K → K → K) (env : EvalParams) (t : Tables) :
    (∀ A B : Fin 64,
        (init_eval sigmoid env t).square_proximity A B = 7 - chebyshev_distance A B)
      ∧ (∀ A B : Fin 64, 0 ≤ (init_eval sigmoid env t).square_proximity A B
          ∧ (init_eval sigmoid env t).square_proximity A B ≤ 7)
      ∧ (∀ A B : Fin 64, (init_eval sigmoid env t).square_proximity A B = 7 ↔ A = B)
      ∧ (∀ A B C D : Fin 64, chebyshev_distance A B < chebyshev_distance C D ↔
          (init_eval sigmoid env t).square_proximity C D
            < (init_eval sigmoid env t).square_proximity A B) := by
  have h : ∀ A B : Fin 64,
      (init_eval sigmoid env t).square_proximity A B = 7 - chebyshev_distance A B := by
    intro A B
    rw [init_eval_square_proximity]
    rfl
  refine ⟨h, ?_, ?_, ?_⟩
  · intro A B
    have := chebyshev_distance_bounds A B
    rw [h]
    omega
  · intro A B
    rw [h, ← chebyshev_distance_eq_zero]
    omega
  · intro A B C D
    rw [h, h]
    omega

/-- C8: table generation determinism.  The tables produced by `init_eval` do not depend on the
previous contents of the tables, and running `init_eval` a second time leaves them unchanged. -/
theorem init_eval_deterministic {K : Type} [LinearOrderedField K] [FloorRing K]
    (sigmoid : K → K → K) (env : EvalParams) (t t' : Tables) :
    init_eval sigmoid env t = init_eval sigmoid env t'
      ∧ init_eval sigmoid env (init_eval sigmoid env t) = init_eval sigmoid env t := by
  have h : ∀ t1 t2 : Tables, init_eval sigmoid env t1 = init_eval sigmoid env t2 := by
    intro t1 t2
    apply Tables.ext
    · rw [init_eval_square_proximity, init_eval_square_proximity]
    · rw [init_eval_pawn_square_table, init_eval_pawn_square_table]
    · rw [init_eval_pawn_square_table_endgame, init_eval_pawn_square_table_endgame]
    · rw [init_eval_knight_square_table, init_eval_knight_square_table]
    · rw [init_eval_bishop_square_table, init_eval_bishop_square_table]
    · funext s k
      rw [init_eval_rook_square_table, init_eval_rook_square_table]
    · rw [init_eval_queen_square_table, init_eval_queen_square_table]
    · rw [init_eval_king_square_table_endgame, init_eval_king_square_table_endgame]
  exact ⟨h t t', h _ t⟩

/-- The generated value of the black table on the square `63 - s` is the value of the white
table on `s`. -/
theorem calculate_square_value_point_symmetric {K : Type} [LinearOrderedField K] [FloorRing K]
    (sigmoid : K → K → K) (a b c d e : Int) (s : Nat) (hs : s < 64) :
    calculate_square_value sigmoid a b c d e BLACK ((63 - s : Nat) : Int)
      = calculate_square_value sigmoid a b c d e WHITE (s : Int) := by
  unfold calculate_square_value
  have h1 : (7 : Int) - (((63 - s : Nat) : Int)).tdiv 8 = ((s : Nat) : Int).tdiv 8 := by
    rw [Int.tdiv_eq_ediv (by omega) (by decide), Int.tdiv_eq_ediv (by omega) (by decide)]
    omega
  have h2 : (((63 - s : Nat) : Int)).tmod 8 = 7 - ((s : Nat) : Int).tmod 8 := by
    rw [Int.tmod_eq_emod (by omega) (by decide), Int.tmod_eq_emod (by omega) (by decide)]
    omega
  have h3 : |(((7 - ((s : Nat) : Int).tmod 8 : Int)) : K) - 7 / 2|
      = |((((s : Nat) : Int).tmod 8 : Int) : K) - 7 / 2| := by
    rw [← abs_neg]
    congr 1
    push_cast
    ring
  simp only [if_true, if_false, reduceCtorEq, h1, h2, h3]

/-- C9: for every choice of the five tuning parameters and every shaping function, the two
generated tables are point-symmetric across the board centre: `psqt[BLACK][63 - s] =
psqt[WHITE][s]` for every square `s`, whatever `psqt` held before. -/
theorem generate_piece_square_table_point_symmetric {K : Type} [LinearOrderedField K]
    [FloorRing K] (sigmoid : K → K → K) (psqt : Side → Fin 64 → Int)
    (piece_value center_bonus center_s_max opponent_back_row_bonus backrow_s_max : Int)
    (s : Fin 64) :
    generate_piece_square_table sigmoid psqt piece_value center_bonus center_s_max
        opponent_back_row_bonus backrow_s_max BLACK ⟨63 - s.val, by omega⟩
      = generate_piece_square_table sigmoid psqt piece_value center_bonus center_s_max
        opponent_back_row_bonus backrow_s_max WHITE s := by
  rw [generate_piece_square_table_apply, generate_piece_square_table_apply]
  exact calculate_square_value_point_symmetric sigmoid _ _ _ _ _ s.val s.isLt

/-- Counterexample to C10: with the base table `ROOK_SQUARE_TABLE[i] = i`, the black rook table
at row 0, file 0 holds 63 and the white rook table at row 7, file 0 holds 56, so the black table
is not the vertical mirror image of the white one. -/
theorem rook_table_not_vertical_mirror :
    (init_eval rational_sigmoid (sample_params 0 (fun _ => 0) (fun i => (i.val : Int)))
        zero_tables).rook_square_table BLACK (square_at 0 0)
      ≠ (init_eval rational_sigmoid (sample_params 0 (fun _ => 0) (fun i => (i.val : Int)))
        zero_tables).rook_square_table WHITE (square_at (7 - 0) 0) := by
  rw [init_eval_rook_square_table, init_eval_rook_square_table]
  decide

/-- C10 (amended): for every hand-supplied base table, after `init_eval` the white rook table is
the base table and the black rook table is the white one rotated by half a turn (mirrored
vertically and horizontally): for every row `r` and file `f`,
`rook_square_table[BLACK][8*r + f] = rook_square_table[WHITE][8*(7-r) + (7-f)]`. -/
theorem rook_table_point_mirror {K : Type} [LinearOrderedField K] [FloorRing K]
    (sigmoid : K → K → K) (env : EvalParams) (t : Tables) (r f : Fin 8) :
    (init_eval sigmoid env t).rook_square_table WHITE (square_at r f)
        = env.ROOK_SQUARE_TABLE (square_at r f)
      ∧ (init_eval sigmoid env t).rook_square_table BLACK (square_at r f)
        = (init_eval sigmoid env t).rook_square_table WHITE (square_at (7 - r) (7 - f)) := by
  rw [init_eval_rook_square_table, init_eval_rook_square_table, init_eval_rook_square_table]
  refine ⟨rfl, ?_⟩
  show env.ROOK_SQUARE_TABLE _ = env.ROOK_SQUARE_TABLE _
  congr 1
  apply Fin.ext
  have hr := r.isLt
  have hf := f.isLt
  have h7r : (7 - r : Fin 8).val = 7 - r.val := by
    revert r; decide
  have h7f : (7 - f : Fin 8).val = 7 - f.val := by
    revert f; decide
  simp only [square_at, Fin.val_rev, h7r, h7f]
  omega


/-! ### Bit-level lemmas -/

theorem testBit_of_lt64 {x : Nat} (h : x < 2 ^ 64) {j : Nat} (hj : 64 ≤ j) :
    x.testBit j = false :=
  Nat.testBit_lt_two_pow (lt_of_lt_of_le h (Nat.pow_le_pow_right (by decide) hj))

theorem testBit_shl64 (x n i : Nat) :
    (shl64 x n).testBit i = (decide (i < 64) && (decide (n ≤ i) && x.testBit (i - n))) := by
  unfold shl64
  rw [Nat.testBit_mod_two_pow, Nat.testBit_shiftLeft]

theorem testBit_not64 (x i : Nat) :
    (not64 x).testBit i = (x.testBit i ^^ decide (i < 64)) := by
  unfold not64
  rw [Nat.testBit_xor, Nat.testBit_two_pow_sub_one]

theorem testBit_permute_bits (σ : Nat → Nat) (b n i : Nat) :
    (permute_bits σ b n).testBit i = (decide (i < n) && b.testBit (σ i)) := by
  induction n with
  | zero => simp [permute_bits]
  | succ n ih =>
    rw [permute_bits, Nat.testBit_or, ih]
    by_cases hb : b.testBit (σ n) = true
    · rw [if_pos hb, Nat.testBit_two_pow]
      by_cases hi : n = i
      · subst hi; simp [hb]
      · have : decide (n = i) = false := by simp [hi]
        rw [this, Bool.or_false]
        by_cases h1 : i < n
        · simp [h1, Nat.lt_succ_of_lt h1]
        · have h2 : ¬ i < n + 1 := by omega
          simp [h1, h2]
    · rw [if_neg hb, Nat.zero_testBit, Bool.or_false]
      by_cases h1 : i < n
      · simp [h1, Nat.lt_succ_of_lt h1]
      · by_cases hi : n = i
        · subst hi
          simp at hb
          simp [hb]
        · have h2 : ¬ i < n + 1 := by omega
          simp [h1, h2]

theorem testBit_flip_vertical (b i : Nat) :
    (flip_vertical b).testBit i = (decide (i < 64) && b.testBit (flip_rank i)) :=
  testBit_permute_bits _ _ _ _

theorem testBit_mirror_horizontal (b i : Nat) :
    (mirror_horizontal b).testBit i = (decide (i < 64) && b.testBit (flip_file i)) :=
  testBit_permute_bits _ _ _ _

theorem testBit_A_FILE (i : Nat) : A_FILE.testBit i = decide (i < 64 ∧ i % 8 = 0) := by
  by_cases hi : i < 64
  · revert i
    decide
  · rw [testBit_of_lt64 (by decide) (by omega)]
    simp [hi]

theorem testBit_H_FILE (i : Nat) : H_FILE.testBit i = decide (i < 64 ∧ i % 8 = 7) := by
  by_cases hi : i < 64
  · revert i
    decide
  · rw [testBit_of_lt64 (by decide) (by omega)]
    simp [hi]


/-- A number whose bits from 64 upward are all clear is a 64-bit value. -/
theorem lt64_of_testBit {x : Nat} (h : ∀ i, 64 ≤ i → x.testBit i = false) : x < 2 ^ 64 :=
  Nat.lt_pow_two_of_testBit x h

theorem permute_bits_lt (σ : Nat → Nat) (b : Nat) : permute_bits σ b 64 < 2 ^ 64 := by
  apply lt64_of_testBit
  intro i hi
  rw [testBit_permute_bits]
  have : ¬ i < 64 := by omega
  simp [this]

theorem lt64_and_left {x : Nat} (y : Nat) (h : x < 2 ^ 64) : x &&& y < 2 ^ 64 :=
  lt_of_le_of_lt Nat.and_le_left h

theorem lt64_and_right (x : Nat) {y : Nat} (h : y < 2 ^ 64) : x &&& y < 2 ^ 64 :=
  lt_of_le_of_lt Nat.and_le_right h

theorem lt64_or {x y : Nat} (hx : x < 2 ^ 64) (hy : y < 2 ^ 64) : x ||| y < 2 ^ 64 :=
  Nat.or_lt_two_pow hx hy

theorem lt64_shr {x : Nat} (n : Nat) (h : x < 2 ^ 64) : x >>> n < 2 ^ 64 := by
  rw [Nat.shiftRight_eq_div_pow]
  exact lt_of_le_of_lt (Nat.div_le_self _ _) h

theorem lt64_shl64 (x n : Nat) : shl64 x n < 2 ^ 64 :=
  Nat.mod_lt _ (by decide)

theorem lt64_not64 {x : Nat} (h : x < 2 ^ 64) : not64 x < 2 ^ 64 :=
  Nat.xor_lt_two_pow h (by decide)

theorem lt64_south_fill {x : Nat} (h : x < 2 ^ 64) : south_fill x < 2 ^ 64 := by
  unfold south_fill
  exact lt64_or (lt64_or (lt64_or h (lt64_shr _ h)) (lt64_shr _ (lt64_or h (lt64_shr _ h))))
    (lt64_shr _ (lt64_or (lt64_or h (lt64_shr _ h)) (lt64_shr _ (lt64_or h (lt64_shr _ h)))))

theorem lt64_north_fill {x : Nat} (h : x < 2 ^ 64) : north_fill x < 2 ^ 64 := by
  unfold north_fill
  exact lt64_or (lt64_or (lt64_or h (lt64_shl64 _ _)) (lt64_shl64 _ _)) (lt64_shl64 _ _)

/-! ### The bit-scan loop as a sum over the squares of a bitboard -/

theorem lsb_scan_spec (b : Nat) (fuel i : Nat) (h : ∃ j, i ≤ j ∧ j < i + fuel ∧ b.testBit j = true) :
    b.testBit (lsb_scan b fuel i) = true ∧ i ≤ lsb_scan b fuel i ∧ lsb_scan b fuel i < i + fuel
      ∧ ∀ j, i ≤ j → j < lsb_scan b fuel i → b.testBit j = false := by
  induction fuel generalizing i with
  | zero =>
    obtain ⟨j, h1, h2, _⟩ := h
    omega
  | succ fuel ih =>
    unfold lsb_scan
    by_cases hb : b.testBit i = true
    · rw [if_pos hb]
      exact ⟨hb, le_refl _, by omega, fun j h1 h2 => by omega⟩
    · rw [if_neg hb]
      obtain ⟨j, h1, h2, h3⟩ := h
      have hij : i ≠ j := by
        rintro rfl
        exact hb h3
      obtain ⟨r1, r2, r3, r4⟩ := ih (i + 1) ⟨j, by omega, by omega, h3⟩
      refine ⟨r1, by omega, by omega, ?_⟩
      intro j' h1' h2'
      by_cases hj' : j' = i
      · subst hj'
        simpa using hb
      · exact r4 j' (by omega) h2'

theorem exists_testBit_of_ne_zero {b : Nat} (hb : b ≠ 0) (h64 : b < 2 ^ 64) :
    ∃ j, 0 ≤ j ∧ j < 0 + 64 ∧ b.testBit j = true := by
  obtain ⟨j, hj⟩ := Nat.ne_zero_implies_bit_true hb
  refine ⟨j, Nat.zero_le _, ?_, hj⟩
  by_contra hlt
  have := testBit_of_lt64 h64 (show 64 ≤ j by omega)
  rw [this] at hj
  exact Bool.false_ne_true hj

theorem lsb_to_square_lt {b : Nat} (hb : b ≠ 0) (h64 : b < 2 ^ 64) : lsb_to_square b < 64 := by
  have := (lsb_scan_spec b 64 0 (exists_testBit_of_ne_zero hb h64)).2.2.1
  unfold lsb_to_square
  omega

theorem testBit_lsb_to_square {b : Nat} (hb : b ≠ 0) (h64 : b < 2 ^ 64) :
    b.testBit (lsb_to_square b) = true :=
  (lsb_scan_spec b 64 0 (exists_testBit_of_ne_zero hb h64)).1

theorem lsb_to_square_two_pow {k : Nat} (hk : k < 64) : lsb_to_square (2 ^ k) = k := by
  have h64 : 2 ^ k < 2 ^ 64 := Nat.pow_lt_pow_right (by decide) hk
  have h := testBit_lsb_to_square (Nat.pos_iff_ne_zero.mp (Nat.two_pow_pos k)) h64
  rw [Nat.testBit_two_pow] at h
  exact (of_decide_eq_true h).symm

theorem testBit_reset_lsb (b j : Nat) :
    (reset_lsb b).testBit j = (b.testBit j ^^ decide (lsb_to_square b = j)) := by
  unfold reset_lsb
  rw [Nat.testBit_xor, Nat.testBit_two_pow]

theorem lt64_reset_lsb {b : Nat} (hb : b ≠ 0) (h64 : b < 2 ^ 64) : reset_lsb b < 2 ^ 64 :=
  Nat.xor_lt_two_pow h64 (Nat.pow_lt_pow_right (by decide) (lsb_to_square_lt hb h64))

/-- Clearing the lowest set bit removes exactly the square `lsb_to_square b`. -/
theorem squares_reset_lsb {b : Nat} (hb : b ≠ 0) (h64 : b < 2 ^ 64) :
    squares (reset_lsb b) = (squares b).erase (lsb_to_square b) := by
  ext j
  simp only [squares, Finset.mem_filter, Finset.mem_range, Finset.mem_erase, testBit_reset_lsb]
  have ht := testBit_lsb_to_square hb h64
  by_cases hj : lsb_to_square b = j
  · subst hj
    simp [ht]
  · have hj' : j ≠ lsb_to_square b := fun h => hj h.symm
    simp [hj, hj']

theorem lsb_to_square_mem_squares {b : Nat} (hb : b ≠ 0) (h64 : b < 2 ^ 64) :
    lsb_to_square b ∈ squares b := by
  simp only [squares, Finset.mem_filter, Finset.mem_range]
  exact ⟨lsb_to_square_lt hb h64, testBit_lsb_to_square hb h64⟩

theorem squares_zero : squares 0 = ∅ := by
  ext j
  simp [squares]

/-- The loop over the set bits of a 64-bit bitboard adds up the contributions of its squares. -/
theorem bit_loop_eq_sum {M : Type} [AddCommMonoid M] (step : M → Nat → M) (f : Nat → M)
    (hstep : ∀ s i, step s i = s + f i) (fuel b : Nat) (h64 : b < 2 ^ 64)
    (hfuel : (squares b).card ≤ fuel) (s : M) :
    bit_loop step fuel b s = s + ∑ i in squares b, f i := by
  induction fuel generalizing b s with
  | zero =>
    have h0 : squares b = ∅ := Finset.card_eq_zero.mp (Nat.le_zero.mp hfuel)
    simp [bit_loop, h0]
  | succ fuel ih =>
    unfold bit_loop
    by_cases hb : b = 0
    · subst hb
      simp [squares_zero]
    · rw [if_neg hb]
      have hmem := lsb_to_square_mem_squares hb h64
      rw [ih (reset_lsb b) (lt64_reset_lsb hb h64) ?_, hstep, squares_reset_lsb hb h64,
        add_assoc, Finset.add_sum_erase _ _ hmem]
      rw [squares_reset_lsb hb h64, Finset.card_erase_of_mem hmem]
      omega

theorem card_squares_le (b : Nat) : (squares b).card ≤ 64 := by
  unfold squares
  exact le_trans (Finset.card_filter_le _ _) (by simp)

theorem bit_loop_64 {M : Type} [AddCommMonoid M] (step : M → Nat → M) (f : Nat → M)
    (hstep : ∀ s i, step s i = s + f i) (b : Nat) (h64 : b < 2 ^ 64) (s : M) :
    bit_loop step 64 b s = s + ∑ i in squares b, f i :=
  bit_loop_eq_sum step f hstep 64 b h64 (card_squares_le b) s

theorem pop_count_eq_card (b : Nat) : pop_count b = ((squares b).card : Int) := by
  unfold pop_count squares
  rw [Finset.card_def, Finset.filter_val, Finset.range_val, Multiset.range, Multiset.filter_coe,
    Multiset.coe_card]
  congr 2
  apply List.filter_congr
  intro i _
  simp

/-! ### Bitboards under a permutation of the squares -/

theorem permute_bits_or (σ : Nat → Nat) (x y : Nat) :
    permute_bits σ x 64 ||| permute_bits σ y 64 = permute_bits σ (x ||| y) 64 := by
  apply Nat.eq_of_testBit_eq
  intro i
  simp only [Nat.testBit_or, testBit_permute_bits, Bool.and_or_distrib_left]

theorem permute_bits_and (σ : Nat → Nat) (x y : Nat) :
    permute_bits σ x 64 &&& permute_bits σ y 64 = permute_bits σ (x &&& y) 64 := by
  apply Nat.eq_of_testBit_eq
  intro i
  simp only [Nat.testBit_and, testBit_permute_bits]
  cases decide (i < 64) <;> simp

theorem permute_bits_not64 (σ : Nat → Nat) (hσ : ∀ i, i < 64 → σ i < 64 ∧ σ (σ i) = i)
    (x : Nat) : not64 (permute_bits σ x 64) = permute_bits σ (not64 x) 64 := by
  apply Nat.eq_of_testBit_eq
  intro i
  simp only [testBit_not64, testBit_permute_bits]
  by_cases hi : i < 64
  · simp [hi, (hσ i hi).1]
  · simp [hi]

theorem sum_squares_permute_bits {M : Type} [AddCommMonoid M] (σ : Nat → Nat)
    (hσ : ∀ i, i < 64 → σ i < 64 ∧ σ (σ i) = i) (x : Nat) (f : Nat → M) :
    ∑ i in squares (permute_bits σ x 64), f i = ∑ i in squares x, f (σ i) := by
  apply Finset.sum_nbij' σ σ
  · intro a ha
    simp only [squares, Finset.mem_filter, Finset.mem_range, testBit_permute_bits] at ha ⊢
    obtain ⟨h1, h2⟩ := ha
    simp only [h1, decide_True, Bool.true_and] at h2
    exact ⟨(hσ a h1).1, h2⟩
  · intro a ha
    simp only [squares, Finset.mem_filter, Finset.mem_range, testBit_permute_bits] at ha ⊢
    obtain ⟨h1, h2⟩ := ha
    refine ⟨(hσ a h1).1, ?_⟩
    simp [(hσ a h1).1, (hσ a h1).2, h2]
  · intro a ha
    simp only [squares, Finset.mem_filter, Finset.mem_range] at ha
    exact (hσ a ha.1).2
  · intro a ha
    simp only [squares, Finset.mem_filter, Finset.mem_range] at ha
    exact (hσ a ha.1).2
  · intro a ha
    simp only [squares, Finset.mem_filter, Finset.mem_range] at ha
    rw [(hσ a ha.1).2]

theorem pop_count_permute_bits (σ : Nat → Nat) (hσ : ∀ i, i < 64 → σ i < 64 ∧ σ (σ i) = i)
    (x : Nat) : pop_count (permute_bits σ x 64) = pop_count x := by
  rw [pop_count_eq_card, pop_count_eq_card, Finset.card_eq_sum_ones, Finset.card_eq_sum_ones,
    sum_squares_permute_bits σ hσ]

theorem permute_bits_two_pow (σ : Nat → Nat) (hσ : ∀ i, i < 64 → σ i < 64 ∧ σ (σ i) = i)
    {k : Nat} (hk : k < 64) : permute_bits σ (2 ^ k) 64 = 2 ^ σ k := by
  apply Nat.eq_of_testBit_eq
  intro i
  simp only [testBit_permute_bits, Nat.testBit_two_pow]
  by_cases hi : i < 64
  · have h1 := (hσ i hi).2
    have h2 := (hσ k hk).2
    by_cases h : k = σ i
    · have : σ k = i := by rw [h, h1]
      simp [hi, h, h1]
    · have : ¬ σ k = i := by
        intro h'
        apply h
        rw [← h', h2]
      simp [hi, h, this]
  · have : ¬ σ k = i := by
      have := (hσ k hk).1
      omega
    simp [hi, this]

theorem flip_rank_invol : ∀ i, i < 64 → flip_rank i < 64 ∧ flip_rank (flip_rank i) = i := by
  decide

theorem flip_file_invol : ∀ i, i < 64 → flip_file i < 64 ∧ flip_file (flip_file i) = i := by
  decide

/-! ### Rank flip: shifts, fills and pawn attacks -/

theorem flip_vertical_lt (x : Nat) : flip_vertical x < 2 ^ 64 := permute_bits_lt _ _

theorem flip_vertical_or (x y : Nat) :
    flip_vertical x ||| flip_vertical y = flip_vertical (x ||| y) := permute_bits_or _ _ _

theorem flip_vertical_and (x y : Nat) :
    flip_vertical x &&& flip_vertical y = flip_vertical (x &&& y) := permute_bits_and _ _ _

theorem flip_vertical_not64 (x : Nat) : not64 (flip_vertical x) = flip_vertical (not64 x) :=
  permute_bits_not64 _ flip_rank_invol _

theorem pop_count_flip_vertical (x : Nat) : pop_count (flip_vertical x) = pop_count x :=
  pop_count_permute_bits _ flip_rank_invol _

theorem shr_flip_vertical (x n : Nat) (hn : n = 8 ∨ n = 16 ∨ n = 32) :
    flip_vertical x >>> n = flip_vertical (shl64 x n) := by
  apply Nat.eq_of_testBit_eq
  intro i
  simp only [testBit_flip_vertical, testBit_shl64, Nat.testBit_shiftRight]
  by_cases hi : i < 64
  · rcases hn with rfl | rfl | rfl <;> interval_cases i <;> simp [flip_rank]
  · have : ¬ n + i < 64 := by omega
    simp [hi, this]

theorem shl64_flip_vertical (x n : Nat) (hx : x < 2 ^ 64) (hn : n = 8 ∨ n = 16 ∨ n = 32) :
    shl64 (flip_vertical x) n = flip_vertical (x >>> n) := by
  apply Nat.eq_of_testBit_eq
  intro i
  simp only [testBit_flip_vertical, testBit_shl64, Nat.testBit_shiftRight]
  by_cases hi : i < 64
  · rcases hn with rfl | rfl | rfl <;> interval_cases i <;>
      simp [flip_rank, testBit_of_lt64 hx]
  · simp [hi]

theorem south_fill_flip_vertical (x : Nat) :
    south_fill (flip_vertical x) = flip_vertical (north_fill x) := by
  unfold south_fill north_fill
  simp only [shr_flip_vertical _ 8 (Or.inl rfl), shr_flip_vertical _ 16 (Or.inr (Or.inl rfl)),
    shr_flip_vertical _ 32 (Or.inr (Or.inr rfl)), flip_vertical_or]

theorem north_fill_flip_vertical (x : Nat) (hx : x < 2 ^ 64) :
    north_fill (flip_vertical x) = flip_vertical (south_fill x) := by
  unfold south_fill north_fill
  have h1 : x ||| x >>> 8 < 2 ^ 64 := lt64_or hx (lt64_shr _ hx)
  have h2 : (x ||| x >>> 8) ||| (x ||| x >>> 8) >>> 16 < 2 ^ 64 := lt64_or h1 (lt64_shr _ h1)
  simp only []
  rw [shl64_flip_vertical _ 8 hx (Or.inl rfl), flip_vertical_or,
    shl64_flip_vertical _ 16 h1 (Or.inr (Or.inl rfl)), flip_vertical_or,
    shl64_flip_vertical _ 32 h2 (Or.inr (Or.inr rfl)), flip_vertical_or]

theorem file_fill_flip_vertical (x : Nat) (hx : x < 2 ^ 64) :
    file_fill (flip_vertical x) = flip_vertical (file_fill x) := by
  unfold file_fill
  rw [south_fill_flip_vertical, north_fill_flip_vertical _ hx, flip_vertical_or, Nat.lor_comm]

theorem white_attacks_flip_vertical (x : Nat) (hx : x < 2 ^ 64) :
    shl64 (flip_vertical x &&& not64 A_FILE) 7 ||| shl64 (flip_vertical x &&& not64 H_FILE) 9
      = flip_vertical (((x &&& not64 A_FILE) >>> 9) ||| ((x &&& not64 H_FILE) >>> 7)) := by
  apply Nat.eq_of_testBit_eq
  intro i
  simp only [testBit_flip_vertical, testBit_shl64, Nat.testBit_shiftRight, Nat.testBit_or,
    Nat.testBit_and, testBit_not64, testBit_A_FILE, testBit_H_FILE]
  by_cases hi : i < 64
  · interval_cases i <;> simp [flip_rank, testBit_of_lt64 hx]
  · simp [hi]

theorem black_attacks_flip_vertical (x : Nat) :
    ((flip_vertical x &&& not64 A_FILE) >>> 9) ||| ((flip_vertical x &&& not64 H_FILE) >>> 7)
      = flip_vertical
          (shl64 (x &&& not64 A_FILE) 7 ||| shl64 (x &&& not64 H_FILE) 9) := by
  apply Nat.eq_of_testBit_eq
  intro i
  simp only [testBit_flip_vertical, testBit_shl64, Nat.testBit_shiftRight, Nat.testBit_or,
    Nat.testBit_and, testBit_not64, testBit_A_FILE, testBit_H_FILE]
  by_cases hi : i < 64
  · interval_cases i <;> simp [flip_rank]
  · have h1 : ¬ 9 + i < 64 := by omega
    have h2 : ¬ 7 + i < 64 := by omega
    simp [hi, h1, h2]

/-! ### `evaluate` in closed form -/

theorem bit_loop_pair (g1 g2 : Nat → Int) (step : Int × Int → Nat → Int × Int)
    (hstep : ∀ st i, step st i = (st.1 + g1 i, st.2 + g2 i)) (b : Nat) (hb : b < 2 ^ 64)
    (st : Int × Int) :
    bit_loop step 64 b st = (st.1 + ∑ i in squares b, g1 i, st.2 + ∑ i in squares b, g2 i) := by
  rw [bit_loop_64 step (fun i => (g1 i, g2 i)) (fun s i => by rw [hstep]; rfl) b hb]
  ext
  · simp [Prod.fst_sum]
  · simp [Prod.snd_sum]

theorem white_terms_eq (env : EvalParams) (t : Tables) (position : Position)
    (hwf : position.wf) (w k : Nat) (s : Int) :
    white_terms env t position w k s = s + white_total env t position w k := by
  unfold white_terms white_total white_pawn_sum white_bishop_sum white_knight_sum white_rook_sum
    white_queen_sum white_proximity_sum
  simp only []
  rw [bit_loop_64 _ (fun i => ((t.pawn_square_table_endgame WHITE (sq i)
          - (t.pawn_square_table_endgame WHITE (sq i) * total_material position).tdiv
              MAX_MATERIAL)
        + (t.pawn_square_table WHITE (sq i) * total_material position).tdiv MAX_MATERIAL))
      (fun s i => by ring) _ (hwf WHITE PAWN)]
  rw [bit_loop_pair (fun i => t.bishop_square_table WHITE (sq i)
        + env.BISHOP_MOBILITY_BONUS
          * (pop_count (env.bishop_attacks (occupied_squares position) i
              &&& not64 (white_squares position)) - 5))
      (fun i => t.square_proximity (sq k) (sq i) * env.BISHOP_KING_PROXIMITY_BONUS)
      _ (fun st i => by ext <;> simp only [] ; ring) _ (hwf WHITE BISHOP)]
  rw [bit_loop_pair (fun i => t.knight_square_table WHITE (sq i))
      (fun i => t.square_proximity (sq k) (sq i) * env.KNIGHT_KING_PROXIMITY_BONUS)
      _ (fun st i => rfl) _ (hwf WHITE KNIGHT)]
  rw [bit_loop_pair (fun i => t.rook_square_table WHITE (sq i)
        + env.ROOK_MOBILITY_BONUS
          * (pop_count (env.rook_attacks (occupied_squares position) i
              &&& not64 (white_squares position)) - 5))
      (fun i => t.square_proximity (sq k) (sq i) * env.ROOK_KING_PROXIMITY_BONUS)
      _ (fun st i => by ext <;> simp only [] ; ring) _ (hwf WHITE ROOK)]
  rw [bit_loop_pair (fun i => t.queen_square_table WHITE (sq i))
      (fun i => t.square_proximity (sq k) (sq i) * env.QUEEN_KING_PROXIMITY_BONUS)
      _ (fun st i => rfl) _ (hwf WHITE QUEEN)]
  simp only [zero_add]
  split_ifs <;> ring

theorem black_terms_eq (env : EvalParams) (t : Tables) (position : Position)
    (hwf : position.wf) (w k : Nat) (s : Int) :
    black_terms env t position w k s = s - black_total env t position w k := by
  unfold black_terms black_total black_pawn_sum black_bishop_sum black_knight_sum black_rook_sum
    black_queen_sum black_proximity_sum
  simp only []
  rw [bit_loop_64 _ (fun i => -((t.pawn_square_table_endgame BLACK (sq i)
          - (t.pawn_square_table_endgame BLACK (sq i) * total_material position).tdiv
              MAX_MATERIAL)
        + (t.pawn_square_table BLACK (sq i) * total_material position).tdiv MAX_MATERIAL))
      (fun s i => by ring) _ (hwf BLACK PAWN)]
  rw [bit_loop_pair (fun i => -(t.bishop_square_table BLACK (sq i)
        + env.BISHOP_MOBILITY_BONUS
          * (pop_count (env.bishop_attacks (occupied_squares position) i
              &&& not64 (black_squares position)) - 5)))
      (fun i => t.square_proximity (sq w) (sq i) * env.BISHOP_KING_PROXIMITY_BONUS)
      _ (fun st i => by ext <;> simp only [] ; ring) _ (hwf BLACK BISHOP)]
  rw [bit_loop_pair (fun i => -t.knight_square_table BLACK (sq i))
      (fun i => t.square_proximity (sq w) (sq i) * env.KNIGHT_KING_PROXIMITY_BONUS)
      _ (fun st i => by ext <;> simp only [] ; ring) _ (hwf BLACK KNIGHT)]
  rw [bit_loop_pair (fun i => -(t.rook_square_table BLACK (sq i)
        + env.ROOK_MOBILITY_BONUS
          * (pop_count (env.rook_attacks (occupied_squares position) i
              &&& not64 (black_squares position)) - 5)))
      (fun i => t.square_proximity (sq w) (sq i) * env.ROOK_KING_PROXIMITY_BONUS)
      _ (fun st i => by ext <;> simp only [] ; ring) _ (hwf BLACK ROOK)]
  rw [bit_loop_pair (fun i => -t.queen_square_table BLACK (sq i))
      (fun i => t.square_proximity (sq w) (sq i) * env.QUEEN_KING_PROXIMITY_BONUS)
      _ (fun st i => by ext <;> simp only [] ; ring) _ (hwf BLACK QUEEN)]
  simp only [zero_add, Finset.sum_neg_distrib]
  split_ifs <;> ring

/-- The score of `evaluate` once the two king guards, the draw guard and the shift guards are
passed. -/
theorem evaluate_eq (env : EvalParams) (t : Tables) (position : Position) (hwf : position.wf)
    (hbk : position.p BLACK KING ≠ 0) (hwk : position.p WHITE KING ≠ 0)
    (hdraw : ¬ (total_material position ≤ 300
      ∧ (position.p WHITE PAWN ||| position.p BLACK PAWN) = 0))
    (hw : lsb_to_square (position.p WHITE KING) + 7 < 64)
    (hk : 9 ≤ lsb_to_square (position.p BLACK KING)) :
    evaluate env t position
      = some (white_total env t position (lsb_to_square (position.p WHITE KING))
            (lsb_to_square (position.p BLACK KING))
          - black_total env t position (lsb_to_square (position.p WHITE KING))
            (lsb_to_square (position.p BLACK KING))) := by
  unfold evaluate
  simp only []
  rw [if_neg hbk, if_neg hwk, if_neg hdraw, if_neg (by omega)]
  rw [black_terms_eq env t position hwf, white_terms_eq env t position hwf, zero_add]

/-! ### The locals of `evaluate` on the board with the sides swapped -/

theorem swap_sides_white (position : Position) (k : Piece) :
    (swap_sides position).p WHITE k = flip_vertical (position.p BLACK k) := rfl

theorem swap_sides_black (position : Position) (k : Piece) :
    (swap_sides position).p BLACK k = flip_vertical (position.p WHITE k) := rfl

theorem white_squares_swap (position : Position) :
    white_squares (swap_sides position) = flip_vertical (black_squares position) := by
  simp only [white_squares, black_squares, swap_sides_white, flip_vertical_or]

theorem black_squares_swap (position : Position) :
    black_squares (swap_sides position) = flip_vertical (white_squares position) := by
  simp only [white_squares, black_squares, swap_sides_black, flip_vertical_or]

theorem occupied_squares_swap (position : Position) :
    occupied_squares (swap_sides position) = flip_vertical (occupied_squares position) := by
  simp only [occupied_squares, white_squares_swap, black_squares_swap, flip_vertical_or]
  rw [Nat.lor_comm]

theorem white_piece_material_swap (position : Position) :
    white_piece_material (swap_sides position) = black_piece_material position := by
  simp only [white_piece_material, black_piece_material, swap_sides_white,
    pop_count_flip_vertical]

theorem black_piece_material_swap (position : Position) :
    black_piece_material (swap_sides position) = white_piece_material position := by
  simp only [white_piece_material, black_piece_material, swap_sides_black,
    pop_count_flip_vertical]

theorem total_material_swap (position : Position) :
    total_material (swap_sides position) = total_material position := by
  simp only [total_material, white_piece_material_swap, black_piece_material_swap]
  ring

theorem white_pawn_protection_squares_swap (position : Position) (hwf : position.wf) :
    white_pawn_protection_squares (swap_sides position)
      = flip_vertical (black_pawn_protection_squares position) := by
  simp only [white_pawn_protection_squares, black_pawn_protection_squares, swap_sides_white]
  exact white_attacks_flip_vertical _ (hwf BLACK PAWN)

theorem black_pawn_protection_squares_swap (position : Position) :
    black_pawn_protection_squares (swap_sides position)
      = flip_vertical (white_pawn_protection_squares position) := by
  simp only [white_pawn_protection_squares, black_pawn_protection_squares, swap_sides_black]
  exact black_attacks_flip_vertical _

theorem lt64_white_pawn_protection_squares (position : Position) :
    white_pawn_protection_squares position < 2 ^ 64 :=
  lt64_or (lt64_shl64 _ _) (lt64_shl64 _ _)

theorem lt64_black_pawn_protection_squares (position : Position) (hwf : position.wf) :
    black_pawn_protection_squares position < 2 ^ 64 :=
  lt64_or (lt64_shr _ (lt64_and_left _ (hwf BLACK PAWN)))
    (lt64_shr _ (lt64_and_left _ (hwf BLACK PAWN)))

theorem black_pawn_blocking_squares_swap (position : Position) :
    black_pawn_blocking_squares (swap_sides position)
      = flip_vertical (white_pawn_blocking_squares position) := by
  simp only [black_pawn_blocking_squares, white_pawn_blocking_squares,
    black_pawn_protection_squares_swap, swap_sides_black]
  rw [shr_flip_vertical _ 8 (Or.inl rfl), flip_vertical_or, south_fill_flip_vertical]

theorem white_pawn_blocking_squares_swap (position : Position) (hwf : position.wf) :
    white_pawn_blocking_squares (swap_sides position)
      = flip_vertical (black_pawn_blocking_squares position) := by
  simp only [black_pawn_blocking_squares, white_pawn_blocking_squares,
    white_pawn_protection_squares_swap position hwf, swap_sides_white]
  rw [shl64_flip_vertical _ 8 (hwf BLACK PAWN) (Or.inl rfl), flip_vertical_or,
    north_fill_flip_vertical _
      (lt64_or (lt64_shr _ (hwf BLACK PAWN)) (lt64_black_pawn_protection_squares position hwf))]

theorem white_pawn_files_swap (position : Position) (hwf : position.wf) :
    white_pawn_files (swap_sides position) = flip_vertical (black_pawn_files position) := by
  simp only [white_pawn_files, black_pawn_files, swap_sides_white]
  exact file_fill_flip_vertical _ (hwf BLACK PAWN)

theorem black_pawn_files_swap (position : Position) (hwf : position.wf) :
    black_pawn_files (swap_sides position) = flip_vertical (white_pawn_files position) := by
  simp only [white_pawn_files, black_pawn_files, swap_sides_black]
  exact file_fill_flip_vertical _ (hwf WHITE PAWN)

theorem open_files_swap (position : Position) (hwf : position.wf) :
    open_files (swap_sides position) = flip_vertical (open_files position) := by
  simp only [open_files, white_pawn_files_swap position hwf, black_pawn_files_swap position hwf,
    flip_vertical_or, flip_vertical_not64]
  rw [Nat.lor_comm]

theorem white_semi_open_files_swap (position : Position) (hwf : position.wf) :
    white_semi_open_files (swap_sides position)
      = flip_vertical (black_semi_open_files position) := by
  simp only [white_semi_open_files, black_semi_open_files, white_pawn_files_swap position hwf,
    black_pawn_files_swap position hwf, flip_vertical_and, flip_vertical_not64]

theorem black_semi_open_files_swap (position : Position) (hwf : position.wf) :
    black_semi_open_files (swap_sides position)
      = flip_vertical (white_semi_open_files position) := by
  simp only [white_semi_open_files, black_semi_open_files, white_pawn_files_swap position hwf,
    black_pawn_files_swap position hwf, flip_vertical_and, flip_vertical_not64]

theorem white_double_pawn_mask_swap (position : Position) (hwf : position.wf) :
    white_double_pawn_mask (swap_sides position)
      = flip_vertical (black_double_pawn_mask position) := by
  simp only [white_double_pawn_mask, black_double_pawn_mask, swap_sides_white]
  rw [shl64_flip_vertical _ 8 (hwf BLACK PAWN) (Or.inl rfl),
    north_fill_flip_vertical _ (lt64_shr _ (hwf BLACK PAWN))]

theorem black_double_pawn_mask_swap (position : Position) :
    black_double_pawn_mask (swap_sides position)
      = flip_vertical (white_double_pawn_mask position) := by
  simp only [white_double_pawn_mask, black_double_pawn_mask, swap_sides_black]
  rw [shr_flip_vertical _ 8 (Or.inl rfl), south_fill_flip_vertical]

theorem white_passed_pawns_swap (position : Position) :
    white_passed_pawns (swap_sides position) = flip_vertical (black_passed_pawns position) := by
  simp only [white_passed_pawns, black_passed_pawns, black_pawn_blocking_squares_swap,
    swap_sides_white, flip_vertical_not64, flip_vertical_and]

theorem black_passed_pawns_swap (position : Position) (hwf : position.wf) :
    black_passed_pawns (swap_sides position) = flip_vertical (white_passed_pawns position) := by
  simp only [white_passed_pawns, black_passed_pawns,
    white_pawn_blocking_squares_swap position hwf, swap_sides_black, flip_vertical_not64,
    flip_vertical_and]

theorem white_doubled_pawns_swap (position : Position) (hwf : position.wf) :
    white_doubled_pawns (swap_sides position) = flip_vertical (black_doubled_pawns position) := by
  simp only [white_doubled_pawns, black_doubled_pawns, white_double_pawn_mask_swap position hwf,
    swap_sides_white, flip_vertical_and]

theorem black_doubled_pawns_swap (position : Position) :
    black_doubled_pawns (swap_sides position) = flip_vertical (white_doubled_pawns position) := by
  simp only [white_doubled_pawns, black_doubled_pawns, black_double_pawn_mask_swap,
    swap_sides_black, flip_vertical_and]

theorem white_isolated_pawns_swap (position : Position) (hwf : position.wf) :
    white_isolated_pawns (swap_sides position)
      = flip_vertical (black_isolated_pawns position) := by
  simp only [white_isolated_pawns, black_isolated_pawns,
    white_pawn_protection_squares_swap position hwf, swap_sides_white]
  rw [file_fill_flip_vertical _ (lt64_black_pawn_protection_squares position hwf),
    flip_vertical_not64, flip_vertical_and]

theorem black_isolated_pawns_swap (position : Position) :
    black_isolated_pawns (swap_sides position)
      = flip_vertical (white_isolated_pawns position) := by
  simp only [white_isolated_pawns, black_isolated_pawns, black_pawn_protection_squares_swap,
    swap_sides_black]
  rw [file_fill_flip_vertical _ (lt64_white_pawn_protection_squares position),
    flip_vertical_not64, flip_vertical_and]

theorem black_dominated_stop_squares_swap (position : Position) (hwf : position.wf) :
    black_dominated_stop_squares (swap_sides position)
      = flip_vertical (white_dominated_stop_squares position) := by
  simp only [black_dominated_stop_squares, white_dominated_stop_squares,
    white_pawn_protection_squares_swap position hwf, black_pawn_protection_squares_swap]
  rw [north_fill_flip_vertical _ (lt64_black_pawn_protection_squares position hwf),
    flip_vertical_not64, flip_vertical_and]

theorem white_dominated_stop_squares_swap (position : Position) (hwf : position.wf) :
    white_dominated_stop_squares (swap_sides position)
      = flip_vertical (black_dominated_stop_squares position) := by
  simp only [black_dominated_stop_squares, white_dominated_stop_squares,
    white_pawn_protection_squares_swap position hwf, black_pawn_protection_squares_swap]
  rw [south_fill_flip_vertical, flip_vertical_not64, flip_vertical_and]

theorem white_backward_pawns_swap (position : Position) (hwf : position.wf) :
    white_backward_pawns (swap_sides position)
      = flip_vertical (black_backward_pawns position) := by
  simp only [white_backward_pawns, black_backward_pawns,
    black_dominated_stop_squares_swap position hwf, swap_sides_white]
  rw [south_fill_flip_vertical, flip_vertical_and]

theorem black_backward_pawns_swap (position : Position) (hwf : position.wf) :
    black_backward_pawns (swap_sides position)
      = flip_vertical (white_backward_pawns position) := by
  simp only [white_backward_pawns, black_backward_pawns,
    white_dominated_stop_squares_swap position hwf, swap_sides_black]
  have hb : black_dominated_stop_squares position < 2 ^ 64 :=
    lt64_and_right _ (lt64_black_pawn_protection_squares position hwf)
  rw [north_fill_flip_vertical _ hb, flip_vertical_and]

/-! ### King safety, piece sums and totals on the board with the sides swapped -/

theorem pawn_mask_flip_rank :
    ∀ k, k < 64 → 9 ≤ k → k ≠ 48 → k ≠ 55 →
      pawn_mask (flip_rank k) = flip_vertical (black_pawn_mask k) := by
  decide

theorem black_pawn_mask_flip_rank :
    ∀ w, w < 64 → w ≤ 55 → w ≠ 8 → w ≠ 15 → w ≠ 48 →
      black_pawn_mask (flip_rank w) = flip_vertical (pawn_mask w) := by
  decide

theorem lt64_pawn_mask (w : Nat) : pawn_mask w < 2 ^ 64 :=
  lt64_and_left _ (lt64_shl64 _ _)

theorem lt64_black_pawn_mask (k : Nat) : black_pawn_mask k < 2 ^ 64 :=
  lt64_and_left _ (lt64_shl64 _ _)

theorem king_safety_penalty_swap (env : EvalParams) (position : Position) (hwf : position.wf)
    (k : Nat) (hmask : pawn_mask (flip_rank k) = flip_vertical (black_pawn_mask k)) :
    king_safety_penalty env (swap_sides position) (flip_rank k)
      = black_king_safety_penalty env position k := by
  unfold king_safety_penalty black_king_safety_penalty
  simp only [hmask, open_files_swap position hwf, swap_sides_white, flip_vertical_not64,
    flip_vertical_and, pop_count_flip_vertical, black_piece_material_swap]
  rw [shl64_flip_vertical _ 8 (lt64_and_right _ (lt64_black_pawn_mask k)) (Or.inl rfl),
    flip_vertical_and, pop_count_flip_vertical]

theorem black_king_safety_penalty_swap (env : EvalParams) (position : Position)
    (hwf : position.wf) (w : Nat)
    (hmask : black_pawn_mask (flip_rank w) = flip_vertical (pawn_mask w)) :
    black_king_safety_penalty env (swap_sides position) (flip_rank w)
      = king_safety_penalty env position w := by
  unfold king_safety_penalty black_king_safety_penalty
  simp only [hmask, open_files_swap position hwf, swap_sides_black, flip_vertical_not64,
    flip_vertical_and, pop_count_flip_vertical, white_piece_material_swap]
  rw [shr_flip_vertical _ 8 (Or.inl rfl), flip_vertical_and, pop_count_flip_vertical]

theorem sum_squares_flip_vertical (x : Nat) (f g : Nat → Int)
    (h : ∀ i, i < 64 → f (flip_rank i) = g i) :
    ∑ i in squares (flip_vertical x), f i = ∑ i in squares x, g i := by
  unfold flip_vertical
  rw [sum_squares_permute_bits _ flip_rank_invol]
  apply Finset.sum_congr rfl
  intro i hi
  simp only [squares, Finset.mem_filter, Finset.mem_range] at hi
  exact h i hi.1

theorem flip_rank_lt {i : Nat} (hi : i < 64) : flip_rank i < 64 := (flip_rank_invol i hi).1

theorem flip_rank_flip_rank {i : Nat} (hi : i < 64) : flip_rank (flip_rank i) = i :=
  (flip_rank_invol i hi).2

/-- The symmetry of a pair of tables read from white to black. -/
theorem white_of_black (tbl : Side → Fin 64 → Int)
    (h : ∀ i, i < 64 → tbl BLACK (sq (flip_rank i)) = tbl WHITE (sq i)) (i : Nat)
    (hi : i < 64) : tbl WHITE (sq (flip_rank i)) = tbl BLACK (sq i) := by
  have := h (flip_rank i) (flip_rank_lt hi)
  rw [flip_rank_flip_rank hi] at this
  exact this.symm

theorem lt64_white_squares (position : Position) (hwf : position.wf) :
    white_squares position < 2 ^ 64 :=
  lt64_or (lt64_or (lt64_or (lt64_or (lt64_or (hwf _ _) (hwf _ _)) (hwf _ _)) (hwf _ _))
    (hwf _ _)) (hwf _ _)

theorem lt64_black_squares (position : Position) (hwf : position.wf) :
    black_squares position < 2 ^ 64 :=
  lt64_or (lt64_or (lt64_or (lt64_or (lt64_or (hwf _ _) (hwf _ _)) (hwf _ _)) (hwf _ _))
    (hwf _ _)) (hwf _ _)

theorem lt64_occupied_squares (position : Position) (hwf : position.wf) :
    occupied_squares position < 2 ^ 64 :=
  lt64_or (lt64_black_squares position hwf) (lt64_white_squares position hwf)

theorem white_pawn_sum_swap (env : EvalParams) (t : Tables) (position : Position)
    (hs : ColorSymmetric env t) :
    white_pawn_sum t (swap_sides position) = black_pawn_sum t position := by
  unfold white_pawn_sum black_pawn_sum
  rw [swap_sides_white, total_material_swap]
  apply sum_squares_flip_vertical
  intro i hi
  rw [white_of_black _ hs.pawn_endgame i hi, white_of_black _ hs.pawn i hi]

theorem white_bishop_sum_swap (env : EvalParams) (t : Tables) (position : Position)
    (hwf : position.wf) (hs : ColorSymmetric env t) :
    white_bishop_sum env t (swap_sides position) = black_bishop_sum env t position := by
  unfold white_bishop_sum black_bishop_sum
  rw [swap_sides_white, occupied_squares_swap, white_squares_swap]
  apply sum_squares_flip_vertical
  intro i hi
  rw [white_of_black _ hs.bishop i hi, hs.bishop_attacks _ i (lt64_occupied_squares position hwf) hi,
    flip_vertical_not64, flip_vertical_and, pop_count_flip_vertical]

theorem white_knight_sum_swap (env : EvalParams) (t : Tables) (position : Position)
    (hs : ColorSymmetric env t) :
    white_knight_sum t (swap_sides position) = black_knight_sum t position := by
  unfold white_knight_sum black_knight_sum
  rw [swap_sides_white]
  apply sum_squares_flip_vertical
  intro i hi
  rw [white_of_black _ hs.knight i hi]

theorem white_rook_sum_swap (env : EvalParams) (t : Tables) (position : Position)
    (hwf : position.wf) (hs : ColorSymmetric env t) :
    white_rook_sum env t (swap_sides position) = black_rook_sum env t position := by
  unfold white_rook_sum black_rook_sum
  rw [swap_sides_white, occupied_squares_swap, white_squares_swap]
  apply sum_squares_flip_vertical
  intro i hi
  rw [white_of_black _ hs.rook i hi, hs.rook_attacks _ i (lt64_occupied_squares position hwf) hi,
    flip_vertical_not64, flip_vertical_and, pop_count_flip_vertical]

theorem white_queen_sum_swap (env : EvalParams) (t : Tables) (position : Position)
    (hs : ColorSymmetric env t) :
    white_queen_sum t (swap_sides position) = black_queen_sum t position := by
  unfold white_queen_sum black_queen_sum
  rw [swap_sides_white]
  apply sum_squares_flip_vertical
  intro i hi
  rw [white_of_black _ hs.queen i hi]

theorem white_proximity_sum_swap (env : EvalParams) (t : Tables) (position : Position)
    (hs : ColorSymmetric env t) (k : Nat) (hk : k < 64) :
    white_proximity_sum env t (swap_sides position) (flip_rank k)
      = black_proximity_sum env t position k := by
  unfold white_proximity_sum black_proximity_sum
  simp only [swap_sides_white]
  rw [sum_squares_flip_vertical (position.p BLACK BISHOP) _
      (fun i => t.square_proximity (sq k) (sq i) * env.BISHOP_KING_PROXIMITY_BONUS)
      (fun i hi => by rw [hs.proximity k i hk hi]),
    sum_squares_flip_vertical (position.p BLACK KNIGHT) _
      (fun i => t.square_proximity (sq k) (sq i) * env.KNIGHT_KING_PROXIMITY_BONUS)
      (fun i hi => by rw [hs.proximity k i hk hi]),
    sum_squares_flip_vertical (position.p BLACK ROOK) _
      (fun i => t.square_proximity (sq k) (sq i) * env.ROOK_KING_PROXIMITY_BONUS)
      (fun i hi => by rw [hs.proximity k i hk hi]),
    sum_squares_flip_vertical (position.p BLACK QUEEN) _
      (fun i => t.square_proximity (sq k) (sq i) * env.QUEEN_KING_PROXIMITY_BONUS)
      (fun i hi => by rw [hs.proximity k i hk hi])]

theorem black_pawn_sum_swap (env : EvalParams) (t : Tables) (position : Position)
    (hs : ColorSymmetric env t) :
    black_pawn_sum t (swap_sides position) = white_pawn_sum t position := by
  unfold black_pawn_sum white_pawn_sum
  rw [swap_sides_black, total_material_swap]
  apply sum_squares_flip_vertical
  intro i hi
  rw [hs.pawn_endgame i hi, hs.pawn i hi]

theorem black_bishop_sum_swap (env : EvalParams) (t : Tables) (position : Position)
    (hwf : position.wf) (hs : ColorSymmetric env t) :
    black_bishop_sum env t (swap_sides position) = white_bishop_sum env t position := by
  unfold black_bishop_sum white_bishop_sum
  rw [swap_sides_black, occupied_squares_swap, black_squares_swap]
  apply sum_squares_flip_vertical
  intro i hi
  rw [hs.bishop i hi, hs.bishop_attacks _ i (lt64_occupied_squares position hwf) hi,
    flip_vertical_not64, flip_vertical_and, pop_count_flip_vertical]

theorem black_knight_sum_swap (env : EvalParams) (t : Tables) (position : Position)
    (hs : ColorSymmetric env t) :
    black_knight_sum t (swap_sides position) = white_knight_sum t position := by
  unfold black_knight_sum white_knight_sum
  rw [swap_sides_black]
  apply sum_squares_flip_vertical
  intro i hi
  rw [hs.knight i hi]

theorem black_rook_sum_swap (env : EvalParams) (t : Tables) (position : Position)
    (hwf : position.wf) (hs : ColorSymmetric env t) :
    black_rook_sum env t (swap_sides position) = white_rook_sum env t position := by
  unfold black_rook_sum white_rook_sum
  rw [swap_sides_black, occupied_squares_swap, black_squares_swap]
  apply sum_squares_flip_vertical
  intro i hi
  rw [hs.rook i hi, hs.rook_attacks _ i (lt64_occupied_squares position hwf) hi,
    flip_vertical_not64, flip_vertical_and, pop_count_flip_vertical]

theorem black_queen_sum_swap (env : EvalParams) (t : Tables) (position : Position)
    (hs : ColorSymmetric env t) :
    black_queen_sum t (swap_sides position) = white_queen_sum t position := by
  unfold black_queen_sum white_queen_sum
  rw [swap_sides_black]
  apply sum_squares_flip_vertical
  intro i hi
  rw [hs.queen i hi]

theorem black_proximity_sum_swap (env : EvalParams) (t : Tables) (position : Position)
    (hs : ColorSymmetric env t) (k : Nat) (hk : k < 64) :
    black_proximity_sum env t (swap_sides position) (flip_rank k)
      = white_proximity_sum env t position k := by
  unfold black_proximity_sum white_proximity_sum
  simp only [swap_sides_black]
  rw [sum_squares_flip_vertical (position.p WHITE BISHOP) _
      (fun i => t.square_proximity (sq k) (sq i) * env.BISHOP_KING_PROXIMITY_BONUS)
      (fun i hi => by rw [hs.proximity k i hk hi]),
    sum_squares_flip_vertical (position.p WHITE KNIGHT) _
      (fun i => t.square_proximity (sq k) (sq i) * env.KNIGHT_KING_PROXIMITY_BONUS)
      (fun i hi => by rw [hs.proximity k i hk hi]),
    sum_squares_flip_vertical (position.p WHITE ROOK) _
      (fun i => t.square_proximity (sq k) (sq i) * env.ROOK_KING_PROXIMITY_BONUS)
      (fun i hi => by rw [hs.proximity k i hk hi]),
    sum_squares_flip_vertical (position.p WHITE QUEEN) _
      (fun i => t.square_proximity (sq k) (sq i) * env.QUEEN_KING_PROXIMITY_BONUS)
      (fun i hi => by rw [hs.proximity k i hk hi])]

theorem white_total_swap (env : EvalParams) (t : Tables) (position : Position)
    (hwf : position.wf) (hs : ColorSymmetric env t) (w k : Nat) (hw : w < 64) (hk : k < 64)
    (hmask : pawn_mask (flip_rank k) = flip_vertical (black_pawn_mask k)) :
    white_total env t (swap_sides position) (flip_rank k) (flip_rank w)
      = black_total env t position w k := by
  unfold white_total black_total
  rw [white_passed_pawns_swap, white_doubled_pawns_swap position hwf,
    white_isolated_pawns_swap position hwf, white_backward_pawns_swap position hwf,
    white_pawn_sum_swap env t position hs, white_bishop_sum_swap env t position hwf hs,
    white_knight_sum_swap env t position hs, white_rook_sum_swap env t position hwf hs,
    white_queen_sum_swap env t position hs, white_proximity_sum_swap env t position hs w hw,
    king_safety_penalty_swap env position hwf k hmask, white_piece_material_swap,
    total_material_swap, open_files_swap position hwf, white_semi_open_files_swap position hwf,
    white_of_black _ hs.king_endgame k hk, hs.king k hk]
  simp only [swap_sides_white, pop_count_flip_vertical, flip_vertical_or, flip_vertical_and]

theorem black_total_swap (env : EvalParams) (t : Tables) (position : Position)
    (hwf : position.wf) (hs : ColorSymmetric env t) (w k : Nat) (hw : w < 64) (hk : k < 64)
    (hmask : black_pawn_mask (flip_rank w) = flip_vertical (pawn_mask w)) :
    black_total env t (swap_sides position) (flip_rank k) (flip_rank w)
      = white_total env t position w k := by
  unfold white_total black_total
  rw [black_passed_pawns_swap position hwf, black_doubled_pawns_swap,
    black_isolated_pawns_swap, black_backward_pawns_swap position hwf,
    black_pawn_sum_swap env t position hs, black_bishop_sum_swap env t position hwf hs,
    black_knight_sum_swap env t position hs, black_rook_sum_swap env t position hwf hs,
    black_queen_sum_swap env t position hs, black_proximity_sum_swap env t position hs k hk,
    black_king_safety_penalty_swap env position hwf w hmask, black_piece_material_swap,
    total_material_swap, open_files_swap position hwf, black_semi_open_files_swap position hwf,
    hs.king_endgame w hw, hs.king w hw]
  simp only [swap_sides_black, pop_count_flip_vertical, flip_vertical_or, flip_vertical_and]

/-! ### The tables of `init_eval` are colour-symmetric -/

theorem sq_val {i : Nat} (hi : i < 64) : (sq i).val = i := Nat.mod_eq_of_lt hi

theorem calculate_square_value_rank_symmetric {K : Type} [LinearOrderedField K] [FloorRing K]
    (sigmoid : K → K → K) (a b c d e : Int) (i : Nat) (hi : i < 64) :
    calculate_square_value sigmoid a b c d e BLACK ((flip_rank i : Nat) : Int)
      = calculate_square_value sigmoid a b c d e WHITE (i : Int) := by
  unfold calculate_square_value
  have h1 : (7 : Int) - (((flip_rank i : Nat) : Int)).tdiv 8 = ((i : Nat) : Int).tdiv 8 := by
    rw [Int.tdiv_eq_ediv (by omega) (by decide), Int.tdiv_eq_ediv (by omega) (by decide)]
    unfold flip_rank
    omega
  have h2 : (((flip_rank i : Nat) : Int)).tmod 8 = ((i : Nat) : Int).tmod 8 := by
    rw [Int.tmod_eq_emod (by omega) (by decide), Int.tmod_eq_emod (by omega) (by decide)]
    unfold flip_rank
    omega
  simp only [if_true, if_false, reduceCtorEq, h1, h2]

theorem proximity_value_flip_rank (i j : Nat) (hi : i < 64) (hj : j < 64) :
    proximity_value (sq (flip_rank i)) (sq (flip_rank j)) = proximity_value (sq i) (sq j) := by
  unfold proximity_value
  simp only [sq_val hi, sq_val hj, sq_val (flip_rank_lt hi), sq_val (flip_rank_lt hj)]
  have h1 : flip_rank i % 8 = i % 8 := by unfold flip_rank; omega
  have h2 : flip_rank j % 8 = j % 8 := by unfold flip_rank; omega
  have h3 : flip_rank i / 8 = 7 - i / 8 := by unfold flip_rank; omega
  have h4 : flip_rank j / 8 = 7 - j / 8 := by unfold flip_rank; omega
  rw [h1, h2, h3, h4]
  have h5 : |(((7 - i / 8 : Nat) : Int)) - ((7 - j / 8 : Nat) : Int)|
      = |((i / 8 : Nat) : Int) - ((j / 8 : Nat) : Int)| := by
    rw [abs_sub_comm]
    congr 1
    omega
  rw [h5]

theorem rev_sq_flip_rank {i : Nat} (hi : i < 64) : Fin.rev (sq (flip_rank i)) = sq (flip_file i) := by
  apply Fin.ext
  have h1 := flip_rank_lt hi
  have h2 : flip_file i < 64 := by unfold flip_file; omega
  rw [Fin.val_rev, sq_val h1, sq_val h2]
  unfold flip_rank flip_file
  omega

/-- After `init_eval` the tables are colour-symmetric as soon as the hand-supplied king table is
symmetric under the rank mirror, the hand-supplied rook table is symmetric under the file mirror
and the attack generators commute with the rank mirror. -/
theorem colorSymmetric_init_eval {K : Type} [LinearOrderedField K] [FloorRing K]
    (sigmoid : K → K → K) (env : EvalParams) (t : Tables)
    (hking : ∀ i, i < 64 →
      env.KING_SQUARE_TABLE (sq (flip_rank i)) = env.KING_SQUARE_TABLE (sq i))
    (hrook : ∀ i, i < 64 →
      env.ROOK_SQUARE_TABLE (sq (flip_file i)) = env.ROOK_SQUARE_TABLE (sq i))
    (hba : ∀ occ i, occ < 2 ^ 64 → i < 64 →
      env.bishop_attacks (flip_vertical occ) (flip_rank i)
        = flip_vertical (env.bishop_attacks occ i))
    (hra : ∀ occ i, occ < 2 ^ 64 → i < 64 →
      env.rook_attacks (flip_vertical occ) (flip_rank i)
        = flip_vertical (env.rook_attacks occ i)) :
    ColorSymmetric env (init_eval sigmoid env t) where
  pawn := fun i hi => by
    rw [init_eval_pawn_square_table]
    simp only [sq_val hi, sq_val (flip_rank_lt hi)]
    exact calculate_square_value_rank_symmetric sigmoid _ _ _ _ _ i hi
  pawn_endgame := fun i hi => by
    rw [init_eval_pawn_square_table_endgame]
    simp only [sq_val hi, sq_val (flip_rank_lt hi)]
    exact calculate_square_value_rank_symmetric sigmoid _ _ _ _ _ i hi
  knight := fun i hi => by
    rw [init_eval_knight_square_table]
    simp only [sq_val hi, sq_val (flip_rank_lt hi)]
    exact calculate_square_value_rank_symmetric sigmoid _ _ _ _ _ i hi
  bishop := fun i hi => by
    rw [init_eval_bishop_square_table]
    simp only [sq_val hi, sq_val (flip_rank_lt hi)]
    exact calculate_square_value_rank_symmetric sigmoid _ _ _ _ _ i hi
  rook := fun i hi => by
    rw [init_eval_rook_square_table, init_eval_rook_square_table]
    simp only [rev_sq_flip_rank hi]
    exact hrook i hi
  queen := fun i hi => by
    rw [init_eval_queen_square_table]
    simp only [sq_val hi, sq_val (flip_rank_lt hi)]
    exact calculate_square_value_rank_symmetric sigmoid _ _ _ _ _ i hi
  king_endgame := fun i hi => by
    rw [init_eval_king_square_table_endgame]
    simp only [sq_val hi, sq_val (flip_rank_lt hi)]
    exact calculate_square_value_rank_symmetric sigmoid _ _ _ _ _ i hi
  king := hking
  proximity := fun i j hi hj => by
    rw [init_eval_square_proximity]
    exact proximity_value_flip_rank i j hi hj
  bishop_attacks := hba
  rook_attacks := hra

theorem flip_vertical_flip_vertical (x : Nat) (hx : x < 2 ^ 64) :
    flip_vertical (flip_vertical x) = x := by
  apply Nat.eq_of_testBit_eq
  intro i
  simp only [testBit_flip_vertical]
  by_cases hi : i < 64
  · simp [hi, flip_rank_lt hi, flip_rank_flip_rank hi]
  · simp [hi, testBit_of_lt64 hx (show 64 ≤ i by omega)]

theorem flip_vertical_zero : flip_vertical 0 = 0 := by decide

theorem flip_vertical_eq_zero (x : Nat) (hx : x < 2 ^ 64) : flip_vertical x = 0 ↔ x = 0 := by
  constructor
  · intro h
    rw [← flip_vertical_flip_vertical x hx, h, flip_vertical_zero]
  · rintro rfl
    exact flip_vertical_zero

theorem flip_vertical_two_pow {k : Nat} (hk : k < 64) :
    flip_vertical (2 ^ k) = 2 ^ flip_rank k :=
  permute_bits_two_pow _ flip_rank_invol hk

theorem swap_sides_wf (position : Position) : (swap_sides position).wf :=
  fun _ _ => flip_vertical_lt _

/-- Colour symmetry of `evaluate` for tables and generators that treat the two sides alike. -/
theorem evaluate_swap_sides (env : EvalParams) (t : Tables) (hs : ColorSymmetric env t)
    (position : Position) (w k : Nat) (hwf : position.wf)
    (hwk : position.p WHITE KING = 2 ^ w) (hbk : position.p BLACK KING = 2 ^ k)
    (hw : w ≤ 55 ∧ w ≠ 8 ∧ w ≠ 15 ∧ w ≠ 48) (hk : 9 ≤ k ∧ k < 64 ∧ k ≠ 48 ∧ k ≠ 55) :
    ∃ v : Int, evaluate env t position = some v
      ∧ evaluate env t (swap_sides position) = some (-v) := by
  obtain ⟨hw1, hw2, hw3, hw4⟩ := hw
  obtain ⟨hk1, hk2, hk3, hk4⟩ := hk
  have hw64 : w < 64 := by omega
  have hwk0 : position.p WHITE KING ≠ 0 := by
    rw [hwk]; exact Nat.pos_iff_ne_zero.mp (Nat.two_pow_pos _)
  have hbk0 : position.p BLACK KING ≠ 0 := by
    rw [hbk]; exact Nat.pos_iff_ne_zero.mp (Nat.two_pow_pos _)
  have hwk' : (swap_sides position).p WHITE KING = 2 ^ flip_rank k := by
    rw [swap_sides_white, hbk, flip_vertical_two_pow hk2]
  have hbk' : (swap_sides position).p BLACK KING = 2 ^ flip_rank w := by
    rw [swap_sides_black, hwk, flip_vertical_two_pow hw64]
  have hwk0' : (swap_sides position).p WHITE KING ≠ 0 := by
    rw [hwk']; exact Nat.pos_iff_ne_zero.mp (Nat.two_pow_pos _)
  have hbk0' : (swap_sides position).p BLACK KING ≠ 0 := by
    rw [hbk']; exact Nat.pos_iff_ne_zero.mp (Nat.two_pow_pos _)
  have hpawns : ((swap_sides position).p WHITE PAWN ||| (swap_sides position).p BLACK PAWN) = 0
      ↔ (position.p WHITE PAWN ||| position.p BLACK PAWN) = 0 := by
    rw [swap_sides_white, swap_sides_black, flip_vertical_or,
      flip_vertical_eq_zero _ (lt64_or (hwf _ _) (hwf _ _)), Nat.lor_comm]
  by_cases hdraw : total_material position ≤ 300
      ∧ (position.p WHITE PAWN ||| position.p BLACK PAWN) = 0
  · refine ⟨0, ?_, ?_⟩
    · unfold evaluate
      simp only []
      rw [if_neg hbk0, if_neg hwk0, if_pos hdraw]
    · unfold evaluate
      simp only []
      rw [if_neg hbk0', if_neg hwk0', if_pos (by rw [total_material_swap, hpawns]; exact hdraw)]
      rfl
  · have hdraw' : ¬ (total_material (swap_sides position) ≤ 300
        ∧ ((swap_sides position).p WHITE PAWN ||| (swap_sides position).p BLACK PAWN) = 0) := by
      rw [total_material_swap, hpawns]
      exact hdraw
    have e1 := evaluate_eq env t position hwf hbk0 hwk0 hdraw
      (by rw [hwk, lsb_to_square_two_pow hw64]; omega)
      (by rw [hbk, lsb_to_square_two_pow hk2]; exact hk1)
    have e2 := evaluate_eq env t (swap_sides position) (swap_sides_wf position) hbk0' hwk0' hdraw'
      (by rw [hwk', lsb_to_square_two_pow (flip_rank_lt hk2)]; unfold flip_rank; omega)
      (by rw [hbk', lsb_to_square_two_pow (flip_rank_lt hw64)]; unfold flip_rank; omega)
    rw [hwk, hbk, lsb_to_square_two_pow hw64, lsb_to_square_two_pow hk2] at e1
    rw [hwk', hbk', lsb_to_square_two_pow (flip_rank_lt hk2),
      lsb_to_square_two_pow (flip_rank_lt hw64),
      white_total_swap env t position hwf hs w k hw64 hk2
        (pawn_mask_flip_rank k hk2 hk1 hk3 hk4),
      black_total_swap env t position hwf hs w k hw64 hk2
        (black_pawn_mask_flip_rank w hw64 hw1 hw2 hw3 hw4)] at e2
    refine ⟨_, e1, ?_⟩
    rw [e2, neg_sub]


theorem wf_of_wfb (position : Position) (h : position.wfb = true) : position.wf := by
  intro s k
  simp only [Position.wfb, List.all_cons, List.all_nil, Bool.and_true, Bool.and_eq_true,
    decide_eq_true_eq] at h
  obtain ⟨⟨h1, h2, h3, h4, h5, h6⟩, h7, h8, h9, h10, h11, h12⟩ := h
  cases s <;> cases k <;> assumption

/-! ### Claim C4: colour symmetry -/

/-- Counterexample to C4: on the board with a white queen, a black queen and no king, `evaluate`
returns 10000, and on the board with the sides swapped it returns 10000 again, so the negated
score of the swapped board is -10000 and not the original score. -/
theorem evaluate_color_symmetry_counterexample :
    evaluate (sample_params 7 (fun _ => 0) (fun _ => 0))
        (init_eval rational_sigmoid (sample_params 7 (fun _ => 0) (fun _ => 0)) zero_tables)
        queens_without_kings = some 10000
      ∧ (evaluate (sample_params 7 (fun _ => 0) (fun _ => 0))
        (init_eval rational_sigmoid (sample_params 7 (fun _ => 0) (fun _ => 0)) zero_tables)
        (swap_sides queens_without_kings)).map (fun v => -v) = some (-10000) := by
  have h1 : queens_without_kings.p BLACK KING = 0 := rfl
  have h2 : (swap_sides queens_without_kings).p BLACK KING = 0 := by
    rw [swap_sides_black]
    exact flip_vertical_zero
  constructor
  · unfold evaluate
    simp only []
    rw [if_pos h1]
  · unfold evaluate
    simp only []
    rw [if_pos h2]
    rfl

/-- C4 (amended): colour symmetry away from the sentinel and the king-safety shifts.  With the
tables as built by `init_eval`, a hand-supplied king table that is symmetric under the rank
mirror, a hand-supplied rook table that is symmetric under the file mirror and attack
generators that commute with the rank mirror, for every board of 64-bit bitboards:
if exactly one king bitboard is empty the scores of the board and of the swapped board are
10000 and -10000; and if each side has exactly one king, the white king on a square `w <= 55`
other than 8, 15 and 48 and the black king on a square `k >= 9` other than 48 and 55, then
`evaluate` is defined on both boards and the score of the swapped board is the negated score
of the board. -/
theorem evaluate_color_symmetric {K : Type} [LinearOrderedField K] [FloorRing K]
    (sigmoid : K → K → K) (env : EvalParams) (t : Tables) (position : Position)
    (hwf : position.wf)
    (hking : ∀ i, i < 64 →
      env.KING_SQUARE_TABLE (sq (flip_rank i)) = env.KING_SQUARE_TABLE (sq i))
    (hrook : ∀ i, i < 64 →
      env.ROOK_SQUARE_TABLE (sq (flip_file i)) = env.ROOK_SQUARE_TABLE (sq i))
    (hba : ∀ occ i, occ < 2 ^ 64 → i < 64 →
      env.bishop_attacks (flip_vertical occ) (flip_rank i)
        = flip_vertical (env.bishop_attacks occ i))
    (hra : ∀ occ i, occ < 2 ^ 64 → i < 64 →
      env.rook_attacks (flip_vertical occ) (flip_rank i)
        = flip_vertical (env.rook_attacks occ i)) :
    (position.p WHITE KING = 0 → position.p BLACK KING ≠ 0 →
        evaluate env (init_eval sigmoid env t) position = some (-10000)
          ∧ evaluate env (init_eval sigmoid env t) (swap_sides position) = some 10000)
      ∧ (position.p BLACK KING = 0 → position.p WHITE KING ≠ 0 →
        evaluate env (init_eval sigmoid env t) position = some 10000
          ∧ evaluate env (init_eval sigmoid env t) (swap_sides position) = some (-10000))
      ∧ (∀ w k : Nat, position.p WHITE KING = 2 ^ w → position.p BLACK KING = 2 ^ k →
        (w ≤ 55 ∧ w ≠ 8 ∧ w ≠ 15 ∧ w ≠ 48) → (9 ≤ k ∧ k < 64 ∧ k ≠ 48 ∧ k ≠ 55) →
        ∃ v : Int, evaluate env (init_eval sigmoid env t) position = some v
          ∧ evaluate env (init_eval sigmoid env t) (swap_sides position) = some (-v)) := by
  refine ⟨?_, ?_, ?_⟩
  · intro hw hb
    have hb' : (swap_sides position).p BLACK KING = 0 := by
      rw [swap_sides_black, hw, flip_vertical_zero]
    constructor
    · unfold evaluate
      simp only []
      rw [if_neg hb, if_pos hw]
    · unfold evaluate
      simp only []
      rw [if_pos hb']
  · intro hb hw
    have hw' : (swap_sides position).p WHITE KING = 0 := by
      rw [swap_sides_white, hb, flip_vertical_zero]
    have hb' : (swap_sides position).p BLACK KING ≠ 0 := by
      rw [swap_sides_black]
      intro h
      exact hw ((flip_vertical_eq_zero _ (hwf _ _)).mp h)
    constructor
    · unfold evaluate
      simp only []
      rw [if_pos hb]
    · unfold evaluate
      simp only []
      rw [if_neg hb', if_pos hw']
  · intro w k hwk hbk hw hk
    exact evaluate_swap_sides env (init_eval sigmoid env t)
      (colorSymmetric_init_eval sigmoid env t hking hrook hba hra) position w k hwf hwk hbk hw hk

/-- Witness of C4 (amended): a board without a white king, a board without a black king, and
the initial position with constant hand-supplied tables and empty attack sets. -/
theorem evaluate_color_symmetric_witness :
    (evaluate (sample_params 7 (fun _ => 0) (fun _ => 0))
          (init_eval rational_sigmoid (sample_params 7 (fun _ => 0) (fun _ => 0)) zero_tables)
          (mkPosition 0 0 0 0 8 0 0 0 0 0 0 (2 ^ 60)) = some (-10000)
        ∧ evaluate (sample_params 7 (fun _ => 0) (fun _ => 0))
          (init_eval rational_sigmoid (sample_params 7 (fun _ => 0) (fun _ => 0)) zero_tables)
          (swap_sides (mkPosition 0 0 0 0 8 0 0 0 0 0 0 (2 ^ 60))) = some 10000)
      ∧ (evaluate (sample_params 7 (fun _ => 0) (fun _ => 0))
          (init_eval rational_sigmoid (sample_params 7 (fun _ => 0) (fun _ => 0)) zero_tables)
          (mkPosition 0 0 0 0 8 16 0 0 0 0 0 0) = some 10000
        ∧ evaluate (sample_params 7 (fun _ => 0) (fun _ => 0))
          (init_eval rational_sigmoid (sample_params 7 (fun _ => 0) (fun _ => 0)) zero_tables)
          (swap_sides (mkPosition 0 0 0 0 8 16 0 0 0 0 0 0)) = some (-10000))
      ∧ ∃ v : Int,
        evaluate (sample_params 7 (fun _ => 0) (fun _ => 0))
          (init_eval rational_sigmoid (sample_params 7 (fun _ => 0) (fun _ => 0)) zero_tables)
          start_position = some v
        ∧ evaluate (sample_params 7 (fun _ => 0) (fun _ => 0))
          (init_eval rational_sigmoid (sample_params 7 (fun _ => 0) (fun _ => 0)) zero_tables)
          (swap_sides start_position) = some (-v) :=
  ⟨(evaluate_color_symmetric rational_sigmoid (sample_params 7 (fun _ => 0) (fun _ => 0))
        zero_tables (mkPosition 0 0 0 0 8 0 0 0 0 0 0 (2 ^ 60)) (wf_of_wfb _ (by decide))
        (fun _ _ => rfl) (fun _ _ => rfl) (fun _ _ _ _ => flip_vertical_zero.symm)
        (fun _ _ _ _ => flip_vertical_zero.symm)).1 rfl (by decide),
    (evaluate_color_symmetric rational_sigmoid (sample_params 7 (fun _ => 0) (fun _ => 0))
        zero_tables (mkPosition 0 0 0 0 8 16 0 0 0 0 0 0) (wf_of_wfb _ (by decide))
        (fun _ _ => rfl) (fun _ _ => rfl) (fun _ _ _ _ => flip_vertical_zero.symm)
        (fun _ _ _ _ => flip_vertical_zero.symm)).2.1 rfl (by decide),
    (evaluate_color_symmetric rational_sigmoid (sample_params 7 (fun _ => 0) (fun _ => 0))
        zero_tables start_position (wf_of_wfb _ (by decide))
        (fun _ _ => rfl) (fun _ _ => rfl) (fun _ _ _ _ => flip_vertical_zero.symm)
        (fun _ _ _ _ => flip_vertical_zero.symm)).2.2 4 60 rfl rfl (by decide) (by decide)⟩


/-! ### File mirror: shifts, fills and pawn attacks -/

theorem flip_file_lt {i : Nat} (hi : i < 64) : flip_file i < 64 := (flip_file_invol i hi).1

theorem flip_file_flip_file {i : Nat} (hi : i < 64) : flip_file (flip_file i) = i :=
  (flip_file_invol i hi).2

theorem mirror_horizontal_lt (x : Nat) : mirror_horizontal x < 2 ^ 64 := permute_bits_lt _ _

theorem mirror_horizontal_or (x y : Nat) :
    mirror_horizontal x ||| mirror_horizontal y = mirror_horizontal (x ||| y) :=
  permute_bits_or _ _ _

theorem mirror_horizontal_and (x y : Nat) :
    mirror_horizontal x &&& mirror_horizontal y = mirror_horizontal (x &&& y) :=
  permute_bits_and _ _ _

theorem mirror_horizontal_not64 (x : Nat) :
    not64 (mirror_horizontal x) = mirror_horizontal (not64 x) :=
  permute_bits_not64 _ flip_file_invol _

theorem pop_count_mirror_horizontal (x : Nat) :
    pop_count (mirror_horizontal x) = pop_count x :=
  pop_count_permute_bits _ flip_file_invol _

theorem mirror_horizontal_zero : mirror_horizontal 0 = 0 := by decide

theorem mirror_horizontal_mirror_horizontal (x : Nat) (hx : x < 2 ^ 64) :
    mirror_horizontal (mirror_horizontal x) = x := by
  apply Nat.eq_of_testBit_eq
  intro i
  simp only [testBit_mirror_horizontal]
  by_cases hi : i < 64
  · simp [hi, flip_file_lt hi, flip_file_flip_file hi]
  · simp [hi, testBit_of_lt64 hx (show 64 ≤ i by omega)]

theorem mirror_horizontal_eq_zero (x : Nat) (hx : x < 2 ^ 64) :
    mirror_horizontal x = 0 ↔ x = 0 := by
  constructor
  · intro h
    rw [← mirror_horizontal_mirror_horizontal x hx, h, mirror_horizontal_zero]
  · rintro rfl
    exact mirror_horizontal_zero

theorem mirror_horizontal_two_pow {k : Nat} (hk : k < 64) :
    mirror_horizontal (2 ^ k) = 2 ^ flip_file k :=
  permute_bits_two_pow _ flip_file_invol hk

theorem shl64_mirror_horizontal (x n : Nat) (hn : n = 8 ∨ n = 16 ∨ n = 32) :
    shl64 (mirror_horizontal x) n = mirror_horizontal (shl64 x n) := by
  apply Nat.eq_of_testBit_eq
  intro i
  simp only [testBit_mirror_horizontal, testBit_shl64]
  by_cases hi : i < 64
  · rcases hn with rfl | rfl | rfl <;> interval_cases i <;> simp [flip_file]
  · simp [hi]

theorem shr_mirror_horizontal (x n : Nat) (hx : x < 2 ^ 64) (hn : n = 8 ∨ n = 16 ∨ n = 32) :
    mirror_horizontal x >>> n = mirror_horizontal (x >>> n) := by
  apply Nat.eq_of_testBit_eq
  intro i
  simp only [testBit_mirror_horizontal, Nat.testBit_shiftRight]
  by_cases hi : i < 64
  · rcases hn with rfl | rfl | rfl <;> interval_cases i <;>
      simp [flip_file, testBit_of_lt64 hx]
  · have : ¬ n + i < 64 := by omega
    simp [hi, this]

theorem north_fill_mirror_horizontal (x : Nat) :
    north_fill (mirror_horizontal x) = mirror_horizontal (north_fill x) := by
  unfold north_fill
  simp only [shl64_mirror_horizontal _ 8 (Or.inl rfl),
    shl64_mirror_horizontal _ 16 (Or.inr (Or.inl rfl)),
    shl64_mirror_horizontal _ 32 (Or.inr (Or.inr rfl)), mirror_horizontal_or]

theorem south_fill_mirror_horizontal (x : Nat) (hx : x < 2 ^ 64) :
    south_fill (mirror_horizontal x) = mirror_horizontal (south_fill x) := by
  unfold south_fill
  have h1 : x ||| x >>> 8 < 2 ^ 64 := lt64_or hx (lt64_shr _ hx)
  have h2 : (x ||| x >>> 8) ||| (x ||| x >>> 8) >>> 16 < 2 ^ 64 := lt64_or h1 (lt64_shr _ h1)
  simp only []
  rw [shr_mirror_horizontal _ 8 hx (Or.inl rfl), mirror_horizontal_or,
    shr_mirror_horizontal _ 16 h1 (Or.inr (Or.inl rfl)), mirror_horizontal_or,
    shr_mirror_horizontal _ 32 h2 (Or.inr (Or.inr rfl)), mirror_horizontal_or]

theorem file_fill_mirror_horizontal (x : Nat) (hx : x < 2 ^ 64) :
    file_fill (mirror_horizontal x) = mirror_horizontal (file_fill x) := by
  unfold file_fill
  rw [north_fill_mirror_horizontal, south_fill_mirror_horizontal _ hx, mirror_horizontal_or]

theorem white_attacks_mirror_horizontal (x : Nat) :
    shl64 (mirror_horizontal x &&& not64 A_FILE) 7
        ||| shl64 (mirror_horizontal x &&& not64 H_FILE) 9
      = mirror_horizontal
          (shl64 (x &&& not64 A_FILE) 7 ||| shl64 (x &&& not64 H_FILE) 9) := by
  apply Nat.eq_of_testBit_eq
  intro i
  simp only [testBit_mirror_horizontal, testBit_shl64, Nat.testBit_or, Nat.testBit_and,
    testBit_not64, testBit_A_FILE, testBit_H_FILE]
  by_cases hi : i < 64
  · interval_cases i <;> simp [flip_file, Bool.or_comm]
  · simp [hi]

theorem black_attacks_mirror_horizontal (x : Nat) (hx : x < 2 ^ 64) :
    ((mirror_horizontal x &&& not64 A_FILE) >>> 9)
        ||| ((mirror_horizontal x &&& not64 H_FILE) >>> 7)
      = mirror_horizontal (((x &&& not64 A_FILE) >>> 9) ||| ((x &&& not64 H_FILE) >>> 7)) := by
  apply Nat.eq_of_testBit_eq
  intro i
  simp only [testBit_mirror_horizontal, Nat.testBit_shiftRight, Nat.testBit_or,
    Nat.testBit_and, testBit_not64, testBit_A_FILE, testBit_H_FILE]
  by_cases hi : i < 64
  · interval_cases i <;> simp [flip_file, testBit_of_lt64 hx, Bool.or_comm]
  · have h1 : ¬ 9 + i < 64 := by omega
    have h2 : ¬ 7 + i < 64 := by omega
    simp [hi, h1, h2]

theorem sum_squares_mirror_horizontal (x : Nat) (f g : Nat → Int)
    (h : ∀ i, i < 64 → f (flip_file i) = g i) :
    ∑ i in squares (mirror_horizontal x), f i = ∑ i in squares x, g i := by
  unfold mirror_horizontal
  rw [sum_squares_permute_bits _ flip_file_invol]
  apply Finset.sum_congr rfl
  intro i hi
  simp only [squares, Finset.mem_filter, Finset.mem_range] at hi
  exact h i hi.1

/-! ### The locals of `evaluate` on the mirrored board -/

theorem mirror_position_p (position : Position) (s : Side) (k : Piece) :
    (mirror_position position).p s k = mirror_horizontal (position.p s k) := rfl

theorem mirror_position_wf (position : Position) : (mirror_position position).wf :=
  fun _ _ => mirror_horizontal_lt _

theorem white_squares_mirror (position : Position) :
    white_squares (mirror_position position) = mirror_horizontal (white_squares position) := by
  simp only [white_squares, mirror_position_p, mirror_horizontal_or]

theorem black_squares_mirror (position : Position) :
    black_squares (mirror_position position) = mirror_horizontal (black_squares position) := by
  simp only [black_squares, mirror_position_p, mirror_horizontal_or]

theorem occupied_squares_mirror (position : Position) :
    occupied_squares (mirror_position position)
      = mirror_horizontal (occupied_squares position) := by
  simp only [occupied_squares, white_squares_mirror, black_squares_mirror, mirror_horizontal_or]

theorem white_piece_material_mirror (position : Position) :
    white_piece_material (mirror_position position) = white_piece_material position := by
  simp only [white_piece_material, mirror_position_p, pop_count_mirror_horizontal]

theorem black_piece_material_mirror (position : Position) :
    black_piece_material (mirror_position position) = black_piece_material position := by
  simp only [black_piece_material, mirror_position_p, pop_count_mirror_horizontal]

theorem total_material_mirror (position : Position) :
    total_material (mirror_position position) = total_material position := by
  simp only [total_material, white_piece_material_mirror, black_piece_material_mirror]

theorem white_pawn_protection_squares_mirror (position : Position) :
    white_pawn_protection_squares (mirror_position position)
      = mirror_horizontal (white_pawn_protection_squares position) := by
  simp only [white_pawn_protection_squares, mirror_position_p]
  exact white_attacks_mirror_horizontal _

theorem black_pawn_protection_squares_mirror (position : Position) (hwf : position.wf) :
    black_pawn_protection_squares (mirror_position position)
      = mirror_horizontal (black_pawn_protection_squares position) := by
  simp only [black_pawn_protection_squares, mirror_position_p]
  exact black_attacks_mirror_horizontal _ (hwf BLACK PAWN)

theorem black_pawn_blocking_squares_mirror (position : Position) (hwf : position.wf) :
    black_pawn_blocking_squares (mirror_position position)
      = mirror_horizontal (black_pawn_blocking_squares position) := by
  simp only [black_pawn_blocking_squares, black_pawn_protection_squares_mirror position hwf,
    mirror_position_p]
  rw [shr_mirror_horizontal _ 8 (hwf BLACK PAWN) (Or.inl rfl), mirror_horizontal_or,
    south_fill_mirror_horizontal _
      (lt64_or (lt64_shr _ (hwf BLACK PAWN)) (lt64_black_pawn_protection_squares position hwf))]

theorem white_pawn_blocking_squares_mirror (position : Position) :
    white_pawn_blocking_squares (mirror_position position)
      = mirror_horizontal (white_pawn_blocking_squares position) := by
  simp only [white_pawn_blocking_squares, white_pawn_protection_squares_mirror,
    mirror_position_p]
  rw [shl64_mirror_horizontal _ 8 (Or.inl rfl), mirror_horizontal_or,
    north_fill_mirror_horizontal]

theorem white_pawn_files_mirror (position : Position) (hwf : position.wf) :
    white_pawn_files (mirror_position position) = mirror_horizontal (white_pawn_files position) := by
  simp only [white_pawn_files, mirror_position_p]
  exact file_fill_mirror_horizontal _ (hwf WHITE PAWN)

theorem black_pawn_files_mirror (position : Position) (hwf : position.wf) :
    black_pawn_files (mirror_position position) = mirror_horizontal (black_pawn_files position) := by
  simp only [black_pawn_files, mirror_position_p]
  exact file_fill_mirror_horizontal _ (hwf BLACK PAWN)

theorem open_files_mirror (position : Position) (hwf : position.wf) :
    open_files (mirror_position position) = mirror_horizontal (open_files position) := by
  simp only [open_files, white_pawn_files_mirror position hwf,
    black_pawn_files_mirror position hwf, mirror_horizontal_or, mirror_horizontal_not64]

theorem white_semi_open_files_mirror (position : Position) (hwf : position.wf) :
    white_semi_open_files (mirror_position position)
      = mirror_horizontal (white_semi_open_files position) := by
  simp only [white_semi_open_files, white_pawn_files_mirror position hwf,
    black_pawn_files_mirror position hwf, mirror_horizontal_and, mirror_horizontal_not64]

theorem black_semi_open_files_mirror (position : Position) (hwf : position.wf) :
    black_semi_open_files (mirror_position position)
      = mirror_horizontal (black_semi_open_files position) := by
  simp only [black_semi_open_files, white_pawn_files_mirror position hwf,
    black_pawn_files_mirror position hwf, mirror_horizontal_and, mirror_horizontal_not64]

theorem white_double_pawn_mask_mirror (position : Position) :
    white_double_pawn_mask (mirror_position position)
      = mirror_horizontal (white_double_pawn_mask position) := by
  simp only [white_double_pawn_mask, mirror_position_p]
  rw [shl64_mirror_horizontal _ 8 (Or.inl rfl), north_fill_mirror_horizontal]

theorem black_double_pawn_mask_mirror (position : Position) (hwf : position.wf) :
    black_double_pawn_mask (mirror_position position)
      = mirror_horizontal (black_double_pawn_mask position) := by
  simp only [black_double_pawn_mask, mirror_position_p]
  rw [shr_mirror_horizontal _ 8 (hwf BLACK PAWN) (Or.inl rfl),
    south_fill_mirror_horizontal _ (lt64_shr _ (hwf BLACK PAWN))]

theorem white_passed_pawns_mirror (position : Position) (hwf : position.wf) :
    white_passed_pawns (mirror_position position)
      = mirror_horizontal (white_passed_pawns position) := by
  simp only [white_passed_pawns, black_pawn_blocking_squares_mirror position hwf,
    mirror_position_p, mirror_horizontal_not64, mirror_horizontal_and]

theorem black_passed_pawns_mirror (position : Position) :
    black_passed_pawns (mirror_position position)
      = mirror_horizontal (black_passed_pawns position) := by
  simp only [black_passed_pawns, white_pawn_blocking_squares_mirror, mirror_position_p,
    mirror_horizontal_not64, mirror_horizontal_and]

theorem white_doubled_pawns_mirror (position : Position) :
    white_doubled_pawns (mirror_position position)
      = mirror_horizontal (white_doubled_pawns position) := by
  simp only [white_doubled_pawns, white_double_pawn_mask_mirror, mirror_position_p,
    mirror_horizontal_and]

theorem black_doubled_pawns_mirror (position : Position) (hwf : position.wf) :
    black_doubled_pawns (mirror_position position)
      = mirror_horizontal (black_doubled_pawns position) := by
  simp only [black_doubled_pawns, black_double_pawn_mask_mirror position hwf,
    mirror_position_p, mirror_horizontal_and]

theorem white_isolated_pawns_mirror (position : Position) :
    white_isolated_pawns (mirror_position position)
      = mirror_horizontal (white_isolated_pawns position) := by
  simp only [white_isolated_pawns, white_pawn_protection_squares_mirror, mirror_position_p]
  rw [file_fill_mirror_horizontal _ (lt64_white_pawn_protection_squares position),
    mirror_horizontal_not64, mirror_horizontal_and]

theorem black_isolated_pawns_mirror (position : Position) (hwf : position.wf) :
    black_isolated_pawns (mirror_position position)
      = mirror_horizontal (black_isolated_pawns position) := by
  simp only [black_isolated_pawns, black_pawn_protection_squares_mirror position hwf,
    mirror_position_p]
  rw [file_fill_mirror_horizontal _ (lt64_black_pawn_protection_squares position hwf),
    mirror_horizontal_not64, mirror_horizontal_and]

theorem black_dominated_stop_squares_mirror (position : Position) (hwf : position.wf) :
    black_dominated_stop_squares (mirror_position position)
      = mirror_horizontal (black_dominated_stop_squares position) := by
  simp only [black_dominated_stop_squares, white_pawn_protection_squares_mirror,
    black_pawn_protection_squares_mirror position hwf]
  rw [north_fill_mirror_horizontal, mirror_horizontal_not64, mirror_horizontal_and]

theorem white_dominated_stop_squares_mirror (position : Position) (hwf : position.wf) :
    white_dominated_stop_squares (mirror_position position)
      = mirror_horizontal (white_dominated_stop_squares position) := by
  simp only [white_dominated_stop_squares, white_pawn_protection_squares_mirror,
    black_pawn_protection_squares_mirror position hwf]
  rw [south_fill_mirror_horizontal _ (lt64_black_pawn_protection_squares position hwf),
    mirror_horizontal_not64, mirror_horizontal_and]

theorem white_backward_pawns_mirror (position : Position) (hwf : position.wf) :
    white_backward_pawns (mirror_position position)
      = mirror_horizontal (white_backward_pawns position) := by
  simp only [white_backward_pawns, black_dominated_stop_squares_mirror position hwf,
    mirror_position_p]
  have hb : black_dominated_stop_squares position < 2 ^ 64 :=
    lt64_and_right _ (lt64_black_pawn_protection_squares position hwf)
  rw [south_fill_mirror_horizontal _ hb, mirror_horizontal_and]

theorem black_backward_pawns_mirror (position : Position) (hwf : position.wf) :
    black_backward_pawns (mirror_position position)
      = mirror_horizontal (black_backward_pawns position) := by
  simp only [black_backward_pawns, white_dominated_stop_squares_mirror position hwf,
    mirror_position_p]
  rw [north_fill_mirror_horizontal, mirror_horizontal_and]

/-! ### King safety, piece sums and totals on the mirrored board -/

theorem pawn_mask_flip_file :
    ∀ w, w < 64 → w ≤ 55 → w ≠ 8 → w ≠ 15 →
      pawn_mask (flip_file w) = mirror_horizontal (pawn_mask w) := by
  decide

theorem black_pawn_mask_flip_file :
    ∀ k, k < 64 → 9 ≤ k → k ≠ 15 → k ≠ 48 → k ≠ 55 →
      black_pawn_mask (flip_file k) = mirror_horizontal (black_pawn_mask k) := by
  decide

theorem king_safety_penalty_mirror (env : EvalParams) (position : Position) (hwf : position.wf)
    (w : Nat) (hmask : pawn_mask (flip_file w) = mirror_horizontal (pawn_mask w)) :
    king_safety_penalty env (mirror_position position) (flip_file w)
      = king_safety_penalty env position w := by
  unfold king_safety_penalty
  simp only [hmask, open_files_mirror position hwf, mirror_position_p, mirror_horizontal_not64,
    mirror_horizontal_and, pop_count_mirror_horizontal, black_piece_material_mirror]
  rw [shl64_mirror_horizontal _ 8 (Or.inl rfl), mirror_horizontal_and,
    pop_count_mirror_horizontal]

theorem black_king_safety_penalty_mirror (env : EvalParams) (position : Position)
    (hwf : position.wf) (k : Nat)
    (hmask : black_pawn_mask (flip_file k) = mirror_horizontal (black_pawn_mask k)) :
    black_king_safety_penalty env (mirror_position position) (flip_file k)
      = black_king_safety_penalty env position k := by
  unfold black_king_safety_penalty
  simp only [hmask, open_files_mirror position hwf, mirror_position_p, mirror_horizontal_not64,
    mirror_horizontal_and, pop_count_mirror_horizontal, white_piece_material_mirror]
  rw [shr_mirror_horizontal _ 8 (lt64_and_right _ (lt64_black_pawn_mask k)) (Or.inl rfl),
    mirror_horizontal_and, pop_count_mirror_horizontal]

theorem white_pawn_sum_mirror (env : EvalParams) (t : Tables) (position : Position)
    (hs : MirrorSymmetric env t) :
    white_pawn_sum t (mirror_position position) = white_pawn_sum t position := by
  unfold white_pawn_sum
  rw [mirror_position_p, total_material_mirror]
  apply sum_squares_mirror_horizontal
  intro i hi
  rw [hs.pawn_endgame WHITE i hi, hs.pawn WHITE i hi]

theorem white_bishop_sum_mirror (env : EvalParams) (t : Tables) (position : Position)
    (hwf : position.wf) (hs : MirrorSymmetric env t) :
    white_bishop_sum env t (mirror_position position) = white_bishop_sum env t position := by
  unfold white_bishop_sum
  rw [mirror_position_p, occupied_squares_mirror, white_squares_mirror]
  apply sum_squares_mirror_horizontal
  intro i hi
  rw [hs.bishop WHITE i hi, hs.bishop_attacks _ i (lt64_occupied_squares position hwf) hi,
    mirror_horizontal_not64, mirror_horizontal_and, pop_count_mirror_horizontal]

theorem white_knight_sum_mirror (env : EvalParams) (t : Tables) (position : Position)
    (hs : MirrorSymmetric env t) :
    white_knight_sum t (mirror_position position) = white_knight_sum t position := by
  unfold white_knight_sum
  rw [mirror_position_p]
  apply sum_squares_mirror_horizontal
  intro i hi
  rw [hs.knight WHITE i hi]

theorem white_rook_sum_mirror (env : EvalParams) (t : Tables) (position : Position)
    (hwf : position.wf) (hs : MirrorSymmetric env t) :
    white_rook_sum env t (mirror_position position) = white_rook_sum env t position := by
  unfold white_rook_sum
  rw [mirror_position_p, occupied_squares_mirror, white_squares_mirror]
  apply sum_squares_mirror_horizontal
  intro i hi
  rw [hs.rook WHITE i hi, hs.rook_attacks _ i (lt64_occupied_squares position hwf) hi,
    mirror_horizontal_not64, mirror_horizontal_and, pop_count_mirror_horizontal]

theorem white_queen_sum_mirror (env : EvalParams) (t : Tables) (position : Position)
    (hs : MirrorSymmetric env t) :
    white_queen_sum t (mirror_position position) = white_queen_sum t position := by
  unfold white_queen_sum
  rw [mirror_position_p]
  apply sum_squares_mirror_horizontal
  intro i hi
  rw [hs.queen WHITE i hi]

theorem white_proximity_sum_mirror (env : EvalParams) (t : Tables) (position : Position)
    (hs : MirrorSymmetric env t) (k : Nat) (hk : k < 64) :
    white_proximity_sum env t (mirror_position position) (flip_file k)
      = white_proximity_sum env t position k := by
  unfold white_proximity_sum
  simp only [mirror_position_p]
  rw [sum_squares_mirror_horizontal (position.p WHITE BISHOP) _
      (fun i => t.square_proximity (sq k) (sq i) * env.BISHOP_KING_PROXIMITY_BONUS)
      (fun i hi => by rw [hs.proximity k i hk hi]),
    sum_squares_mirror_horizontal (position.p WHITE KNIGHT) _
      (fun i => t.square_proximity (sq k) (sq i) * env.KNIGHT_KING_PROXIMITY_BONUS)
      (fun i hi => by rw [hs.proximity k i hk hi]),
    sum_squares_mirror_horizontal (position.p WHITE ROOK) _
      (fun i => t.square_proximity (sq k) (sq i) * env.ROOK_KING_PROXIMITY_BONUS)
      (fun i hi => by rw [hs.proximity k i hk hi]),
    sum_squares_mirror_horizontal (position.p WHITE QUEEN) _
      (fun i => t.square_proximity (sq k) (sq i) * env.QUEEN_KING_PROXIMITY_BONUS)
      (fun i hi => by rw [hs.proximity k i hk hi])]

theorem black_pawn_sum_mirror (env : EvalParams) (t : Tables) (position : Position)
    (hs : MirrorSymmetric env t) :
    black_pawn_sum t (mirror_position position) = black_pawn_sum t position := by
  unfold black_pawn_sum
  rw [mirror_position_p, total_material_mirror]
  apply sum_squares_mirror_horizontal
  intro i hi
  rw [hs.pawn_endgame BLACK i hi, hs.pawn BLACK i hi]

theorem black_bishop_sum_mirror (env : EvalParams) (t : Tables) (position : Position)
    (hwf : position.wf) (hs : MirrorSymmetric env t) :
    black_bishop_sum env t (mirror_position position) = black_bishop_sum env t position := by
  unfold black_bishop_sum
  rw [mirror_position_p, occupied_squares_mirror, black_squares_mirror]
  apply sum_squares_mirror_horizontal
  intro i hi
  rw [hs.bishop BLACK i hi, hs.bishop_attacks _ i (lt64_occupied_squares position hwf) hi,
    mirror_horizontal_not64, mirror_horizontal_and, pop_count_mirror_horizontal]

theorem black_knight_sum_mirror (env : EvalParams) (t : Tables) (position : Position)
    (hs : MirrorSymmetric env t) :
    black_knight_sum t (mirror_position position) = black_knight_sum t position := by
  unfold black_knight_sum
  rw [mirror_position_p]
  apply sum_squares_mirror_horizontal
  intro i hi
  rw [hs.knight BLACK i hi]

theorem black_rook_sum_mirror (env : EvalParams) (t : Tables) (position : Position)
    (hwf : position.wf) (hs : MirrorSymmetric env t) :
    black_rook_sum env t (mirror_position position) = black_rook_sum env t position := by
  unfold black_rook_sum
  rw [mirror_position_p, occupied_squares_mirror, black_squares_mirror]
  apply sum_squares_mirror_horizontal
  intro i hi
  rw [hs.rook BLACK i hi, hs.rook_attacks _ i (lt64_occupied_squares position hwf) hi,
    mirror_horizontal_not64, mirror_horizontal_and, pop_count_mirror_horizontal]

theorem black_queen_sum_mirror (env : EvalParams) (t : Tables) (position : Position)
    (hs : MirrorSymmetric env t) :
    black_queen_sum t (mirror_position position) = black_queen_sum t position := by
  unfold black_queen_sum
  rw [mirror_position_p]
  apply sum_squares_mirror_horizontal
  intro i hi
  rw [hs.queen BLACK i hi]

theorem black_proximity_sum_mirror (env : EvalParams) (t : Tables) (position : Position)
    (hs : MirrorSymmetric env t) (k : Nat) (hk : k < 64) :
    black_proximity_sum env t (mirror_position position) (flip_file k)
      = black_proximity_sum env t position k := by
  unfold black_proximity_sum
  simp only [mirror_position_p]
  rw [sum_squares_mirror_horizontal (position.p BLACK BISHOP) _
      (fun i => t.square_proximity (sq k) (sq i) * env.BISHOP_KING_PROXIMITY_BONUS)
      (fun i hi => by rw [hs.proximity k i hk hi]),
    sum_squares_mirror_horizontal (position.p BLACK KNIGHT) _
      (fun i => t.square_proximity (sq k) (sq i) * env.KNIGHT_KING_PROXIMITY_BONUS)
      (fun i hi => by rw [hs.proximity k i hk hi]),
    sum_squares_mirror_horizontal (position.p BLACK ROOK) _
      (fun i => t.square_proximity (sq k) (sq i) * env.ROOK_KING_PROXIMITY_BONUS)
      (fun i hi => by rw [hs.proximity k i hk hi]),
    sum_squares_mirror_horizontal (position.p BLACK QUEEN) _
      (fun i => t.square_proximity (sq k) (sq i) * env.QUEEN_KING_PROXIMITY_BONUS)
      (fun i hi => by rw [hs.proximity k i hk hi])]

/-- On the mirrored board every white term but the king-safety penalty is unchanged. -/
theorem white_total_mirror_add (env : EvalParams) (t : Tables) (position : Position)
    (hwf : position.wf) (hs : MirrorSymmetric env t) (w k : Nat) (hw : w < 64) (hk : k < 64) :
    white_total env t (mirror_position position) (flip_file w) (flip_file k)
        + king_safety_penalty env (mirror_position position) (flip_file w)
      = white_total env t position w k + king_safety_penalty env position w := by
  unfold white_total
  rw [white_passed_pawns_mirror position hwf, white_doubled_pawns_mirror,
    white_isolated_pawns_mirror, white_backward_pawns_mirror position hwf,
    white_pawn_sum_mirror env t position hs, white_bishop_sum_mirror env t position hwf hs,
    white_knight_sum_mirror env t position hs, white_rook_sum_mirror env t position hwf hs,
    white_queen_sum_mirror env t position hs, white_proximity_sum_mirror env t position hs k hk,
    white_piece_material_mirror, total_material_mirror, open_files_mirror position hwf,
    white_semi_open_files_mirror position hwf, hs.king_endgame WHITE w hw, hs.king w hw]
  simp only [mirror_position_p, pop_count_mirror_horizontal, mirror_horizontal_or,
    mirror_horizontal_and]
  ring

/-- On the mirrored board every black term but the king-safety penalty is unchanged. -/
theorem black_total_mirror_add (env : EvalParams) (t : Tables) (position : Position)
    (hwf : position.wf) (hs : MirrorSymmetric env t) (w k : Nat) (hw : w < 64) (hk : k < 64) :
    black_total env t (mirror_position position) (flip_file w) (flip_file k)
        + black_king_safety_penalty env (mirror_position position) (flip_file k)
      = black_total env t position w k + black_king_safety_penalty env position k := by
  unfold black_total
  rw [black_passed_pawns_mirror, black_doubled_pawns_mirror position hwf,
    black_isolated_pawns_mirror position hwf, black_backward_pawns_mirror position hwf,
    black_pawn_sum_mirror env t position hs, black_bishop_sum_mirror env t position hwf hs,
    black_knight_sum_mirror env t position hs, black_rook_sum_mirror env t position hwf hs,
    black_queen_sum_mirror env t position hs, black_proximity_sum_mirror env t position hs w hw,
    black_piece_material_mirror, total_material_mirror, open_files_mirror position hwf,
    black_semi_open_files_mirror position hwf, hs.king_endgame BLACK k hk, hs.king k hk]
  simp only [mirror_position_p, pop_count_mirror_horizontal, mirror_horizontal_or,
    mirror_horizontal_and]
  ring

/-- The scores of a board and of its mirror image differ by the difference of the king-safety
penalties only (one king per side, both king-safety shifts defined on both boards). -/
theorem evaluate_mirror_position_add (env : EvalParams) (t : Tables)
    (hs : MirrorSymmetric env t) (position : Position) (w k : Nat) (hwf : position.wf)
    (hwk : position.p WHITE KING = 2 ^ w) (hbk : position.p BLACK KING = 2 ^ k)
    (hw : w ≤ 55) (hk : 9 ≤ k ∧ k < 64 ∧ k ≠ 15) :
    ∃ v v' : Int, evaluate env t position = some v
      ∧ evaluate env t (mirror_position position) = some v'
      ∧ ((total_material position ≤ 300
            ∧ (position.p WHITE PAWN ||| position.p BLACK PAWN) = 0) → v = 0 ∧ v' = 0)
      ∧ (¬ (total_material position ≤ 300
            ∧ (position.p WHITE PAWN ||| position.p BLACK PAWN) = 0) →
          v' - king_safety_penalty env position w
              + black_king_safety_penalty env position k
            = v - king_safety_penalty env (mirror_position position) (flip_file w)
              + black_king_safety_penalty env (mirror_position position) (flip_file k)) := by
  obtain ⟨hk1, hk2, hk3⟩ := hk
  have hw64 : w < 64 := by omega
  have hwk0 : position.p WHITE KING ≠ 0 := by
    rw [hwk]; exact Nat.pos_iff_ne_zero.mp (Nat.two_pow_pos _)
  have hbk0 : position.p BLACK KING ≠ 0 := by
    rw [hbk]; exact Nat.pos_iff_ne_zero.mp (Nat.two_pow_pos _)
  have hwk' : (mirror_position position).p WHITE KING = 2 ^ flip_file w := by
    rw [mirror_position_p, hwk, mirror_horizontal_two_pow hw64]
  have hbk' : (mirror_position position).p BLACK KING = 2 ^ flip_file k := by
    rw [mirror_position_p, hbk, mirror_horizontal_two_pow hk2]
  have hwk0' : (mirror_position position).p WHITE KING ≠ 0 := by
    rw [hwk']; exact Nat.pos_iff_ne_zero.mp (Nat.two_pow_pos _)
  have hbk0' : (mirror_position position).p BLACK KING ≠ 0 := by
    rw [hbk']; exact Nat.pos_iff_ne_zero.mp (Nat.two_pow_pos _)
  have hpawns : ((mirror_position position).p WHITE PAWN
        ||| (mirror_position position).p BLACK PAWN) = 0
      ↔ (position.p WHITE PAWN ||| position.p BLACK PAWN) = 0 := by
    rw [mirror_position_p, mirror_position_p, mirror_horizontal_or,
      mirror_horizontal_eq_zero _ (lt64_or (hwf _ _) (hwf _ _))]
  by_cases hdraw : total_material position ≤ 300
      ∧ (position.p WHITE PAWN ||| position.p BLACK PAWN) = 0
  · refine ⟨0, 0, ?_, ?_, fun _ => ⟨rfl, rfl⟩, fun h => absurd hdraw h⟩
    · unfold evaluate
      simp only []
      rw [if_neg hbk0, if_neg hwk0, if_pos hdraw]
    · unfold evaluate
      simp only []
      rw [if_neg hbk0', if_neg hwk0',
        if_pos (by rw [total_material_mirror, hpawns]; exact hdraw)]
  · have hdraw' : ¬ (total_material (mirror_position position) ≤ 300
        ∧ ((mirror_position position).p WHITE PAWN
          ||| (mirror_position position).p BLACK PAWN) = 0) := by
      rw [total_material_mirror, hpawns]
      exact hdraw
    have e1 := evaluate_eq env t position hwf hbk0 hwk0 hdraw
      (by rw [hwk, lsb_to_square_two_pow hw64]; omega)
      (by rw [hbk, lsb_to_square_two_pow hk2]; exact hk1)
    have e2 := evaluate_eq env t (mirror_position position) (mirror_position_wf position)
      hbk0' hwk0' hdraw'
      (by rw [hwk', lsb_to_square_two_pow (flip_file_lt hw64)]; unfold flip_file; omega)
      (by rw [hbk', lsb_to_square_two_pow (flip_file_lt hk2)]; unfold flip_file; omega)
    rw [hwk, hbk, lsb_to_square_two_pow hw64, lsb_to_square_two_pow hk2] at e1
    rw [hwk', hbk', lsb_to_square_two_pow (flip_file_lt hw64),
      lsb_to_square_two_pow (flip_file_lt hk2)] at e2
    refine ⟨_, _, e1, e2, fun h => absurd h hdraw, fun _ => ?_⟩
    have a1 := white_total_mirror_add env t position hwf hs w k hw64 hk2
    have a2 := black_total_mirror_add env t position hwf hs w k hw64 hk2
    linarith

/-- Left-right symmetry of `evaluate` for left-right symmetric tables and generators, away
from the king squares where a king-safety mask wraps round the board edge or a king-safety
shift is undefined. -/
theorem evaluate_mirror_position (env : EvalParams) (t : Tables) (hs : MirrorSymmetric env t)
    (position : Position) (w k : Nat) (hwf : position.wf)
    (hwk : position.p WHITE KING = 2 ^ w) (hbk : position.p BLACK KING = 2 ^ k)
    (hw : w ≤ 55 ∧ w ≠ 8 ∧ w ≠ 15) (hk : 9 ≤ k ∧ k < 64 ∧ k ≠ 15 ∧ k ≠ 48 ∧ k ≠ 55) :
    ∃ v : Int, evaluate env t position = some v
      ∧ evaluate env t (mirror_position position) = some v := by
  obtain ⟨hw1, hw2, hw3⟩ := hw
  obtain ⟨hk1, hk2, hk3, hk4, hk5⟩ := hk
  obtain ⟨v, v', e1, e2, h1, h2⟩ :=
    evaluate_mirror_position_add env t hs position w k hwf hwk hbk hw1 ⟨hk1, hk2, hk3⟩
  refine ⟨v, e1, ?_⟩
  rw [e2]
  by_cases hdraw : total_material position ≤ 300
      ∧ (position.p WHITE PAWN ||| position.p BLACK PAWN) = 0
  · obtain ⟨r1, r2⟩ := h1 hdraw
    rw [r1, r2]
  · have h3 := h2 hdraw
    rw [king_safety_penalty_mirror env position hwf w
        (pawn_mask_flip_file w (by omega) hw1 hw2 hw3),
      black_king_safety_penalty_mirror env position hwf k
        (black_pawn_mask_flip_file k hk2 hk1 hk3 hk4 hk5)] at h3
    congr 1
    linarith

/-! ### The tables of `init_eval` are left-right symmetric -/

theorem calculate_square_value_file_symmetric {K : Type} [LinearOrderedField K] [FloorRing K]
    (sigmoid : K → K → K) (a b c d e : Int) (s : Side) (i : Nat) (hi : i < 64) :
    calculate_square_value sigmoid a b c d e s ((flip_file i : Nat) : Int)
      = calculate_square_value sigmoid a b c d e s (i : Int) := by
  unfold calculate_square_value
  have h1 : (((flip_file i : Nat) : Int)).tdiv 8 = ((i : Nat) : Int).tdiv 8 := by
    rw [Int.tdiv_eq_ediv (by omega) (by decide), Int.tdiv_eq_ediv (by omega) (by decide)]
    unfold flip_file
    omega
  have h2 : (((flip_file i : Nat) : Int)).tmod 8 = 7 - ((i : Nat) : Int).tmod 8 := by
    rw [Int.tmod_eq_emod (by omega) (by decide), Int.tmod_eq_emod (by omega) (by decide)]
    unfold flip_file
    omega
  have h3 : |(((7 - ((i : Nat) : Int).tmod 8 : Int)) : K) - 7 / 2|
      = |((((i : Nat) : Int).tmod 8 : Int) : K) - 7 / 2| := by
    rw [← abs_neg]
    congr 1
    push_cast
    ring
  simp only [ite_self, h1, h2, h3]

theorem proximity_value_flip_file (i j : Nat) (hi : i < 64) (hj : j < 64) :
    proximity_value (sq (flip_file i)) (sq (flip_file j)) = proximity_value (sq i) (sq j) := by
  unfold proximity_value
  simp only [sq_val hi, sq_val hj, sq_val (flip_file_lt hi), sq_val (flip_file_lt hj)]
  have h1 : flip_file i % 8 = 7 - i % 8 := by unfold flip_file; omega
  have h2 : flip_file j % 8 = 7 - j % 8 := by unfold flip_file; omega
  have h3 : flip_file i / 8 = i / 8 := by unfold flip_file; omega
  have h4 : flip_file j / 8 = j / 8 := by unfold flip_file; omega
  rw [h1, h2, h3, h4]
  have h5 : |(((7 - i % 8 : Nat) : Int)) - ((7 - j % 8 : Nat) : Int)|
      = |((i % 8 : Nat) : Int) - ((j % 8 : Nat) : Int)| := by
    rw [abs_sub_comm]
    congr 1
    omega
  rw [h5]

theorem rev_sq_flip_file {i : Nat} (hi : i < 64) :
    Fin.rev (sq (flip_file i)) = sq (flip_file (63 - i)) := by
  apply Fin.ext
  have h1 := flip_file_lt hi
  have h2 : flip_file (63 - i) < 64 := flip_file_lt (by omega)
  rw [Fin.val_rev, sq_val h1, sq_val h2]
  unfold flip_file
  omega

theorem rev_sq {i : Nat} (hi : i < 64) : Fin.rev (sq i) = sq (63 - i) := by
  apply Fin.ext
  rw [Fin.val_rev, sq_val hi, sq_val (show 63 - i < 64 by omega)]
  omega

/-- After `init_eval` the tables are left-right symmetric as soon as the two hand-supplied
tables are symmetric under the file mirror and the attack generators commute with it. -/
theorem mirrorSymmetric_init_eval {K : Type} [LinearOrderedField K] [FloorRing K]
    (sigmoid : K → K → K) (env : EvalParams) (t : Tables)
    (hking : ∀ i, i < 64 →
      env.KING_SQUARE_TABLE (sq (flip_file i)) = env.KING_SQUARE_TABLE (sq i))
    (hrook : ∀ i, i < 64 →
      env.ROOK_SQUARE_TABLE (sq (flip_file i)) = env.ROOK_SQUARE_TABLE (sq i))
    (hba : ∀ occ i, occ < 2 ^ 64 → i < 64 →
      env.bishop_attacks (mirror_horizontal occ) (flip_file i)
        = mirror_horizontal (env.bishop_attacks occ i))
    (hra : ∀ occ i, occ < 2 ^ 64 → i < 64 →
      env.rook_attacks (mirror_horizontal occ) (flip_file i)
        = mirror_horizontal (env.rook_attacks occ i)) :
    MirrorSymmetric env (init_eval sigmoid env t) where
  pawn := fun s i hi => by
    rw [init_eval_pawn_square_table]
    simp only [sq_val hi, sq_val (flip_file_lt hi)]
    exact calculate_square_value_file_symmetric sigmoid _ _ _ _ _ s i hi
  pawn_endgame := fun s i hi => by
    rw [init_eval_pawn_square_table_endgame]
    simp only [sq_val hi, sq_val (flip_file_lt hi)]
    exact calculate_square_value_file_symmetric sigmoid _ _ _ _ _ s i hi
  knight := fun s i hi => by
    rw [init_eval_knight_square_table]
    simp only [sq_val hi, sq_val (flip_file_lt hi)]
    exact calculate_square_value_file_symmetric sigmoid _ _ _ _ _ s i hi
  bishop := fun s i hi => by
    rw [init_eval_bishop_square_table]
    simp only [sq_val hi, sq_val (flip_file_lt hi)]
    exact calculate_square_value_file_symmetric sigmoid _ _ _ _ _ s i hi
  rook := fun s i hi => by
    rw [init_eval_rook_square_table, init_eval_rook_square_table]
    cases s
    · exact hrook i hi
    · simp only [rev_sq_flip_file hi, rev_sq hi]
      exact hrook (63 - i) (by omega)
  queen := fun s i hi => by
    rw [init_eval_queen_square_table]
    simp only [sq_val hi, sq_val (flip_file_lt hi)]
    exact calculate_square_value_file_symmetric sigmoid _ _ _ _ _ s i hi
  king_endgame := fun s i hi => by
    rw [init_eval_king_square_table_endgame]
    simp only [sq_val hi, sq_val (flip_file_lt hi)]
    exact calculate_square_value_file_symmetric sigmoid _ _ _ _ _ s i hi
  king := hking
  proximity := fun i j hi hj => by
    rw [init_eval_square_proximity]
    exact proximity_value_flip_file i j hi hj
  bishop_attacks := hba
  rook_attacks := hra

/-! ### Claim C5: left-right symmetry -/

/-- The position `king_on_a2` (white king on a2, black queen on d8, black king on e8) scores
less than its mirror image by the king-safety penalty `(3 * UNSAFE_KING_PENALTY * 900) / 3100`:
for the king on a2 the mask `(7 << (8 + 7)) & ROW_2` is the square h2, so the open h-file and
the missing pawns on h2 and h3 are counted against the king on a2, while for the king on h2 the
mask `(7 << (15 + 7)) & ROW_2` is empty. -/
theorem evaluate_king_on_a2 (env : EvalParams) (t : Tables) (hs : MirrorSymmetric env t) :
    ∃ v : Int, evaluate env t (mirror_position king_on_a2) = some v
      ∧ evaluate env t king_on_a2
        = some (v - (3 * env.UNSAFE_KING_PENALTY * 900).tdiv 3100) := by
  obtain ⟨v, v', e1, e2, _, h2⟩ :=
    evaluate_mirror_position_add env t hs king_on_a2 8 60 (wf_of_wfb _ (by decide)) rfl rfl
      (by decide) (by decide)
  have hm : total_material king_on_a2 = 900 := by decide
  have h3 := h2 (by rw [hm]; intro h; exact absurd h.1 (by decide))
  have k1 : king_safety_penalty env king_on_a2 8
      = (3 * env.UNSAFE_KING_PENALTY * 900).tdiv 3100 := by
    unfold king_safety_penalty
    have p1 : pop_count (open_files king_on_a2 &&& pawn_mask 8) = 1 := by decide
    have p2 : pop_count (not64 (king_on_a2.p WHITE PAWN) &&& pawn_mask 8) = 1 := by decide
    have p3 : pop_count (not64 (king_on_a2.p WHITE PAWN)
        &&& shl64 (not64 (king_on_a2.p WHITE PAWN) &&& pawn_mask 8) 8) = 1 := by decide
    have p4 : black_piece_material king_on_a2 = 900 := by decide
    simp only [p1, p2, p3, p4, MAX_MATERIAL]
    congr 1
    ring
  have k2 : king_safety_penalty env (mirror_position king_on_a2) (flip_file 8) = 0 := by
    unfold king_safety_penalty
    have p0 : pawn_mask (flip_file 8) = 0 := by decide
    have p1 : pop_count 0 = 0 := by decide
    have p2 : shl64 0 8 = 0 := by decide
    simp only [p0, Nat.and_zero, p1, p2]
    simp
  have k3 : black_king_safety_penalty env king_on_a2 60 = 0 := by
    unfold black_king_safety_penalty
    have p4 : white_piece_material king_on_a2 = 0 := by decide
    simp only [p4]
    simp
  have k4 : black_king_safety_penalty env (mirror_position king_on_a2) (flip_file 60) = 0 := by
    unfold black_king_safety_penalty
    have p4 : white_piece_material (mirror_position king_on_a2) = 0 := by decide
    simp only [p4]
    simp
  rw [k1, k2, k3, k4] at h3
  refine ⟨v', e2, ?_⟩
  rw [e1]
  congr 1
  linarith

/-- C5 at the failing input: with every tuning constant equal to 7, constant hand-supplied
tables, empty attack sets and the tables built by `init_eval`, the legal position with the
white king on a2, the black queen on d8 and the black king on e8 scores exactly 6 centipawns
less than its left-right mirror image (white king on h2, black queen on e8, black king on
d8). -/
theorem evaluate_mirror_failing_input :
    ∃ v : Int,
      evaluate (sample_params 7 (fun _ => 0) (fun _ => 0))
          (init_eval rational_sigmoid (sample_params 7 (fun _ => 0) (fun _ => 0)) zero_tables)
          (mirror_position king_on_a2) = some v
        ∧ evaluate (sample_params 7 (fun _ => 0) (fun _ => 0))
          (init_eval rational_sigmoid (sample_params 7 (fun _ => 0) (fun _ => 0)) zero_tables)
          king_on_a2 = some (v - 6) :=
  evaluate_king_on_a2 (sample_params 7 (fun _ => 0) (fun _ => 0)) _
    (mirrorSymmetric_init_eval rational_sigmoid _ zero_tables (fun _ _ => rfl) (fun _ _ => rfl)
      (fun _ _ _ _ => mirror_horizontal_zero.symm) (fun _ _ _ _ => mirror_horizontal_zero.symm))

/-- Left-right symmetry of `evaluate` with the tables built by `init_eval`, away from the failing
king squares: with hand-supplied tables symmetric under the file mirror and attack generators
commuting with it, a board with one king per side, the white king on a square `w <= 55` other
than 8 and 15 and the black king on a square `k >= 9` other than 15, 48 and 55, gets the same
score as its mirror image. -/
theorem evaluate_left_right_symmetric {K : Type} [LinearOrderedField K] [FloorRing K]
    (sigmoid : K → K → K) (env : EvalParams) (t : Tables) (position : Position)
    (hwf : position.wf)
    (hking : ∀ i, i < 64 →
      env.KING_SQUARE_TABLE (sq (flip_file i)) = env.KING_SQUARE_TABLE (sq i))
    (hrook : ∀ i, i < 64 →
      env.ROOK_SQUARE_TABLE (sq (flip_file i)) = env.ROOK_SQUARE_TABLE (sq i))
    (hba : ∀ occ i, occ < 2 ^ 64 → i < 64 →
      env.bishop_attacks (mirror_horizontal occ) (flip_file i)
        = mirror_horizontal (env.bishop_attacks occ i))
    (hra : ∀ occ i, occ < 2 ^ 64 → i < 64 →
      env.rook_attacks (mirror_horizontal occ) (flip_file i)
        = mirror_horizontal (env.rook_attacks occ i))
    (w k : Nat) (hwk : position.p WHITE KING = 2 ^ w) (hbk : position.p BLACK KING = 2 ^ k)
    (hw : w ≤ 55 ∧ w ≠ 8 ∧ w ≠ 15) (hk : 9 ≤ k ∧ k < 64 ∧ k ≠ 15 ∧ k ≠ 48 ∧ k ≠ 55) :
    ∃ v : Int, evaluate env (init_eval sigmoid env t) position = some v
      ∧ evaluate env (init_eval sigmoid env t) (mirror_position position) = some v :=
  evaluate_mirror_position env (init_eval sigmoid env t)
    (mirrorSymmetric_init_eval sigmoid env t hking hrook hba hra) position w k hwf hwk hbk hw hk

/-! ### Claim C11: material and `MAX_MATERIAL` -/

theorem pop_count_nonneg (b : Nat) : 0 ≤ pop_count b := by
  unfold pop_count
  exact Int.natCast_nonneg _

/-- With the standard piece set each side's piece material is at most `MAX_MATERIAL` and the
total material, the sum of both, is at most twice `MAX_MATERIAL`. -/
theorem material_bounds (position : Position) (h : standard_piece_set position) :
    white_piece_material position ≤ MAX_MATERIAL
      ∧ black_piece_material position ≤ MAX_MATERIAL
      ∧ total_material position ≤ 2 * MAX_MATERIAL := by
  obtain ⟨w1, w2, w3, w4⟩ := h WHITE
  obtain ⟨b1, b2, b3, b4⟩ := h BLACK
  unfold total_material white_piece_material black_piece_material MAX_MATERIAL
  refine ⟨by omega, by omega, by omega⟩

/-- C11 at the failing input: the initial position has the standard piece set (one queen, two
rooks, two bishops and two knights a side), each side's piece material is 3100, and
`total_material`, the sum of both, is 6200, twice `MAX_MATERIAL`; so the phase ratio is 2 and
the passed-pawn factor `MAX_MATERIAL - total_material` is -3100. -/
theorem total_material_start_position :
    standard_piece_set start_position
      ∧ white_piece_material start_position = 3100
      ∧ black_piece_material start_position = 3100
      ∧ total_material start_position = 6200
      ∧ MAX_MATERIAL = 3100
      ∧ ¬ total_material start_position ≤ MAX_MATERIAL
      ∧ MAX_MATERIAL - total_material start_position = -3100 := by
  refine ⟨?_, by decide, by decide, by decide, rfl, by decide, by decide⟩
  intro s
  cases s <;> decide

/-! ### Claim C12: the tapering rule -/

theorem tdiv_3100 (a : Int) :
    (0 ≤ a ∧ 3100 * a.tdiv 3100 ≤ a ∧ a < 3100 * a.tdiv 3100 + 3100)
      ∨ (a < 0 ∧ 3100 * a.tdiv 3100 - 3100 < a ∧ a ≤ 3100 * a.tdiv 3100) := by
  by_cases h : 0 ≤ a
  · left
    rw [Int.tdiv_eq_ediv h (by decide)]
    omega
  · right
    have h1 : a.tdiv 3100 = -((-a).tdiv 3100) := by
      rw [Int.neg_tdiv, neg_neg]
    rw [h1, Int.tdiv_eq_ediv (by omega) (by decide)]
    omega

/-- The pawn loop of `evaluate` adds `tapered_amount` for every white pawn. -/
theorem white_pawn_sum_eq_tapered (t : Tables) (position : Position) :
    white_pawn_sum t position
      = ∑ i in squares (position.p WHITE PAWN),
          tapered_amount (t.pawn_square_table_endgame WHITE (sq i))
            (t.pawn_square_table WHITE (sq i)) (total_material position) := rfl

/-- The pawn loop of `evaluate` subtracts `tapered_amount` for every black pawn. -/
theorem black_pawn_sum_eq_tapered (t : Tables) (position : Position) :
    black_pawn_sum t position
      = ∑ i in squares (position.p BLACK PAWN),
          tapered_amount (t.pawn_square_table_endgame BLACK (sq i))
            (t.pawn_square_table BLACK (sq i)) (total_material position) := rfl

/-- Counterexample to C12: with endgame value 10, midgame value 21 and `total_material` 300 (one
minor piece on the board) `evaluate` adds 10 - 3000/3100 + 6300/3100 = 12, while the blend
10 + (11 * 300)/3100 is 11. -/
theorem tapered_amount_ne_blend :
    (0 : Int) ≤ 300 ∧ (300 : Int) ≤ MAX_MATERIAL ∧ tapered_amount 10 21 300 = 12
      ∧ tapered_blend 10 21 300 = 11 := by
  decide

/-- C12 (amended): for all table values `eg`, `mg` and every `total_material`, the amount
`evaluate` adds, `eg - eg*tm/MAX_MATERIAL + mg*tm/MAX_MATERIAL` with truncating divisions,
differs from the blend `eg + (mg - eg)*tm/MAX_MATERIAL` by at most 1; the two agree at
`tm = 0`, where both are `eg`, and at `tm = MAX_MATERIAL`, where both are `mg`. -/
theorem tapered_amount_near_blend (eg mg : Int) :
    (∀ tm : Int, |tapered_amount eg mg tm - tapered_blend eg mg tm| ≤ 1)
      ∧ (tapered_amount eg mg 0 = eg ∧ tapered_blend eg mg 0 = eg)
      ∧ (tapered_amount eg mg MAX_MATERIAL = mg ∧ tapered_blend eg mg MAX_MATERIAL = mg) := by
  refine ⟨?_, ?_, ?_⟩
  · intro tm
    unfold tapered_amount tapered_blend MAX_MATERIAL
    have hab : (mg - eg) * tm = mg * tm - eg * tm := by ring
    rw [hab]
    generalize eg * tm = a
    generalize mg * tm = b
    have ha := tdiv_3100 a
    have hb := tdiv_3100 b
    have hc := tdiv_3100 (b - a)
    rw [abs_le]
    omega
  · unfold tapered_amount tapered_blend
    simp
  · unfold tapered_amount tapered_blend MAX_MATERIAL
    have h1 : (eg * 3100).tdiv 3100 = eg := Int.mul_tdiv_cancel _ (by decide)
    have h2 : (mg * 3100).tdiv 3100 = mg := Int.mul_tdiv_cancel _ (by decide)
    have h3 : ((mg - eg) * 3100).tdiv 3100 = mg - eg := Int.mul_tdiv_cancel _ (by decide)
    rw [h1, h2, h3]
    constructor <;> ring

/-! ### Claims C14 and C15: the king-safety masks and shifts -/

/-- C14 at the failing input: for the white king on a2 (square 8, row 1, file 0) the mask
`(7 << 15) & ROW_2` is the single square 15 (h2: row 1, file 7), and for the black king on h7
(square 55, row 6, file 7) the mask `(7 << 46) & ROW_7` is the single square 48 (a7: row 6,
file 0): a square on the king's own row, on the file at the opposite edge of the board. -/
theorem pawn_mask_wraps :
    pawn_mask 8 = 2 ^ 15 ∧ black_pawn_mask 55 = 2 ^ 48 := by
  decide

/-- Away from the two failing king squares the masks are as C14 describes them: for every white
king square `k <= 56` other than 8, every square of `pawn_mask k` is on row `k / 8 + 1` and on
the king's file or a neighbouring file; for every black king square `9 <= k < 64` other than 55,
every square of `black_pawn_mask k` is on row `k / 8 - 1` and on the king's file or a
neighbouring file. -/
theorem pawn_mask_geometry :
    (∀ k, k < 57 → k ≠ 8 → ∀ i, i < 64 → (pawn_mask k).testBit i = true →
        i / 8 = k / 8 + 1 ∧ i % 8 ≤ k % 8 + 1 ∧ k % 8 ≤ i % 8 + 1)
      ∧ (∀ k, k < 64 → 9 ≤ k → k ≠ 55 → ∀ i, i < 64 → (black_pawn_mask k).testBit i = true →
        i / 8 + 1 = k / 8 ∧ i % 8 ≤ k % 8 + 1 ∧ k % 8 ≤ i % 8 + 1) := by
  have h1 : ∀ k, k < 57 → ∀ i, i < 64 → (k ≠ 8 ∧ (pawn_mask k).testBit i = true) →
      i / 8 = k / 8 + 1 ∧ i % 8 ≤ k % 8 + 1 ∧ k % 8 ≤ i % 8 + 1 := by
    decide
  have h2 : ∀ k, k < 64 → ∀ i, i < 64 →
      (9 ≤ k ∧ k ≠ 55 ∧ (black_pawn_mask k).testBit i = true) →
      i / 8 + 1 = k / 8 ∧ i % 8 ≤ k % 8 + 1 ∧ k % 8 ≤ i % 8 + 1 := by
    decide
  exact ⟨fun k hk h8 i hi hb => h1 k hk i hi ⟨h8, hb⟩,
    fun k hk h9 h55 i hi hb => h2 k hk i hi ⟨h9, h55, hb⟩⟩

/-- C15 at the failing inputs: with the white king on g8 the shift amount
`white_king_square + 7` is 69, with the black king on c1 the shift amount
`black_king_square - 9` is -7; both positions have one king a side and a rook, so they pass the
king guards and the draw guard, and `evaluate` reaches the undefined shift. -/
theorem evaluate_shift_undefined (env : EvalParams) (t : Tables) :
    lsb_to_square (king_on_g8.p WHITE KING) + 7 = 69
      ∧ ((lsb_to_square (black_king_on_c1.p BLACK KING) : Nat) : Int) - 9 = -7
      ∧ evaluate env t king_on_g8 = none
      ∧ evaluate env t black_king_on_c1 = none := by
  refine ⟨by decide, by decide, ?_, ?_⟩
  · unfold evaluate
    simp only []
    have h1 : king_on_g8.p BLACK KING ≠ 0 := by decide
    have h2 : king_on_g8.p WHITE KING ≠ 0 := by decide
    have h3 : ¬ (total_material king_on_g8 ≤ 300
        ∧ (king_on_g8.p WHITE PAWN ||| king_on_g8.p BLACK PAWN) = 0) := by decide
    have h4 : 64 ≤ lsb_to_square (king_on_g8.p WHITE KING) + 7
        ∨ lsb_to_square (king_on_g8.p BLACK KING) < 9 := by decide
    rw [if_neg h1, if_neg h2, if_neg h3, if_pos h4]
  · unfold evaluate
    simp only []
    have h1 : black_king_on_c1.p BLACK KING ≠ 0 := by decide
    have h2 : black_king_on_c1.p WHITE KING ≠ 0 := by decide
    have h3 : ¬ (total_material black_king_on_c1 ≤ 300
        ∧ (black_king_on_c1.p WHITE PAWN ||| black_king_on_c1.p BLACK PAWN) = 0) := by decide
    have h4 : 64 ≤ lsb_to_square (black_king_on_c1.p WHITE KING) + 7
        ∨ lsb_to_square (black_king_on_c1.p BLACK KING) < 9 := by decide
    rw [if_neg h1, if_neg h2, if_neg h3, if_pos h4]

/-! ### Claim C19: the final conversion of `calculate_square_value` -/

theorem calculate_square_value_eq_trunc {K : Type} [LinearOrderedField K] [FloorRing K]
    (sigmoid : K → K → K) (a b c d e : Int) (side : Side) (square : Int) :
    calculate_square_value sigmoid a b c d e side square
      = trunc_to_int (square_value sigmoid a b c d e side square + 1 / 2) := rfl

/-- C19 at the failing input: with base value -1 and both bonus magnitudes 0 the value before the
conversion is `v = -1`; `(int)(v + 0.5) = (int)(-0.5)` is 0, while the integer nearest to -1 is
-1. -/
theorem calculate_square_value_not_round :
    square_value rational_sigmoid (-1) 0 1 0 1 WHITE 0 = -1
      ∧ calculate_square_value rational_sigmoid (-1) 0 1 0 1 WHITE 0 = 0
      ∧ round (square_value rational_sigmoid (-1) 0 1 0 1 WHITE 0) = -1 := by
  have hv : square_value rational_sigmoid (-1) 0 1 0 1 WHITE 0 = -1 := by
    unfold square_value
    simp
  refine ⟨hv, ?_, ?_⟩
  · rw [calculate_square_value_eq_trunc, hv]
    unfold trunc_to_int
    norm_num
  · rw [hv, round_eq, Int.floor_eq_iff]
    norm_num

/-- What `calculate_square_value` returns: let `v` be `base + center_bonus * sigmoid(center_proximity, center_sat)
+ backrank_bonus * sigmoid(backrank_proximity, backrank_sat)`.  When `v >= -1/2`,
`calculate_square_value` returns `round v`, the integer nearest to `v` (halves upward); when
`v < -1/2` it returns the ceiling of `v + 1/2` (the conversion to `int` truncates toward zero),
which is not below `round v`. -/
theorem calculate_square_value_round {K : Type} [LinearOrderedField K] [FloorRing K]
    (sigmoid : K → K → K) (a b c d e : Int) (side : Side) (square : Int) :
    (-1 / 2 ≤ square_value sigmoid a b c d e side square →
        calculate_square_value sigmoid a b c d e side square
          = round (square_value sigmoid a b c d e side square))
      ∧ (square_value sigmoid a b c d e side square < -1 / 2 →
        calculate_square_value sigmoid a b c d e side square
            = ⌈square_value sigmoid a b c d e side square + 1 / 2⌉
          ∧ round (square_value sigmoid a b c d e side square)
            ≤ calculate_square_value sigmoid a b c d e side square) := by
  rw [calculate_square_value_eq_trunc]
  generalize square_value sigmoid a b c d e side square = v
  unfold trunc_to_int
  constructor
  · intro h
    have h0 : (0 : K) ≤ v + 1 / 2 := by linarith
    rw [if_pos h0, round_eq]
  · intro h
    have h0 : ¬ (0 : K) ≤ v + 1 / 2 := by
      intro h'
      linarith
    rw [if_neg h0, round_eq]
    exact ⟨rfl, Int.floor_le_ceil _⟩

/-- Instances of `calculate_square_value_round`: base value 3 gives `v = 3` and the result 3; base value -1 gives
`v = -1` and the result `⌈-1/2⌉`. -/
theorem calculate_square_value_round_witness :
    calculate_square_value rational_sigmoid 3 0 1 0 1 WHITE 0
        = round (square_value rational_sigmoid 3 0 1 0 1 WHITE 0)
      ∧ (calculate_square_value rational_sigmoid (-1) 0 1 0 1 WHITE 0
            = ⌈square_value rational_sigmoid (-1) 0 1 0 1 WHITE 0 + 1 / 2⌉
          ∧ round (square_value rational_sigmoid (-1) 0 1 0 1 WHITE 0)
            ≤ calculate_square_value rational_sigmoid (-1) 0 1 0 1 WHITE 0) :=
  ⟨(calculate_square_value_round rational_sigmoid 3 0 1 0 1 WHITE 0).1
      (by unfold square_value; norm_num),
    (calculate_square_value_round rational_sigmoid (-1) 0 1 0 1 WHITE 0).2
      (by unfold square_value; norm_num)⟩

/-! ### Claim C20: the shaping function at `high` and `-high` -/

theorem sigmoid_at_high (high : ℝ) (h : 0 < high) :
    sigmoid (fun a b : ℝ => a ^ b) high high = 100 / 101
      ∧ sigmoid (fun a b : ℝ => a ^ b) (-high) high = 1 / 101
      ∧ sigmoid (fun a b : ℝ => a ^ b) (high / 2) high = 10 / 11
      ∧ sigmoid (fun a b : ℝ => a ^ b) (-(high / 2)) high = 1 / 11 := by
  have hne : high ≠ 0 := ne_of_gt h
  have e1 : -high / (high / 2) = -2 := by
    rw [eq_comm, eq_div_iff (by positivity)]
    ring
  have e2 : - -high / (high / 2) = 2 := by
    rw [eq_comm, eq_div_iff (by positivity)]
    ring
  have e3 : -(high / 2) / (high / 2) = -1 := by
    rw [eq_comm, eq_div_iff (by positivity)]
    ring
  have e4 : - -(high / 2) / (high / 2) = 1 := by
    rw [eq_comm, eq_div_iff (by positivity)]
    ring
  have p1 : (10 : ℝ) ^ (-2 : ℝ) = 1 / 100 := by
    rw [Real.rpow_neg (by norm_num), show (2 : ℝ) = ((2 : ℕ) : ℝ) by norm_num,
      Real.rpow_natCast]
    norm_num
  have p2 : (10 : ℝ) ^ (2 : ℝ) = 100 := by
    rw [show (2 : ℝ) = ((2 : ℕ) : ℝ) by norm_num, Real.rpow_natCast]
    norm_num
  have p3 : (10 : ℝ) ^ (-1 : ℝ) = 1 / 10 := by
    rw [Real.rpow_neg (by norm_num), Real.rpow_one]
    norm_num
  have p4 : (10 : ℝ) ^ (1 : ℝ) = 10 := Real.rpow_one _
  simp only [sigmoid]
  rw [e1, e2, e3, e4, p1, p2, p3, p4]
  norm_num

/-- C20 at the failing inputs: in the real-number model (`pow` the real power), for every
`high > 0` the value of `sigmoid` at `x = high` is 100/101 (about 0.990) and at `x = -high` it
is 1/101 (about 0.0099); each is more than 0.05 away from the documented figures 0.9 and 0.1. -/
theorem sigmoid_high_not_near (high : ℝ) (h : 0 < high) :
    sigmoid (fun a b : ℝ => a ^ b) high high = 100 / 101
      ∧ sigmoid (fun a b : ℝ => a ^ b) (-high) high = 1 / 101
      ∧ 1 / 20 < |sigmoid (fun a b : ℝ => a ^ b) high high - 9 / 10|
      ∧ 1 / 20 < |sigmoid (fun a b : ℝ => a ^ b) (-high) high - 1 / 10| := by
  obtain ⟨h1, h2, _, _⟩ := sigmoid_at_high high h
  refine ⟨h1, h2, ?_, ?_⟩
  · rw [h1]
    norm_num [abs_of_pos]
  · rw [h2]
    norm_num [abs_of_neg]

/-- Witness of C20 at `high = 2`: `sigmoid(2, 2) = 100/101` and `sigmoid(-2, 2) = 1/101`. -/
theorem sigmoid_high_not_near_witness :
    sigmoid (fun a b : ℝ => a ^ b) 2 2 = 100 / 101
      ∧ sigmoid (fun a b : ℝ => a ^ b) (-2) 2 = 1 / 101
      ∧ 1 / 20 < |sigmoid (fun a b : ℝ => a ^ b) 2 2 - 9 / 10|
      ∧ 1 / 20 < |sigmoid (fun a b : ℝ => a ^ b) (-2) 2 - 1 / 10| :=
  sigmoid_high_not_near 2 (by norm_num)

/-- The documented figures are the values at half of `high`: `sigmoid(high/2, high) = 10/11`
(about 0.909) and `sigmoid(-high/2, high) = 1/11` (about 0.0909). -/
theorem sigmoid_at_half_high (high : ℝ) (h : 0 < high) :
    sigmoid (fun a b : ℝ => a ^ b) (high / 2) high = 10 / 11
      ∧ sigmoid (fun a b : ℝ => a ^ b) (-(high / 2)) high = 1 / 11 :=
  ⟨(sigmoid_at_high high h).2.2.1, (sigmoid_at_high high h).2.2.2⟩

/-! ### Flood-fill semantics of `south_fill`, `north_fill` and `file_fill` -/

theorem south_fill_step (x l : Nat) (k n : Nat) (hn : n = 8 * k)
    (h : ∀ i, l.testBit i = true ↔ ∃ m, m < k ∧ x.testBit (i + 8 * m) = true) (i : Nat) :
    (l ||| l >>> n).testBit i = true ↔ ∃ m, m < 2 * k ∧ x.testBit (i + 8 * m) = true := by
  rw [Nat.testBit_or, Nat.testBit_shiftRight, Bool.or_eq_true, h, h]
  constructor
  · rintro (⟨m, hm, hb⟩ | ⟨m, hm, hb⟩)
    · exact ⟨m, by omega, hb⟩
    · refine ⟨m + k, by omega, ?_⟩
      rw [show i + 8 * (m + k) = n + i + 8 * m by omega]
      exact hb
  · rintro ⟨m, hm, hb⟩
    by_cases hmk : m < k
    · exact Or.inl ⟨m, hmk, hb⟩
    · refine Or.inr ⟨m - k, by omega, ?_⟩
      rw [show n + i + 8 * (m - k) = i + 8 * m by omega]
      exact hb

/-- The bitboard `south_fill x` holds the square `i` exactly when `x` holds a square of the same
file at the same or a higher row. -/
theorem testBit_south_fill (x : Nat) (hx : x < 2 ^ 64) (i : Nat) :
    (south_fill x).testBit i = true ↔ ∃ m, x.testBit (i + 8 * m) = true := by
  have h1 : ∀ i, x.testBit i = true ↔ ∃ m, m < 1 ∧ x.testBit (i + 8 * m) = true := by
    intro i
    constructor
    · intro h
      exact ⟨0, by omega, h⟩
    · rintro ⟨m, hm, hb⟩
      have : m = 0 := by omega
      subst this
      exact hb
  have h2 := south_fill_step x x 1 8 rfl h1
  have h4 := south_fill_step x _ 2 16 rfl h2
  have h8 := south_fill_step x _ 4 32 rfl h4
  unfold south_fill
  simp only []
  rw [h8 i]
  constructor
  · rintro ⟨m, _, hb⟩
    exact ⟨m, hb⟩
  · rintro ⟨m, hb⟩
    refine ⟨m, ?_, hb⟩
    by_contra hm
    rw [testBit_of_lt64 hx (show 64 ≤ i + 8 * m by omega)] at hb
    exact Bool.false_ne_true hb

theorem north_fill_step (x l : Nat) (k n : Nat) (hn : n = 8 * k)
    (h : ∀ i, l.testBit i = true ↔
      i < 64 ∧ ∃ m, m < k ∧ 8 * m ≤ i ∧ x.testBit (i - 8 * m) = true) (i : Nat) :
    (l ||| shl64 l n).testBit i = true ↔
      i < 64 ∧ ∃ m, m < 2 * k ∧ 8 * m ≤ i ∧ x.testBit (i - 8 * m) = true := by
  rw [Nat.testBit_or, testBit_shl64, Bool.or_eq_true, Bool.and_eq_true, Bool.and_eq_true,
    decide_eq_true_eq, decide_eq_true_eq, h, h]
  constructor
  · rintro (⟨hi, m, hm, h8, hb⟩ | ⟨hi, hni, _, m, hm, h8, hb⟩)
    · exact ⟨hi, m, by omega, h8, hb⟩
    · refine ⟨hi, m + k, by omega, by omega, ?_⟩
      rw [show i - 8 * (m + k) = i - n - 8 * m by omega]
      exact hb
  · rintro ⟨hi, m, hm, h8, hb⟩
    by_cases hmk : m < k
    · exact Or.inl ⟨hi, m, hmk, h8, hb⟩
    · refine Or.inr ⟨hi, by omega, by omega, m - k, by omega, by omega, ?_⟩
      rw [show i - n - 8 * (m - k) = i - 8 * m by omega]
      exact hb

/-- The bitboard `north_fill x` holds the square `i` exactly when `x` holds a square of the same
file at the same or a lower row. -/
theorem testBit_north_fill (x : Nat) (hx : x < 2 ^ 64) (i : Nat) :
    (north_fill x).testBit i = true ↔
      i < 64 ∧ ∃ m, 8 * m ≤ i ∧ x.testBit (i - 8 * m) = true := by
  have h1 : ∀ i, x.testBit i = true ↔
      i < 64 ∧ ∃ m, m < 1 ∧ 8 * m ≤ i ∧ x.testBit (i - 8 * m) = true := by
    intro i
    constructor
    · intro h
      refine ⟨?_, 0, by omega, by omega, h⟩
      by_contra hi
      rw [testBit_of_lt64 hx (show 64 ≤ i by omega)] at h
      exact Bool.false_ne_true h
    · rintro ⟨_, m, hm, _, hb⟩
      have : m = 0 := by omega
      subst this
      exact hb
  have h2 := north_fill_step x x 1 8 rfl h1
  have h4 := north_fill_step x _ 2 16 rfl h2
  have h8 := north_fill_step x _ 4 32 rfl h4
  unfold north_fill
  simp only []
  rw [h8 i]
  constructor
  · rintro ⟨hi, m, _, h8', hb⟩
    exact ⟨hi, m, h8', hb⟩
  · rintro ⟨hi, m, h8', hb⟩
    exact ⟨hi, m, by omega, h8', hb⟩

/-- The bitboard `file_fill x` holds the square `i` exactly when `x` holds a square of the same
file. -/
theorem testBit_file_fill (x : Nat) (hx : x < 2 ^ 64) (i : Nat) :
    (file_fill x).testBit i = true ↔
      i < 64 ∧ ∃ j, x.testBit j = true ∧ j % 8 = i % 8 := by
  unfold file_fill
  rw [Nat.testBit_or, Bool.or_eq_true, testBit_south_fill x hx, testBit_north_fill x hx]
  constructor
  · rintro (⟨m, hb⟩ | ⟨hi, m, h8, hb⟩)
    · refine ⟨?_, i + 8 * m, hb, by omega⟩
      by_contra hi
      rw [testBit_of_lt64 hx (show 64 ≤ i + 8 * m by omega)] at hb
      exact Bool.false_ne_true hb
    · exact ⟨hi, i - 8 * m, hb, by omega⟩
  · rintro ⟨hi, j, hb, hf⟩
    by_cases hji : i ≤ j
    · refine Or.inl ⟨(j - i) / 8, ?_⟩
      rw [show i + 8 * ((j - i) / 8) = j by omega]
      exact hb
    · refine Or.inr ⟨hi, (i - j) / 8, by omega, ?_⟩
      rw [show i - 8 * ((i - j) / 8) = j by omega]
      exact hb

/-! ### The squares attacked by the pawns -/

theorem lt64_of_testBit_true {x : Nat} (hx : x < 2 ^ 64) {j : Nat} (h : x.testBit j = true) :
    j < 64 := by
  by_contra hj
  rw [testBit_of_lt64 hx (show 64 ≤ j by omega)] at h
  exact Bool.false_ne_true h

theorem testBit_and_not_A_FILE (x : Nat) (hx : x < 2 ^ 64) (n : Nat) :
    (x &&& not64 A_FILE).testBit n = true ↔ x.testBit n = true ∧ n % 8 ≠ 0 := by
  rw [Nat.testBit_and, testBit_not64, testBit_A_FILE, Bool.and_eq_true]
  constructor
  · rintro ⟨h1, h2⟩
    have hn := lt64_of_testBit_true hx h1
    refine ⟨h1, ?_⟩
    intro h0
    simp [hn, h0] at h2
  · rintro ⟨h1, h2⟩
    have hn := lt64_of_testBit_true hx h1
    refine ⟨h1, ?_⟩
    simp [hn, h2]

theorem testBit_and_not_H_FILE (x : Nat) (hx : x < 2 ^ 64) (n : Nat) :
    (x &&& not64 H_FILE).testBit n = true ↔ x.testBit n = true ∧ n % 8 ≠ 7 := by
  rw [Nat.testBit_and, testBit_not64, testBit_H_FILE, Bool.and_eq_true]
  constructor
  · rintro ⟨h1, h2⟩
    have hn := lt64_of_testBit_true hx h1
    refine ⟨h1, ?_⟩
    intro h0
    simp [hn, h0] at h2
  · rintro ⟨h1, h2⟩
    have hn := lt64_of_testBit_true hx h1
    refine ⟨h1, ?_⟩
    simp [hn, h2]

/-- The square `s` is in `white_pawn_protection_squares` exactly when a white pawn stands one
row below `s` on a file next to the file of `s`. -/
theorem testBit_white_pawn_protection_squares (position : Position) (hwf : position.wf)
    (s : Nat) :
    (white_pawn_protection_squares position).testBit s = true ↔
      s < 64 ∧ ∃ j, (position.p WHITE PAWN).testBit j = true ∧ j / 8 + 1 = s / 8
        ∧ (j % 8 = s % 8 + 1 ∨ j % 8 + 1 = s % 8) := by
  unfold white_pawn_protection_squares
  rw [Nat.testBit_or, Bool.or_eq_true, testBit_shl64, testBit_shl64, Bool.and_eq_true,
    Bool.and_eq_true, Bool.and_eq_true, Bool.and_eq_true, decide_eq_true_eq, decide_eq_true_eq,
    decide_eq_true_eq, testBit_and_not_A_FILE _ (hwf WHITE PAWN),
    testBit_and_not_H_FILE _ (hwf WHITE PAWN)]
  constructor
  · rintro (⟨hs, h7, hb, hf⟩ | ⟨hs, h9, hb, hf⟩)
    · exact ⟨hs, s - 7, hb, by omega, by omega⟩
    · exact ⟨hs, s - 9, hb, by omega, by omega⟩
  · rintro ⟨hs, j, hb, hr, hf | hf⟩
    · refine Or.inl ⟨hs, by omega, ?_, by omega⟩
      rw [show s - 7 = j by omega]
      exact hb
    · refine Or.inr ⟨hs, by omega, ?_, by omega⟩
      rw [show s - 9 = j by omega]
      exact hb

/-- The square `s` is in `black_pawn_protection_squares` exactly when a black pawn stands one
row above `s` on a file next to the file of `s`. -/
theorem testBit_black_pawn_protection_squares (position : Position) (hwf : position.wf)
    (s : Nat) :
    (black_pawn_protection_squares position).testBit s = true ↔
      ∃ j, (position.p BLACK PAWN).testBit j = true ∧ j / 8 = s / 8 + 1
        ∧ (j % 8 = s % 8 + 1 ∨ j % 8 + 1 = s % 8) := by
  unfold black_pawn_protection_squares
  rw [Nat.testBit_or, Bool.or_eq_true, Nat.testBit_shiftRight, Nat.testBit_shiftRight,
    testBit_and_not_A_FILE _ (hwf BLACK PAWN), testBit_and_not_H_FILE _ (hwf BLACK PAWN)]
  constructor
  · rintro (⟨hb, hf⟩ | ⟨hb, hf⟩)
    · exact ⟨9 + s, hb, by omega, by omega⟩
    · exact ⟨7 + s, hb, by omega, by omega⟩
  · rintro ⟨j, hb, hr, hf | hf⟩
    · refine Or.inl ⟨?_, by omega⟩
      rw [show 9 + s = j by omega]
      exact hb
    · refine Or.inr ⟨?_, by omega⟩
      rw [show 7 + s = j by omega]
      exact hb

/-! ### Passed, backward and isolated pawns -/

/-- The square `i` is in `black_pawn_blocking_squares` exactly when a black pawn stands on the
file of `i` or a neighbouring file at a row strictly greater than the row of `i`. -/
theorem testBit_black_pawn_blocking_squares (position : Position) (hwf : position.wf)
    (i : Nat) :
    (black_pawn_blocking_squares position).testBit i = true ↔
      ∃ j, (position.p BLACK PAWN).testBit j = true ∧ i / 8 < j / 8
        ∧ j % 8 ≤ i % 8 + 1 ∧ i % 8 ≤ j % 8 + 1 := by
  unfold black_pawn_blocking_squares
  rw [testBit_south_fill _
    (lt64_or (lt64_shr _ (hwf BLACK PAWN)) (lt64_black_pawn_protection_squares position hwf))]
  constructor
  · rintro ⟨m, h⟩
    rw [Nat.testBit_or, Bool.or_eq_true, Nat.testBit_shiftRight,
      testBit_black_pawn_protection_squares position hwf] at h
    rcases h with h | ⟨j, hb, hr, hf⟩
    · exact ⟨8 + (i + 8 * m), h, by omega, by omega, by omega⟩
    · exact ⟨j, hb, by omega, by omega, by omega⟩
  · rintro ⟨j, hb, hr, h1, h2⟩
    refine ⟨j / 8 - i / 8 - 1, ?_⟩
    rw [Nat.testBit_or, Bool.or_eq_true, Nat.testBit_shiftRight,
      testBit_black_pawn_protection_squares position hwf]
    by_cases hf : j % 8 = i % 8
    · left
      rw [show 8 + (i + 8 * (j / 8 - i / 8 - 1)) = j by omega]
      exact hb
    · right
      exact ⟨j, hb, by omega, by omega⟩

/-- The square `i` is in `white_pawn_blocking_squares` exactly when a white pawn stands on the
file of `i` or a neighbouring file at a row strictly smaller than the row of `i`. -/
theorem testBit_white_pawn_blocking_squares (position : Position) (hwf : position.wf)
    (i : Nat) :
    (white_pawn_blocking_squares position).testBit i = true ↔
      i < 64 ∧ ∃ j, (position.p WHITE PAWN).testBit j = true ∧ j / 8 < i / 8
        ∧ j % 8 ≤ i % 8 + 1 ∧ i % 8 ≤ j % 8 + 1 := by
  unfold white_pawn_blocking_squares
  rw [testBit_north_fill _
    (lt64_or (lt64_shl64 _ _) (lt64_white_pawn_protection_squares position))]
  constructor
  · rintro ⟨hi, m, h8, h⟩
    rw [Nat.testBit_or, Bool.or_eq_true, testBit_shl64,
      testBit_white_pawn_protection_squares position hwf] at h
    refine ⟨hi, ?_⟩
    rcases h with h | ⟨_, j, hb, hr, hf⟩
    · simp only [Bool.and_eq_true, decide_eq_true_eq] at h
      exact ⟨i - 8 * m - 8, h.2.2, by omega, by omega, by omega⟩
    · exact ⟨j, hb, by omega, by omega, by omega⟩
  · rintro ⟨hi, j, hb, hr, h1, h2⟩
    refine ⟨hi, i / 8 - j / 8 - 1, by omega, ?_⟩
    rw [Nat.testBit_or, Bool.or_eq_true, testBit_shl64,
      testBit_white_pawn_protection_squares position hwf]
    by_cases hf : j % 8 = i % 8
    · left
      simp only [Bool.and_eq_true, decide_eq_true_eq]
      refine ⟨by omega, by omega, ?_⟩
      rw [show i - 8 * (i / 8 - j / 8 - 1) - 8 = j by omega]
      exact hb
    · right
      exact ⟨by omega, j, hb, by omega, by omega⟩

theorem testBit_not64_and (x y i : Nat) (hy : y.testBit i = true) (hi : i < 64) :
    (not64 x &&& y).testBit i = true ↔ ¬ x.testBit i = true := by
  rw [Nat.testBit_and, testBit_not64, hy]
  simp [hi]

/-- C13: passed-pawn detection.  A white pawn on the square `i` (row `i / 8`, file `i % 8`) is in
`white_passed_pawns` if and only if no black pawn stands on its file or a neighbouring file at a
strictly greater row; a black pawn on `i` is in `black_passed_pawns` if and only if no white
pawn stands on its file or a neighbouring file at a strictly smaller row. -/
theorem passed_pawns_iff (position : Position) (hwf : position.wf) :
    (∀ i, (position.p WHITE PAWN).testBit i = true →
        ((white_passed_pawns position).testBit i = true ↔
          ¬ ∃ j, (position.p BLACK PAWN).testBit j = true ∧ i / 8 < j / 8
            ∧ j % 8 ≤ i % 8 + 1 ∧ i % 8 ≤ j % 8 + 1))
      ∧ (∀ i, (position.p BLACK PAWN).testBit i = true →
        ((black_passed_pawns position).testBit i = true ↔
          ¬ ∃ j, (position.p WHITE PAWN).testBit j = true ∧ j / 8 < i / 8
            ∧ j % 8 ≤ i % 8 + 1 ∧ i % 8 ≤ j % 8 + 1)) := by
  constructor
  · intro i hb
    have hi := lt64_of_testBit_true (hwf WHITE PAWN) hb
    unfold white_passed_pawns
    rw [testBit_not64_and _ _ _ hb hi, testBit_black_pawn_blocking_squares position hwf]
  · intro i hb
    have hi := lt64_of_testBit_true (hwf BLACK PAWN) hb
    unfold black_passed_pawns
    rw [testBit_not64_and _ _ _ hb hi, testBit_white_pawn_blocking_squares position hwf]
    simp [hi]

/-- The square `s` is in the north fill of the squares attacked by white pawns exactly when a
white pawn stands on a file next to the file of `s` at a strictly smaller row. -/
theorem testBit_north_fill_white_pawn_protection (position : Position) (hwf : position.wf)
    (s : Nat) :
    (north_fill (white_pawn_protection_squares position)).testBit s = true ↔
      s < 64 ∧ ∃ j, (position.p WHITE PAWN).testBit j = true ∧ j / 8 < s / 8
        ∧ (j % 8 = s % 8 + 1 ∨ j % 8 + 1 = s % 8) := by
  rw [testBit_north_fill _ (lt64_white_pawn_protection_squares position)]
  constructor
  · rintro ⟨hs, m, h8, h⟩
    rw [testBit_white_pawn_protection_squares position hwf] at h
    obtain ⟨_, j, hb, hr, hf⟩ := h
    exact ⟨hs, j, hb, by omega, by omega⟩
  · rintro ⟨hs, j, hb, hr, hf⟩
    refine ⟨hs, s / 8 - j / 8 - 1, by omega, ?_⟩
    rw [testBit_white_pawn_protection_squares position hwf]
    exact ⟨by omega, j, hb, by omega, by omega⟩

/-- The square `s` is in the south fill of the squares attacked by black pawns exactly when a
black pawn stands on a file next to the file of `s` at a strictly greater row. -/
theorem testBit_south_fill_black_pawn_protection (position : Position) (hwf : position.wf)
    (s : Nat) :
    (south_fill (black_pawn_protection_squares position)).testBit s = true ↔
      ∃ j, (position.p BLACK PAWN).testBit j = true ∧ s / 8 < j / 8
        ∧ (j % 8 = s % 8 + 1 ∨ j % 8 + 1 = s % 8) := by
  rw [testBit_south_fill _ (lt64_black_pawn_protection_squares position hwf)]
  constructor
  · rintro ⟨m, h⟩
    rw [testBit_black_pawn_protection_squares position hwf] at h
    obtain ⟨j, hb, hr, hf⟩ := h
    exact ⟨j, hb, by omega, by omega⟩
  · rintro ⟨j, hb, hr, hf⟩
    refine ⟨j / 8 - s / 8 - 1, ?_⟩
    rw [testBit_black_pawn_protection_squares position hwf]
    exact ⟨j, hb, by omega, by omega⟩

/-- C16 at the failing inputs.  With a white pawn on e2 (square 12) and a black pawn on f5
(square 37) the pawn on e2 is in `white_backward_pawns`, the only pawn flagged, although its
advance square e3 (square 20) is not attacked by a black pawn: the square attacked is e4, two
rows ahead, and the south fill carries it down the file.  On the same board the black pawn on
f5 is in `black_backward_pawns` although its advance square f4 (square 29) is not attacked by
a white pawn.  With the white pawn on e4 (square 28) instead, the pawn stands on the attacked
square itself and is flagged, although its advance square e5 (square 36) is not attacked. -/
theorem white_backward_pawns_not_advance_square :
    ((pawn_e2_against_f5.p WHITE PAWN).testBit 12 = true
        ∧ (white_backward_pawns pawn_e2_against_f5).testBit 12 = true
        ∧ pop_count (white_backward_pawns pawn_e2_against_f5) = 1
        ∧ (black_pawn_protection_squares pawn_e2_against_f5).testBit (12 + 8) = false
        ∧ (black_pawn_protection_squares pawn_e2_against_f5).testBit (12 + 16) = true)
      ∧ ((pawn_e2_against_f5.p BLACK PAWN).testBit 37 = true
        ∧ (black_backward_pawns pawn_e2_against_f5).testBit 37 = true
        ∧ (white_pawn_protection_squares pawn_e2_against_f5).testBit (37 - 8) = false)
      ∧ ((pawn_e4_against_f5.p WHITE PAWN).testBit 28 = true
        ∧ (white_backward_pawns pawn_e4_against_f5).testBit 28 = true
        ∧ (black_pawn_protection_squares pawn_e4_against_f5).testBit (28 + 8) = false
        ∧ (black_pawn_protection_squares pawn_e4_against_f5).testBit 28 = true) := by
  decide

/-- What the backward-pawn expressions of `evaluate` compute.  A white pawn on the square `i` is
in `white_backward_pawns` if and only if some square `s` of its file at its own row or ahead of it
is attacked by a black pawn (a black pawn one row above `s` on a neighbouring file) and is not
defensible by a white pawn (no white pawn on a neighbouring file at a row below `s`); a black
pawn on `i` is in `black_backward_pawns` if and only if some square `s` of its file at its own
row or below it is attacked by a white pawn and no black pawn stands on a neighbouring file at
a row above `s`. -/
theorem backward_pawns_iff (position : Position) (hwf : position.wf) :
    (∀ i, (position.p WHITE PAWN).testBit i = true →
        ((white_backward_pawns position).testBit i = true ↔
          ∃ s, s < 64 ∧ s % 8 = i % 8 ∧ i / 8 ≤ s / 8
            ∧ (∃ j, (position.p BLACK PAWN).testBit j = true ∧ j / 8 = s / 8 + 1
              ∧ (j % 8 = s % 8 + 1 ∨ j % 8 + 1 = s % 8))
            ∧ ¬ ∃ j, (position.p WHITE PAWN).testBit j = true ∧ j / 8 < s / 8
              ∧ (j % 8 = s % 8 + 1 ∨ j % 8 + 1 = s % 8)))
      ∧ (∀ i, (position.p BLACK PAWN).testBit i = true →
        ((black_backward_pawns position).testBit i = true ↔
          ∃ s, s < 64 ∧ s % 8 = i % 8 ∧ s / 8 ≤ i / 8
            ∧ (∃ j, (position.p WHITE PAWN).testBit j = true ∧ j / 8 + 1 = s / 8
              ∧ (j % 8 = s % 8 + 1 ∨ j % 8 + 1 = s % 8))
            ∧ ¬ ∃ j, (position.p BLACK PAWN).testBit j = true ∧ s / 8 < j / 8
              ∧ (j % 8 = s % 8 + 1 ∨ j % 8 + 1 = s % 8))) := by
  have hstopb : ∀ s, (black_dominated_stop_squares position).testBit s = true ↔
      (∃ j, (position.p BLACK PAWN).testBit j = true ∧ j / 8 = s / 8 + 1
          ∧ (j % 8 = s % 8 + 1 ∨ j % 8 + 1 = s % 8))
        ∧ ¬ ∃ j, (position.p WHITE PAWN).testBit j = true ∧ j / 8 < s / 8
          ∧ (j % 8 = s % 8 + 1 ∨ j % 8 + 1 = s % 8) := by
    intro s
    unfold black_dominated_stop_squares
    constructor
    · intro h
      have hb : (black_pawn_protection_squares position).testBit s = true := by
        rw [Nat.testBit_and, Bool.and_eq_true] at h
        exact h.2
      have hs := lt64_of_testBit_true (lt64_black_pawn_protection_squares position hwf) hb
      rw [testBit_not64_and _ _ _ hb hs,
        testBit_north_fill_white_pawn_protection position hwf] at h
      refine ⟨(testBit_black_pawn_protection_squares position hwf s).mp hb, ?_⟩
      intro h'
      exact h ⟨hs, h'⟩
    · rintro ⟨hb, hn⟩
      have hb' := (testBit_black_pawn_protection_squares position hwf s).mpr hb
      have hs := lt64_of_testBit_true (lt64_black_pawn_protection_squares position hwf) hb'
      rw [testBit_not64_and _ _ _ hb' hs,
        testBit_north_fill_white_pawn_protection position hwf]
      intro h'
      exact hn h'.2
  have hstopw : ∀ s, (white_dominated_stop_squares position).testBit s = true ↔
      s < 64 ∧ (∃ j, (position.p WHITE PAWN).testBit j = true ∧ j / 8 + 1 = s / 8
          ∧ (j % 8 = s % 8 + 1 ∨ j % 8 + 1 = s % 8))
        ∧ ¬ ∃ j, (position.p BLACK PAWN).testBit j = true ∧ s / 8 < j / 8
          ∧ (j % 8 = s % 8 + 1 ∨ j % 8 + 1 = s % 8) := by
    intro s
    unfold white_dominated_stop_squares
    constructor
    · intro h
      have hb : (white_pawn_protection_squares position).testBit s = true := by
        rw [Nat.testBit_and, Bool.and_eq_true] at h
        exact h.2
      have hs := lt64_of_testBit_true (lt64_white_pawn_protection_squares position) hb
      rw [testBit_not64_and _ _ _ hb hs,
        testBit_south_fill_black_pawn_protection position hwf] at h
      exact ⟨hs, ((testBit_white_pawn_protection_squares position hwf s).mp hb).2, h⟩
    · rintro ⟨hs, hb, hn⟩
      have hb' := (testBit_white_pawn_protection_squares position hwf s).mpr ⟨hs, hb⟩
      rw [testBit_not64_and _ _ _ hb' hs,
        testBit_south_fill_black_pawn_protection position hwf]
      exact hn
  constructor
  · intro i hb
    have hbd : black_dominated_stop_squares position < 2 ^ 64 :=
      lt64_and_right _ (lt64_black_pawn_protection_squares position hwf)
    unfold white_backward_pawns
    rw [Nat.testBit_and, hb, Bool.and_true, testBit_south_fill _ hbd]
    constructor
    · rintro ⟨m, h⟩
      have hs := lt64_of_testBit_true hbd h
      rw [hstopb] at h
      exact ⟨i + 8 * m, hs, by omega, by omega, h.1, h.2⟩
    · rintro ⟨s, hs, hf, hr, h1, h2⟩
      refine ⟨s / 8 - i / 8, ?_⟩
      rw [show i + 8 * (s / 8 - i / 8) = s by omega, hstopb]
      exact ⟨h1, h2⟩
  · intro i hb
    have hi := lt64_of_testBit_true (hwf BLACK PAWN) hb
    have hwd : white_dominated_stop_squares position < 2 ^ 64 :=
      lt64_and_right _ (lt64_white_pawn_protection_squares position)
    unfold black_backward_pawns
    rw [Nat.testBit_and, hb, Bool.and_true, testBit_north_fill _ hwd]
    constructor
    · rintro ⟨_, m, h8, h⟩
      rw [hstopw] at h
      exact ⟨i - 8 * m, h.1, by omega, by omega, h.2.1, h.2.2⟩
    · rintro ⟨s, hs, hf, hr, h1, h2⟩
      refine ⟨hi, i / 8 - s / 8, by omega, ?_⟩
      rw [show i - 8 * (i / 8 - s / 8) = s by omega, hstopw]
      exact ⟨hs, h1, h2⟩

/-- C18: isolated-pawn detection.  With the white pawns on rows 1..6 only, a white pawn on the
square `i` (file `i % 8`) is in `white_isolated_pawns` if and only if no white pawn stands
anywhere on a neighbouring file; likewise for the black pawns and `black_isolated_pawns`. -/
theorem isolated_pawns_iff (position : Position) (hwf : position.wf) :
    ((∀ j, (position.p WHITE PAWN).testBit j = true → 8 ≤ j ∧ j < 56) →
        ∀ i, (position.p WHITE PAWN).testBit i = true →
          ((white_isolated_pawns position).testBit i = true ↔
            ¬ ∃ j, (position.p WHITE PAWN).testBit j = true
              ∧ (j % 8 = i % 8 + 1 ∨ j % 8 + 1 = i % 8)))
      ∧ ((∀ j, (position.p BLACK PAWN).testBit j = true → 8 ≤ j ∧ j < 56) →
        ∀ i, (position.p BLACK PAWN).testBit i = true →
          ((black_isolated_pawns position).testBit i = true ↔
            ¬ ∃ j, (position.p BLACK PAWN).testBit j = true
              ∧ (j % 8 = i % 8 + 1 ∨ j % 8 + 1 = i % 8))) := by
  constructor
  · intro hrows i hb
    have hi := lt64_of_testBit_true (hwf WHITE PAWN) hb
    unfold white_isolated_pawns
    rw [Nat.land_comm, testBit_not64_and _ _ _ hb hi,
      testBit_file_fill _ (lt64_white_pawn_protection_squares position)]
    apply not_congr
    constructor
    · rintro ⟨_, s, h, hf⟩
      rw [testBit_white_pawn_protection_squares position hwf] at h
      obtain ⟨_, j, hj, _, hadj⟩ := h
      exact ⟨j, hj, by omega⟩
    · rintro ⟨j, hj, hadj⟩
      have hr := hrows j hj
      refine ⟨hi, 8 * (j / 8 + 1) + i % 8, ?_, by omega⟩
      rw [testBit_white_pawn_protection_squares position hwf]
      exact ⟨by omega, j, hj, by omega, by omega⟩
  · intro hrows i hb
    have hi := lt64_of_testBit_true (hwf BLACK PAWN) hb
    unfold black_isolated_pawns
    rw [Nat.land_comm, testBit_not64_and _ _ _ hb hi,
      testBit_file_fill _ (lt64_black_pawn_protection_squares position hwf)]
    apply not_congr
    constructor
    · rintro ⟨_, s, h, hf⟩
      rw [testBit_black_pawn_protection_squares position hwf] at h
      obtain ⟨j, hj, _, hadj⟩ := h
      exact ⟨j, hj, by omega⟩
    · rintro ⟨j, hj, hadj⟩
      have hr := hrows j hj
      refine ⟨hi, 8 * (j / 8 - 1) + i % 8, ?_, by omega⟩
      rw [testBit_black_pawn_protection_squares position hwf]
      exact ⟨j, hj, by omega, by omega⟩

/-! ### Claim C17: the doubled-pawn count -/

theorem card_filter_exists_lt (T : Finset Nat) :
    (T.filter (fun i => ∃ j ∈ T, j < i)).card = T.card - 1 := by
  by_cases hT : T.Nonempty
  · have h : T.filter (fun i => ∃ j ∈ T, j < i) = T.erase (T.min' hT) := by
      ext i
      simp only [Finset.mem_filter, Finset.mem_erase]
      constructor
      · rintro ⟨hi, j, hj, hlt⟩
        refine ⟨?_, hi⟩
        have := Finset.min'_le T j hj
        omega
      · rintro ⟨hne, hi⟩
        refine ⟨hi, T.min' hT, Finset.min'_mem T hT, ?_⟩
        have := Finset.min'_le T i hi
        omega
    rw [h, Finset.card_erase_of_mem (Finset.min'_mem T hT)]
  · rw [Finset.not_nonempty_iff_eq_empty] at hT
    subst hT
    simp

theorem card_filter_exists_gt (T : Finset Nat) :
    (T.filter (fun i => ∃ j ∈ T, i < j)).card = T.card - 1 := by
  by_cases hT : T.Nonempty
  · have h : T.filter (fun i => ∃ j ∈ T, i < j) = T.erase (T.max' hT) := by
      ext i
      simp only [Finset.mem_filter, Finset.mem_erase]
      constructor
      · rintro ⟨hi, j, hj, hlt⟩
        refine ⟨?_, hi⟩
        have := Finset.le_max' T j hj
        omega
      · rintro ⟨hne, hi⟩
        refine ⟨hi, T.max' hT, Finset.max'_mem T hT, ?_⟩
        have := Finset.le_max' T i hi
        omega
    rw [h, Finset.card_erase_of_mem (Finset.max'_mem T hT)]
  · rw [Finset.not_nonempty_iff_eq_empty] at hT
    subst hT
    simp

/-- The squares of a set that have another square of the set below them on their file number,
file by file, one less than the squares of the file. -/
theorem card_same_file_below (S : Finset Nat) :
    (S.filter (fun i => ∃ j ∈ S, j % 8 = i % 8 ∧ j < i)).card
      = ∑ f in Finset.range 8, ((S.filter (fun i => i % 8 = f)).card - 1) := by
  rw [Finset.card_eq_sum_card_fiberwise (f := fun i => i % 8) (t := Finset.range 8)
    (fun i _ => Finset.mem_range.mpr (Nat.mod_lt i (by decide)))]
  apply Finset.sum_congr rfl
  intro f _
  rw [← card_filter_exists_lt]
  congr 1
  ext i
  simp only [Finset.mem_filter]
  constructor
  · rintro ⟨⟨hi, j, hj, hf, hlt⟩, hif⟩
    exact ⟨⟨hi, hif⟩, j, ⟨hj, by omega⟩, hlt⟩
  · rintro ⟨⟨hi, hif⟩, j, ⟨hj, hjf⟩, hlt⟩
    exact ⟨⟨hi, j, hj, by omega, hlt⟩, hif⟩

/-- The squares of a set that have another square of the set above them on their file number,
file by file, one less than the squares of the file. -/
theorem card_same_file_above (S : Finset Nat) :
    (S.filter (fun i => ∃ j ∈ S, j % 8 = i % 8 ∧ i < j)).card
      = ∑ f in Finset.range 8, ((S.filter (fun i => i % 8 = f)).card - 1) := by
  rw [Finset.card_eq_sum_card_fiberwise (f := fun i => i % 8) (t := Finset.range 8)
    (fun i _ => Finset.mem_range.mpr (Nat.mod_lt i (by decide)))]
  apply Finset.sum_congr rfl
  intro f _
  rw [← card_filter_exists_gt]
  congr 1
  ext i
  simp only [Finset.mem_filter]
  constructor
  · rintro ⟨⟨hi, j, hj, hf, hlt⟩, hif⟩
    exact ⟨⟨hi, hif⟩, j, ⟨hj, by omega⟩, hlt⟩
  · rintro ⟨⟨hi, hif⟩, j, ⟨hj, hjf⟩, hlt⟩
    exact ⟨⟨hi, j, hj, by omega, hlt⟩, hif⟩

/-- The white pawns in `white_doubled_pawns` are those with a white pawn below them on their
file. -/
theorem squares_white_doubled_pawns (position : Position) :
    squares (white_doubled_pawns position)
      = (squares (position.p WHITE PAWN)).filter
          (fun i => ∃ j ∈ squares (position.p WHITE PAWN), j % 8 = i % 8 ∧ j < i) := by
  ext i
  simp only [squares, Finset.mem_filter, Finset.mem_range]
  unfold white_doubled_pawns white_double_pawn_mask
  rw [Nat.testBit_and, Bool.and_eq_true, testBit_north_fill _ (lt64_shl64 _ _)]
  constructor
  · rintro ⟨hi, ⟨_, m, h8, h⟩, hb⟩
    rw [testBit_shl64] at h
    simp only [Bool.and_eq_true, decide_eq_true_eq] at h
    exact ⟨⟨hi, hb⟩, i - 8 * m - 8, ⟨by omega, h.2.2⟩, by omega, by omega⟩
  · rintro ⟨⟨hi, hb⟩, j, ⟨hj, hjb⟩, hf, hlt⟩
    refine ⟨hi, ⟨hi, (i - j) / 8 - 1, by omega, ?_⟩, hb⟩
    rw [testBit_shl64]
    simp only [Bool.and_eq_true, decide_eq_true_eq]
    refine ⟨by omega, by omega, ?_⟩
    rw [show i - 8 * ((i - j) / 8 - 1) - 8 = j by omega]
    exact hjb

/-- The black pawns in `black_doubled_pawns` are those with a black pawn above them on their
file. -/
theorem squares_black_doubled_pawns (position : Position) (hwf : position.wf) :
    squares (black_doubled_pawns position)
      = (squares (position.p BLACK PAWN)).filter
          (fun i => ∃ j ∈ squares (position.p BLACK PAWN), j % 8 = i % 8 ∧ i < j) := by
  ext i
  simp only [squares, Finset.mem_filter, Finset.mem_range]
  unfold black_doubled_pawns black_double_pawn_mask
  rw [Nat.testBit_and, Bool.and_eq_true, testBit_south_fill _ (lt64_shr _ (hwf BLACK PAWN))]
  constructor
  · rintro ⟨hi, ⟨m, h⟩, hb⟩
    rw [Nat.testBit_shiftRight] at h
    exact ⟨⟨hi, hb⟩, 8 + (i + 8 * m),
      ⟨lt64_of_testBit_true (hwf BLACK PAWN) h, h⟩, by omega, by omega⟩
  · rintro ⟨⟨hi, hb⟩, j, ⟨hj, hjb⟩, hf, hlt⟩
    refine ⟨hi, ⟨(j - i) / 8 - 1, ?_⟩, hb⟩
    rw [Nat.testBit_shiftRight, show 8 + (i + 8 * ((j - i) / 8 - 1)) = j by omega]
    exact hjb

/-- For each side the number of pawns in the doubled-pawn set equals the number of that side's
pawns with another pawn of the side ahead of them on their file, and the sum over the eight
files of the number of pawns on the file minus one, cut off at zero. -/
theorem doubled_pawn_count_eq (position : Position) (hwf : position.wf) :
    (pop_count (white_doubled_pawns position)
        = (((squares (position.p WHITE PAWN)).filter
            (fun i => ∃ j ∈ squares (position.p WHITE PAWN), j % 8 = i % 8 ∧ i < j)).card : Int)
      ∧ pop_count (white_doubled_pawns position)
        = ((∑ f in Finset.range 8,
            (((squares (position.p WHITE PAWN)).filter (fun i => i % 8 = f)).card - 1) : Nat)
            : Int))
    ∧ (pop_count (black_doubled_pawns position)
        = (((squares (position.p BLACK PAWN)).filter
            (fun i => ∃ j ∈ squares (position.p BLACK PAWN), j % 8 = i % 8 ∧ j < i)).card : Int)
      ∧ pop_count (black_doubled_pawns position)
        = ((∑ f in Finset.range 8,
            (((squares (position.p BLACK PAWN)).filter (fun i => i % 8 = f)).card - 1) : Nat)
            : Int)) := by
  rw [pop_count_eq_card, pop_count_eq_card, squares_white_doubled_pawns position,
    squares_black_doubled_pawns position hwf, card_same_file_below, card_same_file_above,
    card_same_file_below, card_same_file_above]
  exact ⟨⟨rfl, rfl⟩, rfl, rfl⟩

theorem white_total_doubled_pawn_penalty (env : EvalParams) (t : Tables) (position : Position)
    (w b : Nat) (d : Int) :
    white_total { env with DOUBLED_PAWN_PENALTY := d } t position w b
      = white_total { env with DOUBLED_PAWN_PENALTY := 0 } t position w b
        - pop_count (white_doubled_pawns position) * d := by
  simp only [white_total, king_safety_penalty, white_bishop_sum, white_rook_sum,
    white_proximity_sum]
  ring

theorem black_total_doubled_pawn_penalty (env : EvalParams) (t : Tables) (position : Position)
    (w b : Nat) (d : Int) :
    black_total { env with DOUBLED_PAWN_PENALTY := d } t position w b
      = black_total { env with DOUBLED_PAWN_PENALTY := 0 } t position w b
        - pop_count (black_doubled_pawns position) * d := by
  simp only [black_total, black_king_safety_penalty, black_bishop_sum, black_rook_sum,
    black_proximity_sum]
  ring

/-- Past its guards, `evaluate` with the doubled-pawn penalty `d` is `evaluate` with the penalty
0, less `d` for every doubled white pawn and plus `d` for every doubled black pawn. -/
theorem evaluate_doubled_pawn_penalty (env : EvalParams) (t : Tables) (position : Position)
    (hwf : position.wf)
    (hbk : position.p BLACK KING ≠ 0) (hwk : position.p WHITE KING ≠ 0)
    (hdraw : ¬ (total_material position ≤ 300
      ∧ (position.p WHITE PAWN ||| position.p BLACK PAWN) = 0))
    (hw : lsb_to_square (position.p WHITE KING) + 7 < 64)
    (hk : 9 ≤ lsb_to_square (position.p BLACK KING)) (d : Int) :
    ∃ v, evaluate { env with DOUBLED_PAWN_PENALTY := 0 } t position = some v
      ∧ evaluate { env with DOUBLED_PAWN_PENALTY := d } t position
        = some (v - pop_count (white_doubled_pawns position) * d
            + pop_count (black_doubled_pawns position) * d) := by
  refine ⟨_, evaluate_eq _ t position hwf hbk hwk hdraw hw hk, ?_⟩
  rw [evaluate_eq _ t position hwf hbk hwk hdraw hw hk, white_total_doubled_pawn_penalty,
    black_total_doubled_pawn_penalty]
  congr 1
  ring

/-- C17: doubled-pawn count.  For each side, the number of pawns `evaluate` penalises as doubled,
`pop_count(double_pawn_mask & pawns)`, equals the number of that side's pawns that have another
pawn of the side ahead of them on their file (a greater row for white, a smaller row for
black), and equals the sum over the eight files of the number of pawns on the file minus one,
cut off at zero.  The penalty is `DOUBLED_PAWN_PENALTY` times that count: on a board that
passes the guards of `evaluate`, the score with the penalty `d` is the score with the penalty 0
less `d` times the white count plus `d` times the black count. -/
theorem doubled_pawn_count (position : Position) (hwf : position.wf) :
    (pop_count (white_doubled_pawns position)
        = (((squares (position.p WHITE PAWN)).filter
            (fun i => ∃ j ∈ squares (position.p WHITE PAWN), j % 8 = i % 8 ∧ i < j)).card : Int)
      ∧ pop_count (white_doubled_pawns position)
        = ((∑ f in Finset.range 8,
            (((squares (position.p WHITE PAWN)).filter (fun i => i % 8 = f)).card - 1) : Nat)
            : Int))
    ∧ (pop_count (black_doubled_pawns position)
        = (((squares (position.p BLACK PAWN)).filter
            (fun i => ∃ j ∈ squares (position.p BLACK PAWN), j % 8 = i % 8 ∧ j < i)).card : Int)
      ∧ pop_count (black_doubled_pawns position)
        = ((∑ f in Finset.range 8,
            (((squares (position.p BLACK PAWN)).filter (fun i => i % 8 = f)).card - 1) : Nat)
            : Int))
    ∧ ∀ (env : EvalParams) (t : Tables) (d : Int),
        position.p BLACK KING ≠ 0 → position.p WHITE KING ≠ 0 →
        ¬ (total_material position ≤ 300
          ∧ (position.p WHITE PAWN ||| position.p BLACK PAWN) = 0) →
        lsb_to_square (position.p WHITE KING) + 7 < 64 →
        9 ≤ lsb_to_square (position.p BLACK KING) →
        ∃ v, evaluate { env with DOUBLED_PAWN_PENALTY := 0 } t position = some v
          ∧ evaluate { env with DOUBLED_PAWN_PENALTY := d } t position
            = some (v - pop_count (white_doubled_pawns position) * d
                + pop_count (black_doubled_pawns position) * d) :=
  ⟨(doubled_pawn_count_eq position hwf).1, (doubled_pawn_count_eq position hwf).2,
    fun env t d hbk hwk hdraw hw hk =>
      evaluate_doubled_pawn_penalty env t position hwf hbk hwk hdraw hw hk d⟩

/-! ### Witnesses of the pawn-structure claims -/

theorem eq_of_testBit_two_pow {k j : Nat} (h : (2 ^ k).testBit j = true) : j = k := by
  rw [Nat.testBit_two_pow] at h
  exact (of_decide_eq_true h).symm

/-- Witness of C13: with a white pawn on e2 (square 12) and a black pawn on f5 (square 37). -/
theorem passed_pawns_iff_witness :
    ((white_passed_pawns pawn_e2_against_f5).testBit 12 = true ↔
        ¬ ∃ j, (pawn_e2_against_f5.p BLACK PAWN).testBit j = true ∧ 12 / 8 < j / 8
          ∧ j % 8 ≤ 12 % 8 + 1 ∧ 12 % 8 ≤ j % 8 + 1)
      ∧ ((black_passed_pawns pawn_e2_against_f5).testBit 37 = true ↔
        ¬ ∃ j, (pawn_e2_against_f5.p WHITE PAWN).testBit j = true ∧ j / 8 < 37 / 8
          ∧ j % 8 ≤ 37 % 8 + 1 ∧ 37 % 8 ≤ j % 8 + 1) :=
  ⟨(passed_pawns_iff pawn_e2_against_f5 (wf_of_wfb _ (by decide))).1 12 (by decide),
    (passed_pawns_iff pawn_e2_against_f5 (wf_of_wfb _ (by decide))).2 37 (by decide)⟩

/-- An instance of `backward_pawns_iff`: a white pawn on e2 (square 12) and a black pawn on f5
(square 37). -/
theorem backward_pawns_iff_witness :
    ((white_backward_pawns pawn_e2_against_f5).testBit 12 = true ↔
        ∃ s, s < 64 ∧ s % 8 = 12 % 8 ∧ 12 / 8 ≤ s / 8
          ∧ (∃ j, (pawn_e2_against_f5.p BLACK PAWN).testBit j = true ∧ j / 8 = s / 8 + 1
            ∧ (j % 8 = s % 8 + 1 ∨ j % 8 + 1 = s % 8))
          ∧ ¬ ∃ j, (pawn_e2_against_f5.p WHITE PAWN).testBit j = true ∧ j / 8 < s / 8
            ∧ (j % 8 = s % 8 + 1 ∨ j % 8 + 1 = s % 8))
      ∧ ((black_backward_pawns pawn_e2_against_f5).testBit 37 = true ↔
        ∃ s, s < 64 ∧ s % 8 = 37 % 8 ∧ s / 8 ≤ 37 / 8
          ∧ (∃ j, (pawn_e2_against_f5.p WHITE PAWN).testBit j = true ∧ j / 8 + 1 = s / 8
            ∧ (j % 8 = s % 8 + 1 ∨ j % 8 + 1 = s % 8))
          ∧ ¬ ∃ j, (pawn_e2_against_f5.p BLACK PAWN).testBit j = true ∧ s / 8 < j / 8
            ∧ (j % 8 = s % 8 + 1 ∨ j % 8 + 1 = s % 8)) :=
  ⟨(backward_pawns_iff pawn_e2_against_f5 (wf_of_wfb _ (by decide))).1 12 (by decide),
    (backward_pawns_iff pawn_e2_against_f5 (wf_of_wfb _ (by decide))).2 37 (by decide)⟩

/-- Witness of C17: doubled white pawns on the e-file and doubled black pawns on the a-file,
one doubled pawn a side, with every tuning constant 3 and the doubled-pawn penalty 0 or 5. -/
theorem doubled_pawn_count_witness :
    (pop_count (white_doubled_pawns doubled_pawns_position)
        = (((squares (doubled_pawns_position.p WHITE PAWN)).filter
            (fun i => ∃ j ∈ squares (doubled_pawns_position.p WHITE PAWN),
              j % 8 = i % 8 ∧ i < j)).card : Int)
      ∧ pop_count (white_doubled_pawns doubled_pawns_position)
        = ((∑ f in Finset.range 8,
            (((squares (doubled_pawns_position.p WHITE PAWN)).filter
              (fun i => i % 8 = f)).card - 1) : Nat) : Int))
    ∧ (pop_count (black_doubled_pawns doubled_pawns_position)
        = (((squares (doubled_pawns_position.p BLACK PAWN)).filter
            (fun i => ∃ j ∈ squares (doubled_pawns_position.p BLACK PAWN),
              j % 8 = i % 8 ∧ j < i)).card : Int)
      ∧ pop_count (black_doubled_pawns doubled_pawns_position)
        = ((∑ f in Finset.range 8,
            (((squares (doubled_pawns_position.p BLACK PAWN)).filter
              (fun i => i % 8 = f)).card - 1) : Nat) : Int))
    ∧ ∃ v,
        evaluate { sample_params 3 (fun _ => 0) (fun _ => 0) with DOUBLED_PAWN_PENALTY := 0 }
          zero_tables doubled_pawns_position = some v
        ∧ evaluate { sample_params 3 (fun _ => 0) (fun _ => 0) with DOUBLED_PAWN_PENALTY := 5 }
          zero_tables doubled_pawns_position
          = some (v - pop_count (white_doubled_pawns doubled_pawns_position) * 5
              + pop_count (black_doubled_pawns doubled_pawns_position) * 5) :=
  ⟨(doubled_pawn_count doubled_pawns_position (wf_of_wfb _ (by decide))).1,
    (doubled_pawn_count doubled_pawns_position (wf_of_wfb _ (by decide))).2.1,
    (doubled_pawn_count doubled_pawns_position (wf_of_wfb _ (by decide))).2.2
      (sample_params 3 (fun _ => 0) (fun _ => 0)) zero_tables 5
      (by decide) (by decide) (by decide) (by decide) (by decide)⟩

/-- Witness of C18: the white pawn on e2 (square 12) and the black pawn on f5 (square 37) of
`pawn_e2_against_f5` are the only pawns of their sides. -/
theorem isolated_pawns_iff_witness :
    ((white_isolated_pawns pawn_e2_against_f5).testBit 12 = true ↔
        ¬ ∃ j, (pawn_e2_against_f5.p WHITE PAWN).testBit j = true
          ∧ (j % 8 = 12 % 8 + 1 ∨ j % 8 + 1 = 12 % 8))
      ∧ ((black_isolated_pawns pawn_e2_against_f5).testBit 37 = true ↔
        ¬ ∃ j, (pawn_e2_against_f5.p BLACK PAWN).testBit j = true
          ∧ (j % 8 = 37 % 8 + 1 ∨ j % 8 + 1 = 37 % 8)) :=
  ⟨(isolated_pawns_iff pawn_e2_against_f5 (wf_of_wfb _ (by decide))).1
      (fun j hj => by
        have h : j = 12 := eq_of_testBit_two_pow hj
        omega)
      12 (by decide),
    (isolated_pawns_iff pawn_e2_against_f5 (wf_of_wfb _ (by decide))).2
      (fun j hj => by
        have h : j = 37 := eq_of_testBit_two_pow hj
        omega)
      37 (by decide)⟩

/-! ### Claim C21: range, midpoint and monotonicity of the shaping function -/

/-- The denominator of `sigmoid` in the real-number model exceeds 1: the power of 10 is
positive. -/
theorem sigmoid_denominator_gt_one (x high : ℝ) :
    1 < 1 + (10 : ℝ) ^ (-x / (high / 2)) := by
  have hp : 0 < (10 : ℝ) ^ (-x / (high / 2)) := Real.rpow_pos_of_pos (by norm_num) _
  linarith

/-- C21: in the real-number model (`pow` the real power), for every `high > 0` the value
`sigmoid(x, high)` lies strictly between 0 and 1 for every real `x`, `sigmoid(0, high)` is 1/2,
and `sigmoid` is strictly increasing in `x`. -/
theorem sigmoid_range_midpoint_increasing (high : ℝ) (h : 0 < high) :
    (∀ x : ℝ, 0 < sigmoid (fun a b : ℝ => a ^ b) x high
        ∧ sigmoid (fun a b : ℝ => a ^ b) x high < 1)
      ∧ sigmoid (fun a b : ℝ => a ^ b) 0 high = 1 / 2
      ∧ ∀ x y : ℝ, x < y →
          sigmoid (fun a b : ℝ => a ^ b) x high < sigmoid (fun a b : ℝ => a ^ b) y high := by
  simp only [sigmoid]
  refine ⟨fun x => ⟨?_, ?_⟩, ?_, fun x y hxy => ?_⟩
  · have hd := sigmoid_denominator_gt_one x high
    exact one_div_pos.mpr (by linarith)
  · have hd := sigmoid_denominator_gt_one x high
    rw [div_lt_one (by linarith)]
    exact hd
  · rw [neg_zero, zero_div, Real.rpow_zero]
    norm_num
  · have hy := sigmoid_denominator_gt_one y high
    have hexp : -y / (high / 2) < -x / (high / 2) :=
      div_lt_div_of_pos_right (neg_lt_neg hxy) (by positivity)
    have hpow : (10 : ℝ) ^ (-y / (high / 2)) < (10 : ℝ) ^ (-x / (high / 2)) :=
      Real.rpow_lt_rpow_of_exponent_lt (by norm_num) hexp
    exact one_div_lt_one_div_of_lt (by linarith) (by linarith)

/-- Witness of C21 at `high = 2`, with the values at `x = 1`, `x = 0` and the pair `1 < 3`. -/
theorem sigmoid_range_midpoint_increasing_witness :
    (0 < sigmoid (fun a b : ℝ => a ^ b) 1 2 ∧ sigmoid (fun a b : ℝ => a ^ b) 1 2 < 1)
      ∧ sigmoid (fun a b : ℝ => a ^ b) 0 2 = 1 / 2
      ∧ sigmoid (fun a b : ℝ => a ^ b) 1 2 < sigmoid (fun a b : ℝ => a ^ b) 3 2 :=
  ⟨(sigmoid_range_midpoint_increasing 2 (by norm_num)).1 1,
    (sigmoid_range_midpoint_increasing 2 (by norm_num)).2.1,
    (sigmoid_range_midpoint_increasing 2 (by norm_num)).2.2 1 3 (by norm_num)⟩

end Gunborg
